import Mathlib

/-!
# Verification of the blstoise BLS12-381 pairing library

A shallow embedding of the TypeScript sources (`src/ff.ts`, `src/point.ts`,
`src/pairing.ts`, `src/bls.ts` and the unnamed tower / utility files)
into Lean 4, together with proofs and refutations of the frozen claims.

Conventions of the embedding:
* JavaScript `bigint` values are embedded as `ℤ` (or `ℕ` where the source
  value is manifestly non-negative).
* `new Fq(x)` reduces its argument modulo the field prime `P`; we embed the
  base field as `ZMod P`, whose arithmetic is exactly arithmetic mod `P` on
  canonical representatives.  The extension fields are structures holding
  their coordinates, mirroring the classes `Fq2`, `Fq6`, `Fq12`.
* JavaScript `while` loops are embedded as fuel-indexed recursions via
  `Nat.rec`; the fuel is always chosen provably larger than the number of
  iterations the loop performs, so the artificial out-of-fuel branch is
  unreachable on the inputs a statement is about.
* Code that can `throw` is embedded in `Except Err`; each `throw` site is
  mapped to an `Err` value named after §7 of the specification.
* Some loop bodies contain a conditional of the form
  `if k = 0 then step else step` with identical branches (see `strict`):
  this is semantically the identity (`ite_self`) and only forces the
  evaluation order during kernel reduction.
-/

set_option maxRecDepth 100000

/-- BLS12-381 field prime (ff.ts `P`). -/
def P : ℕ := 0x1a0111ea397fe69a4b1ba7b6434bacd764774b84f38512bf6730d2a0f6b0f6241eabfffeb153ffffb9feffffffffaaab

/-- BLS12-381 curve (scalar field) order (ff.ts `R`). -/
def R : ℕ := 0x73eda753299d7d483339d80809a1d80553bda402fffe5bfeffffffff00000001

/-- The absolute value of the BLS12-381 curve parameter `X`
(`ff.ts` exports `X = 0xd201000000010000n`; the unnamed tower file exports
`X = -0xd201000000010000n` and iterates over `abs(X)`). -/
def Xabs : ℕ := 0xd201000000010000

/-- The final-exponentiation exponent `(P ** 12n - 1n) / R` of pairing.ts. -/
def hExp : ℕ := (P ^ 12 - 1) / R

/-- Error kinds thrown by the source (specification §7). -/
inductive Err : Type where
  | inversionOfZero : Err
  | noSquareRoot : Err
  | invalidPoint : Err
  | invalidLength : Err
  | inputMismatch : Err
  | invalidExpandLength : Err
  | notInvertible : Err
  | witnessComputationFailed : Err
  | witnessResidueCheckFailed : Err
  | rangeError : Err
  | assertFailed : Err
deriving DecidableEq, Repr

/-- Results of fallible operations compare decidably (used to evaluate
concrete runs). -/
instance {ε α : Type} [DecidableEq ε] [DecidableEq α] : DecidableEq (Except ε α) :=
  fun a b =>
    match a, b with
    | .ok x, .ok y =>
      if h : x = y then .isTrue (congrArg Except.ok h)
      else .isFalse fun hh => h (Except.ok.inj hh)
    | .error x, .error y =>
      if h : x = y then .isTrue (congrArg Except.error h)
      else .isFalse fun hh => h (Except.error.inj hh)
    | .ok _, .error _ => .isFalse fun hh => Except.noConfusion hh
    | .error _, .ok _ => .isFalse fun hh => Except.noConfusion hh

/-- The base field: integers in `[0, P)` with arithmetic mod `P`
(class `Fq` of ff.ts; its constructor reduces via `mod(x, P)`). -/
abbrev Fq : Type := ZMod P

theorem P_pos : 0 < P := by decide

instance : NeZero P := ⟨by decide⟩

/-- ff.ts `mod(n, m) = ((n % m) + m) % m` with JavaScript `%`, which is the
truncated remainder `Int.tmod`. -/
def jsMod (n m : ℤ) : ℤ := (n.tmod m + m).tmod m

theorem tmod_neg_lt (n : ℤ) {m : ℤ} (hm : 0 < m) : -m < n.tmod m := by
  rcases n with k | k
  · simp only [Int.ofNat_eq_coe]
    have h := Int.tmod_nonneg m (Int.natCast_nonneg k)
    omega
  · obtain ⟨j, rfl⟩ : ∃ j : ℕ, m = (j : ℤ) := ⟨m.toNat, by omega⟩
    have hj : 0 < j := by exact_mod_cast hm
    have hcalc : (Int.negSucc k).tmod (j : ℤ) = -((k.succ % j : ℕ) : ℤ) := rfl
    have hlt := Nat.mod_lt k.succ hj
    omega

theorem jsMod_eq_emod (n : ℤ) {m : ℤ} (hm : 0 < m) : jsMod n m = n % m := by
  unfold jsMod
  have hub : n.tmod m < m := Int.tmod_lt_of_pos n hm
  have hlb : -m < n.tmod m := tmod_neg_lt n hm
  have hnn : 0 ≤ n.tmod m + m := by omega
  rw [Int.tmod_eq_emod hnn (le_of_lt hm), Int.tmod_def n m]
  have e1 : n - m * n.tdiv m + m = n + m * (1 - n.tdiv m) := by ring
  rw [e1, Int.add_mul_emod_self_left]

theorem jsMod_nonneg (n : ℤ) {m : ℤ} (hm : 0 < m) : 0 ≤ jsMod n m := by
  rw [jsMod_eq_emod n hm]; exact Int.emod_nonneg n (by omega)

theorem jsMod_lt (n : ℤ) {m : ℤ} (hm : 0 < m) : jsMod n m < m := by
  rw [jsMod_eq_emod n hm]; exact Int.emod_lt_of_pos n hm

/-! ## The base field `Fq` (ff.ts) -/

/-- The recursive extended binary GCD of ff.ts (`gcd(u, v, x1, x2, p)`),
with explicit fuel.  JavaScript `>> 1n` on a bigint is a floor shift
(`Int.fdiv · 2`), and `%` is `Int.tmod`.  The two base cases and the odd
`x2` branch refer to the module constant `P` while the odd `x1` branch uses
the parameter `p`, exactly as the source does.  Out of fuel maps to the
(unreachable) generic failure. -/
def gcdW (fuel : ℕ) : ℤ → ℤ → ℤ → ℤ → ℤ → Except Err ℤ :=
  Nat.rec (motive := fun _ => ℤ → ℤ → ℤ → ℤ → ℤ → Except Err ℤ)
    (fun _ _ _ _ _ => .error .assertFailed)
    (fun _ ih u v x1 x2 p =>
      if ¬(0 < u ∧ 0 < v) then .error .assertFailed
      else if u = 1 then .ok (jsMod x1 (P : ℤ))
      else if v = 1 then .ok (jsMod x2 (P : ℤ))
      else if u.tmod 2 = 0 then
        if x1.tmod 2 = 0 then ih (u.fdiv 2) v (x1.fdiv 2) x2 p
        else ih (u.fdiv 2) v ((x1 + p).fdiv 2) x2 p
      else if v.tmod 2 = 0 then
        if x2.tmod 2 = 0 then ih u (v.fdiv 2) x1 (x2.fdiv 2) p
        else ih u (v.fdiv 2) x1 ((x2 + (P : ℤ)).fdiv 2) p
      else if v ≤ u then ih (u - v) v (x1 - x2) x2 p
      else if u < v then ih u (v - u) x1 (x2 - x1) p
      else .error .assertFailed)
    fuel

theorem gcdW_succ (n : ℕ) (u v x1 x2 p : ℤ) :
    gcdW (n + 1) u v x1 x2 p =
      (if ¬(0 < u ∧ 0 < v) then .error .assertFailed
      else if u = 1 then .ok (jsMod x1 (P : ℤ))
      else if v = 1 then .ok (jsMod x2 (P : ℤ))
      else if u.tmod 2 = 0 then
        if x1.tmod 2 = 0 then gcdW n (u.fdiv 2) v (x1.fdiv 2) x2 p
        else gcdW n (u.fdiv 2) v ((x1 + p).fdiv 2) x2 p
      else if v.tmod 2 = 0 then
        if x2.tmod 2 = 0 then gcdW n u (v.fdiv 2) x1 (x2.fdiv 2) p
        else gcdW n u (v.fdiv 2) x1 ((x2 + (P : ℤ)).fdiv 2) p
      else if v ≤ u then gcdW n (u - v) v (x1 - x2) x2 p
      else if u < v then gcdW n u (v - u) x1 (x2 - x1) p
      else .error .assertFailed) := rfl

namespace Fq

/-- `Fq.zero()` -/
def zero : Fq := 0

/-- `Fq.one()` (tower file). -/
def one : Fq := 1

/-- `fromTuple([x])` / `new Fq(x)`: reduce an integer mod `P`. -/
def fromInt (x : ℤ) : Fq := (x : Fq)

/-- `Fq.prototype.add` (`new Fq(this.x + rhs.x)`). -/
def add (a b : Fq) : Fq := a + b

/-- `Fq.prototype.sub` (`new Fq(this.x - rhs.x)`). -/
def sub (a b : Fq) : Fq := a - b

/-- `Fq.prototype.neg` (`new Fq(-this.x)`). -/
def neg (a : Fq) : Fq := -a

/-- `Fq.prototype.mul` (`new Fq(this.x * rhs.x)`). -/
def mul (a b : Fq) : Fq := a * b

/-- `Fq.prototype.mulByScalar` (`new Fq(this.x * c)`). -/
def mulByScalar (a : Fq) (c : ℤ) : Fq := a * (c : Fq)

/-- `Fq.prototype.mulByNonResidue` (the identity on `Fq`). -/
def mulByNonResidue (a : Fq) : Fq := a

/-- `Fq.prototype.inv`: throws `InversionOfZero` on zero, otherwise runs the
extended binary GCD `gcd(this.x, P, 1n, 0n, P)`.  The fuel `a.val + P + 1`
dominates the quantity `u + v`, which strictly decreases. -/
def inv (a : Fq) : Except Err Fq :=
  if a = 0 then .error .inversionOfZero
  else (gcdW (a.val + P + 1) (a.val : ℤ) (P : ℤ) 1 0 (P : ℤ)).map fromInt

/-- `Fq.prototype.exp` (square-and-multiply, least-significant bit first);
all call sites pass a non-negative exponent.  The fuel `y` dominates the
iteration count `bitlen y`. -/
def expAux (fuel : ℕ) : Fq → Fq → ℕ → Fq :=
  Nat.rec (motive := fun _ => Fq → Fq → ℕ → Fq)
    (fun _ result _ => result)
    (fun _ ih x result y =>
      if y = 0 then result
      else ih (x.mul x) (if y % 2 = 1 then result.mul x else result) (y / 2))
    fuel

def exp (a : Fq) (y : ℕ) : Fq := expAux y a one y

theorem expAux_succ_q (n : ℕ) (x result : Fq) (y : ℕ) :
    expAux (n + 1) x result y =
      (if y = 0 then result
       else expAux n (x.mul x) (if y % 2 = 1 then result.mul x else result) (y / 2)) := rfl

/-- `Fq.prototype.sqrt`: `x^((P+1)/4)`, validated by squaring. -/
def sqrt (a : Fq) : Except Err Fq :=
  let root := a.exp ((P + 1) / 4)
  if ¬(root.mul root = a) then .error .noSquareRoot else .ok root

/-- `Fq.prototype.lt` (tower file): comparison of canonical representatives. -/
def lt (a b : Fq) : Prop := a.val < b.val

instance : DecidablePred fun a : Fq × Fq => lt a.1 a.2 := fun _ => by
  unfold lt; infer_instance

instance (a b : Fq) : Decidable (lt a b) := by unfold lt; infer_instance

/-- `Fq.prototype.signBigEndian` (tower file): `this.lt(this.neg())`. -/
def signBigEndian (a : Fq) : Bool := decide (lt a (Fq.neg a))

end Fq

/-! ## The quadratic extension `Fq2` (ff.ts) -/

/-- `Fq2`: pair `(x, y)` read as `x + y·u`, `u² = -1`. -/
structure Fq2 : Type where
  x : Fq
  y : Fq
deriving DecidableEq, Repr

namespace Fq2

/-- `Fq2.fromTuple([u0, u1])`. -/
def fromTuple (u0 u1 : ℤ) : Fq2 := ⟨Fq.fromInt u0, Fq.fromInt u1⟩

/-- `Fq2.fromNumber(n)`. -/
def fromNumber (n : ℤ) : Fq2 := fromTuple n 0

def zero : Fq2 := ⟨0, 0⟩
def one : Fq2 := ⟨1, 0⟩

/-- `Fq2.prototype.gt`: both coordinates strictly greater. -/
def gt (a b : Fq2) : Bool := decide (b.x.val < a.x.val) && decide (b.y.val < a.y.val)

/-- `Fq2.prototype.lt`: both coordinates strictly smaller. -/
def lt (a b : Fq2) : Bool := decide (a.x.val < b.x.val) && decide (a.y.val < b.y.val)

def add (a b : Fq2) : Fq2 := ⟨a.x.add b.x, a.y.add b.y⟩
def sub (a b : Fq2) : Fq2 := ⟨a.x.sub b.x, a.y.sub b.y⟩
def neg (a : Fq2) : Fq2 := ⟨a.x.neg, a.y.neg⟩

/-- `Fq2.prototype.mul` (schoolbook with `u² = -1`). -/
def mul (a b : Fq2) : Fq2 :=
  ⟨(a.x.mul b.x).sub (a.y.mul b.y), (a.y.mul b.x).add (a.x.mul b.y)⟩

/-- `Fq2.prototype.mulByScalar`. -/
def mulByScalar (a : Fq2) (c : ℤ) : Fq2 := a.mul (fromNumber c)

/-- `Fq2.prototype.mulByNonResidue`: multiply by `1 + u`. -/
def mulByNonResidue (a : Fq2) : Fq2 := ⟨a.x.sub a.y, a.x.add a.y⟩

/-- `Fq2.prototype.inv`: `factor = (x² + y²)⁻¹`, result `(x·f, -y·f)`. -/
def inv (a : Fq2) : Except Err Fq2 :=
  ((a.x.mul a.x).add (a.y.mul a.y)).inv.map fun factor =>
    ⟨a.x.mul factor, a.y.neg.mul factor⟩

/-- `Fq2.prototype.exp`. -/
def expAux (fuel : ℕ) : Fq2 → Fq2 → ℕ → Fq2 :=
  Nat.rec (motive := fun _ => Fq2 → Fq2 → ℕ → Fq2)
    (fun _ result _ => result)
    (fun _ ih x result y =>
      if y = 0 then result
      else ih (x.mul x) (if y % 2 = 1 then result.mul x else result) (y / 2))
    fuel

def exp (a : Fq2) (y : ℕ) : Fq2 := expAux y a one y

theorem expAux_succ_q2 (n : ℕ) (x result : Fq2) (y : ℕ) :
    expAux (n + 1) x result y =
      (if y = 0 then result
       else expAux n (x.mul x) (if y % 2 = 1 then result.mul x else result) (y / 2)) := rfl

/-- `Fq2.ORDER = P ** 2n`. -/
def ORDER : ℕ := P ^ 2

/-- `Fq2.EIGHTH_ROOTS_OF_UNITY[k] = (1 + u) ^ ((ORDER * k) / 8)`. -/
def EIGHTH_ROOTS_OF_UNITY : List Fq2 :=
  (List.range 8).map fun k => (fromTuple 1 1).exp (ORDER * k / 8)

/-- `Fq2.EVEN_EIGHT_ROOTS_OF_UNITY`: the even-index eighth roots. -/
def EVEN_EIGHT_ROOTS_OF_UNITY : List Fq2 :=
  (List.range 4).map fun k => (fromTuple 1 1).exp (ORDER * (2 * k) / 8)

/-- `Fq2.NON_RESIDUE = Fq2.fromTuple([1n, 1n])`. -/
def NON_RESIDUE : Fq2 := fromTuple 1 1

/-- `Fq2.prototype.sqrt` (eighth-roots-of-unity method: find the index of
`cand²/value` among the even eighth roots, divide the candidate by the
eighth root at that position, then pick the lexicographically larger of
the two signs). -/
def sqrt (a : Fq2) : Except Err Fq2 := do
  let candidateSquareroot := a.exp ((ORDER + 8) / 16)
  let invValue ← a.inv
  let check := (candidateSquareroot.mul candidateSquareroot).mul invValue
  match EVEN_EIGHT_ROOTS_OF_UNITY.findIdx? (fun root => root = check) with
  | none => .error .noSquareRoot
  | some rootIdx => do
    let root := EIGHTH_ROOTS_OF_UNITY.getD rootIdx zero
    let rootInv ← root.inv
    let x1 := candidateSquareroot.mul rootInv
    let x2 := x1.neg
    if x1.gt x2 then pure x1 else pure x2

/-- `Fq2.prototype.conjugate`. -/
def conjugate (a : Fq2) : Fq2 := ⟨a.x, a.y.neg⟩

/-- `Fq2.prototype.frobeniusMap`: conjugate for odd powers. -/
def frobeniusMap (a : Fq2) (power : ℕ) : Fq2 :=
  if power % 2 = 1 then a.conjugate else ⟨a.x, a.y⟩

/-- `Fq2.prototype.signBigEndian`. -/
def signBigEndian (a : Fq2) : Bool := a.lt a.neg

end Fq2

/-! ## The sextic extension `Fq6` (ff.ts / tower file) -/

/-- `Fq6`: triple `(x, y, z)` read as `x + y·v + z·v²`, `v³ = 1 + u`. -/
structure Fq6 : Type where
  x : Fq2
  y : Fq2
  z : Fq2
deriving DecidableEq, Repr

/-- `frobeniusCoeffsPowers(modulus, degree, num, divisor)`:
`[(a * modulusʲ - a) / divisor mod modulus^degree | j < degree]` for
`a = 1..num`. -/
def frobeniusCoeffsPowers (modulus degree num divisor : ℕ) : List (List ℕ) :=
  (List.range num).map fun i =>
    (List.range degree).map fun j =>
      (i + 1) * modulus ^ j - (i + 1) |>.div divisor |>.mod (modulus ^ degree)

/-- `frobeniusCoeffs(nonResidue, modulus, degree, num, divisor)` over `Fq2`. -/
def frobeniusCoeffs (nonResidue : Fq2) (modulus degree num divisor : ℕ) : List (List Fq2) :=
  (frobeniusCoeffsPowers modulus degree num divisor).map fun ps =>
    ps.map fun p => nonResidue.exp p

namespace Fq6

def fromTuple (x y z : Fq2) : Fq6 := ⟨x, y, z⟩
def fromNumber (n : ℤ) : Fq6 := ⟨Fq2.fromNumber n, Fq2.zero, Fq2.zero⟩
def zero : Fq6 := ⟨Fq2.zero, Fq2.zero, Fq2.zero⟩
def one : Fq6 := ⟨Fq2.one, Fq2.zero, Fq2.zero⟩

def add (a b : Fq6) : Fq6 := ⟨a.x.add b.x, a.y.add b.y, a.z.add b.z⟩
def sub (a b : Fq6) : Fq6 := ⟨a.x.sub b.x, a.y.sub b.y, a.z.sub b.z⟩

/-- `Fq6.prototype.neg` is `Fq6.zero().sub(this)` in the source. -/
def neg (a : Fq6) : Fq6 := zero.sub a

/-- `Fq6.prototype.mul` (6-multiplication Karatsuba-style formula). -/
def mul (a b : Fq6) : Fq6 :=
  let t0 := a.x.mul b.x
  let t1 := a.y.mul b.y
  let t2 := a.z.mul b.z
  let z0 := t0.add ((((a.y.add a.z).mul (b.y.add b.z)).sub (t1.add t2)).mulByNonResidue)
  let z1 := (((a.x.add a.y).mul (b.x.add b.y)).sub (t0.add t1)).add t2.mulByNonResidue
  let z2 := (t1.add ((a.x.add a.z).mul (b.x.add b.z))).sub (t0.add t2)
  ⟨z0, z1, z2⟩

/-- `Fq6.prototype.mulByNonResidue`: `(ξ·z, x, y)`. -/
def mulByNonResidue (a : Fq6) : Fq6 := ⟨a.z.mulByNonResidue, a.x, a.y⟩

/-- `Fq6.prototype.inv`. -/
def inv (a : Fq6) : Except Err Fq6 :=
  let t0 := (a.x.mul a.x).sub ((a.y.mul a.z).mulByNonResidue)
  let t1 := ((a.z.mul a.z).mulByNonResidue).sub (a.x.mul a.y)
  let t2 := (a.y.mul a.y).sub (a.x.mul a.z)
  (((a.x.mul t0).add ((a.z.mul t1).mulByNonResidue)).add
      ((a.y.mul t2).mulByNonResidue)).inv.map fun factor =>
    ⟨t0.mul factor, t1.mul factor, t2.mul factor⟩

/-- `Fq6.prototype.exp`. -/
def expAux (fuel : ℕ) : Fq6 → Fq6 → ℕ → Fq6 :=
  Nat.rec (motive := fun _ => Fq6 → Fq6 → ℕ → Fq6)
    (fun _ result _ => result)
    (fun _ ih x result y =>
      if y = 0 then result
      else ih (x.mul x) (if y % 2 = 1 then result.mul x else result) (y / 2))
    fuel

def exp (a : Fq6) (y : ℕ) : Fq6 := expAux y a one y

theorem expAux_succ_q6 (n : ℕ) (x result : Fq6) (y : ℕ) :
    expAux (n + 1) x result y =
      (if y = 0 then result
       else expAux n (x.mul x) (if y % 2 = 1 then result.mul x else result) (y / 2)) := rfl

/-- `Fq6.FROBENIUS_COEFFICIENTS = frobeniusCoeffs(Fq2.NON_RESIDUE, Q, 6n, 2n, 3n)`. -/
def FROBENIUS_COEFFICIENTS : List (List Fq2) :=
  frobeniusCoeffs Fq2.NON_RESIDUE P 6 2 3

/-- `Fq6.prototype.conjugate` (tower file; negates the middle coordinate). -/
def conjugate (a : Fq6) : Fq6 := ⟨a.x, a.y.neg, a.z⟩

/-- `Fq6.prototype.frobeniusMap`. -/
def frobeniusMap (a : Fq6) (power : ℕ) : Fq6 :=
  let c := power % 6
  ⟨a.x.frobeniusMap power,
   (a.y.frobeniusMap power).mul ((FROBENIUS_COEFFICIENTS.getD 0 []).getD c Fq2.zero),
   (a.z.frobeniusMap power).mul ((FROBENIUS_COEFFICIENTS.getD 1 []).getD c Fq2.zero)⟩

end Fq6

/-! ## The dodecic extension `Fq12` (ff.ts / tower file) -/

/-- `Fq12`: pair `(x, y)` read as `x + y·w`, `w² = v`. -/
structure Fq12 : Type where
  x : Fq6
  y : Fq6
deriving DecidableEq, Repr

/-- `fq4Square(a, b)` (tower file). -/
def fq4Square (a b : Fq2) : Fq2 × Fq2 :=
  let a2 := a.mul a
  let b2 := b.mul b
  let abSum := a.add b
  (b2.mulByNonResidue.add a2, (abSum.mul abSum).sub a2 |>.sub b2)

namespace Fq12

def fromTuple (x y : Fq6) : Fq12 := ⟨x, y⟩
def fromNumber (n : ℤ) : Fq12 := ⟨Fq6.fromNumber n, Fq6.zero⟩
def zero : Fq12 := ⟨Fq6.zero, Fq6.zero⟩
def one : Fq12 := ⟨Fq6.one, Fq6.zero⟩

def add (a b : Fq12) : Fq12 := ⟨a.x.add b.x, a.y.add b.y⟩
def sub (a b : Fq12) : Fq12 := ⟨a.x.sub b.x, a.y.sub b.y⟩
def neg (a : Fq12) : Fq12 := zero.sub a

/-- `Fq12.prototype.mul`. -/
def mul (a b : Fq12) : Fq12 :=
  let t1 := a.x.mul b.x
  let t2 := a.y.mul b.y
  ⟨t1.add t2.mulByNonResidue, ((a.x.add a.y).mul (b.x.add b.y)).sub (t1.add t2)⟩

/-- `Fq12.prototype.inv`. -/
def inv (a : Fq12) : Except Err Fq12 :=
  ((a.x.mul a.x).sub ((a.y.mul a.y).mulByNonResidue)).inv.map fun factor =>
    ⟨a.x.mul factor, a.y.neg.mul factor⟩

/-- `Fq12.prototype.exp`. -/
def expAux (fuel : ℕ) : Fq12 → Fq12 → ℕ → Fq12 :=
  Nat.rec (motive := fun _ => Fq12 → Fq12 → ℕ → Fq12)
    (fun _ result _ => result)
    (fun _ ih x result y =>
      if y = 0 then result
      else ih (x.mul x) (if y % 2 = 1 then result.mul x else result) (y / 2))
    fuel

def exp (a : Fq12) (y : ℕ) : Fq12 := expAux y a one y

theorem expAux_succ_q12 (n : ℕ) (x result : Fq12) (y : ℕ) :
    expAux (n + 1) x result y =
      (if y = 0 then result
       else expAux n (x.mul x) (if y % 2 = 1 then result.mul x else result) (y / 2)) := rfl

/-- `Fq12.prototype.conjugate`. -/
def conjugate (a : Fq12) : Fq12 := ⟨a.x, a.y.neg⟩

/-- `Fq12.FROBENIUS_COEFFICIENTS = frobeniusCoeffs(Fq2.NON_RESIDUE, Q, 12n, 1n, 6n)`. -/
def FROBENIUS_COEFFICIENTS : List (List Fq2) :=
  frobeniusCoeffs Fq2.NON_RESIDUE P 12 1 6

/-- `Fq12.prototype.frobeniusMap`. -/
def frobeniusMap (a : Fq12) (power : ℕ) : Fq12 :=
  let x := a.x.frobeniusMap power
  let yf := a.y.frobeniusMap power
  let coeff := (FROBENIUS_COEFFICIENTS.getD 0 []).getD (power % 12) Fq2.zero
  ⟨x, ⟨yf.x.mul coeff, yf.y.mul coeff, yf.z.mul coeff⟩⟩

/-- `Fq12.prototype.cyclotomicSquare`. -/
def cyclotomicSquare (a : Fq12) : Fq12 :=
  let xx := a.x.x
  let xy := a.x.y
  let xz := a.x.z
  let yx := a.y.x
  let yy := a.y.y
  let yz := a.y.z
  let t34 := fq4Square xx yy
  let t56 := fq4Square yx xz
  let t78 := fq4Square xy yz
  let t9 := t78.2.mulByNonResidue
  let x : Fq6 :=
    ⟨((t34.1.sub xx).mulByScalar 2).add t34.1,
     ((t56.1.sub xy).mulByScalar 2).add t56.1,
     ((t78.1.sub xz).mulByScalar 2).add t78.1⟩
  let y : Fq6 :=
    ⟨((t9.add yx).mulByScalar 2).add t9,
     ((t34.2.add yy).mulByScalar 2).add t34.2,
     ((t56.2.add yz).mulByScalar 2).add t56.2⟩
  ⟨x, y⟩

/-- `bitlen(n)` of the tower file (`n.toString(2).length`); on `0` the
JavaScript rendering `"0"` has length 1. -/
def bitlen (n : ℕ) : ℕ := if n = 0 then 1 else n.log2 + 1

/-- Helper for `Fq12.prototype.cyclotomicExp`: iterations for the bit
indices `count - 1` down to `0`; in each step the recursor's minor premise
receives the predecessor, which is exactly the scanned bit index `i`. -/
def cyclotomicExpAux (a : Fq12) (power : ℕ) : ℕ → Fq12 → Fq12 :=
  Nat.rec (motive := fun _ => Fq12 → Fq12)
    (fun z => z)
    (fun i ih z =>
      let z1 := z.cyclotomicSquare
      ih (if (power >>> i) &&& 1 = 1 then a.mul z1 else z1))

theorem cyclotomicExpAux_succ (a : Fq12) (power i : ℕ) (z : Fq12) :
    cyclotomicExpAux a power (i + 1) z =
      cyclotomicExpAux a power i
        (if (power >>> i) &&& 1 = 1 then a.mul z.cyclotomicSquare
         else z.cyclotomicSquare) := rfl

/-- `Fq12.prototype.cyclotomicExp`: left-to-right binary scan over
`bitlen power` bits, starting from `one`. -/
def cyclotomicExp (a : Fq12) (power : ℕ) : Fq12 :=
  cyclotomicExpAux a power (bitlen power) one

/-- `Fq12.prototype.finalExp` (tower file): the Fuentes-Castañeda /
noble-curves addition chain, easy part first. -/
def finalExpChain (a : Fq12) : Except Err Fq12 :=
  a.inv.map fun ainv =>
    let t0 := (a.frobeniusMap 6).mul ainv
    let t1 := (t0.frobeniusMap 2).mul t0
    let t2 := (t1.cyclotomicExp Xabs).conjugate
    let t3 := (t1.cyclotomicSquare.conjugate).mul t2
    let t4 := (t3.cyclotomicExp Xabs).conjugate
    let t5 := (t4.cyclotomicExp Xabs).conjugate
    let t6 := ((t5.cyclotomicExp Xabs).conjugate).mul t2.cyclotomicSquare
    let t7 := (t6.cyclotomicExp Xabs).conjugate
    let t2_t5_pow_q2 := (t2.mul t5).frobeniusMap 2
    let t4_t1_pow_q3 := (t4.mul t1).frobeniusMap 3
    let t6_t1c_pow_q1 := (t6.mul t1.conjugate).frobeniusMap 1
    let t7_t3c_t1 := (t7.mul t3.conjugate).mul t1
    ((t2_t5_pow_q2.mul t4_t1_pow_q3).mul t6_t1c_pow_q1).mul t7_t3c_t1

end Fq12

/-! ## Points (point.ts) -/

/-- `toBigInt(bytes)` (utils): big-endian interpretation of a byte array. -/
def toBigInt (bytes : List ℕ) : ℕ := bytes.foldl (fun acc b => acc * 256 + b) 0

/-- Affine point on G1 with identity `(0, 0)` (class `PointG1`). -/
structure PointG1 : Type where
  x : Fq
  y : Fq
deriving DecidableEq, Repr

/-- Affine point on G2 with identity `(0, 0)` (class `PointG2`). -/
structure PointG2 : Type where
  x : Fq2
  y : Fq2
deriving DecidableEq, Repr

/-- Affine point over `Fq12` (class `PointGT`; only used by `untwist`). -/
structure PointGT : Type where
  x : Fq12
  y : Fq12
deriving DecidableEq, Repr

namespace PointG1

/-- `PointG1.generator()`. -/
def generator : PointG1 :=
  ⟨Fq.fromInt 3685416753713387016781088315183077757961620795782546409894578378688607592378376318836054947676345821548104185464507,
   Fq.fromInt 1339506544944476473020471379941921221584933875938349620426543736416511423956333506472724655353366534992391756441569⟩

/-- `PointG1.infinity()`. -/
def infinity : PointG1 := ⟨0, 0⟩

/-- `PointG1.prototype.double`. -/
def double (p : PointG1) : Except Err PointG1 :=
  if p = infinity then .ok p
  else
    ((p.y.mulByScalar 2).inv).map fun i =>
      let k := ((p.x.mul p.x).mulByScalar 3).mul i
      let x := ((k.mul k).sub p.x).sub p.x
      let y := (k.mul (p.x.sub x)).sub p.y
      ⟨x, y⟩

/-- `PointG1.prototype.add`. -/
def add (p q : PointG1) : Except Err PointG1 :=
  if p = infinity then .ok q
  else if q = infinity then .ok p
  else if p.x = q.x ∧ p.y = q.y then p.double
  else if p.x = q.x ∧ ¬(p.y = q.y) then .ok infinity
  else
    ((q.x.sub p.x).inv).map fun i =>
      let k := (q.y.sub p.y).mul i
      let x := ((k.mul k).sub p.x).sub q.x
      let y := (k.mul (p.x.sub x)).sub p.y
      ⟨x, y⟩

/-- `PointG1.prototype.mul` (double-and-add); fuel `c` dominates `bitlen c`. -/
def mulAux (fuel : ℕ) : PointG1 → PointG1 → ℕ → Except Err PointG1 :=
  Nat.rec (motive := fun _ => PointG1 → PointG1 → ℕ → Except Err PointG1)
    (fun _ acc _ => .ok acc)
    (fun _ ih base acc c =>
      if c = 0 then .ok acc
      else do
        let acc ← if c % 2 = 1 then acc.add base else .ok acc
        let base ← base.double
        ih base acc (c / 2))
    fuel

theorem mulAux_succ_g1 (n : ℕ) (base acc : PointG1) (c : ℕ) :
    mulAux (n + 1) base acc c =
      (if c = 0 then .ok acc
       else do
        let acc ← if c % 2 = 1 then acc.add base else .ok acc
        let base ← base.double
        mulAux n base acc (c / 2)) := rfl

def mul (p : PointG1) (c : ℕ) : Except Err PointG1 :=
  if c = 0 then .ok infinity
  else if c = 1 then .ok p
  else mulAux c p infinity c

/-- `PointG1.prototype.isOnCurve`: `y² = x³ + 4`, identity excluded. -/
def isOnCurve (p : PointG1) : Bool :=
  if p = infinity then false
  else decide (p.y.mul p.y = ((p.x.mul p.x).mul p.x).add (Fq.fromInt 4))

/-- `PointG1.prototype.isInSubgroup`: `[R]P = 0`. -/
def isInSubgroup (p : PointG1) : Except Err Bool :=
  (p.mul R).map fun q => q = infinity

/-- `PointG1.prototype.neg`. -/
def neg (p : PointG1) : PointG1 := ⟨p.x, p.y.neg⟩

end PointG1

namespace PointG2

/-- `PointG2.generator()`. -/
def generator : PointG2 :=
  ⟨Fq2.fromTuple
      352701069587466618187139116011060144890029952792775240219908644239793785735715026873347600343865175952761926303160
      3059144344244213709971259814753781636986470325476647558659373206291635324768958432433509563104347017837885763365758,
   Fq2.fromTuple
      1985150602287291935568054521177171638300868978215655730859378665066344726373823718423869104263333984641494340347905
      927553665492332455747201965776037880757740193453592970025027978793976877002675564980949289727957565575433344219582⟩

/-- `PointG2.infinity()`. -/
def infinity : PointG2 := ⟨Fq2.zero, Fq2.zero⟩

/-- `PointG2.prototype.double`. -/
def double (p : PointG2) : Except Err PointG2 :=
  if p = infinity then .ok p
  else
    ((p.y.mulByScalar 2).inv).map fun i =>
      let k := ((p.x.mul p.x).mulByScalar 3).mul i
      let x := ((k.mul k).sub p.x).sub p.x
      let y := (k.mul (p.x.sub x)).sub p.y
      ⟨x, y⟩

/-- `PointG2.prototype.add`. -/
def add (p q : PointG2) : Except Err PointG2 :=
  if p = infinity then .ok q
  else if q = infinity then .ok p
  else if p.x = q.x ∧ p.y = q.y then p.double
  else if p.x = q.x ∧ ¬(p.y = q.y) then .ok infinity
  else
    ((q.x.sub p.x).inv).map fun i =>
      let k := (q.y.sub p.y).mul i
      let x := ((k.mul k).sub p.x).sub q.x
      let y := (k.mul (p.x.sub x)).sub p.y
      ⟨x, y⟩

/-- `PointG2.prototype.mul`. -/
def mulAux (fuel : ℕ) : PointG2 → PointG2 → ℕ → Except Err PointG2 :=
  Nat.rec (motive := fun _ => PointG2 → PointG2 → ℕ → Except Err PointG2)
    (fun _ acc _ => .ok acc)
    (fun _ ih base acc c =>
      if c = 0 then .ok acc
      else do
        let acc ← if c % 2 = 1 then acc.add base else .ok acc
        let base ← base.double
        ih base acc (c / 2))
    fuel

theorem mulAux_succ_g2 (n : ℕ) (base acc : PointG2) (c : ℕ) :
    mulAux (n + 1) base acc c =
      (if c = 0 then .ok acc
       else do
        let acc ← if c % 2 = 1 then acc.add base else .ok acc
        let base ← base.double
        mulAux n base acc (c / 2)) := rfl

def mul (p : PointG2) (c : ℕ) : Except Err PointG2 :=
  if c = 0 then .ok infinity
  else if c = 1 then .ok p
  else mulAux c p infinity c

/-- `PointG2.prototype.isOnCurve`: `y² = x³ + (4 + 4u)`. -/
def isOnCurve (p : PointG2) : Bool :=
  if p = infinity then false
  else decide (p.y.mul p.y = ((p.x.mul p.x).mul p.x).add (Fq2.fromTuple 4 4))

/-- `PointG2.prototype.isInSubgroup`: `[R]P = 0`. -/
def isInSubgroup (p : PointG2) : Except Err Bool :=
  (p.mul R).map fun q => q = infinity

/-- `PointG2.prototype.neg`. -/
def neg (p : PointG2) : PointG2 := ⟨p.x, p.y.neg⟩

/-- `PointG2.prototype.untwist`: lift to an affine pair over `Fq12`. -/
def untwist (p : PointG2) : Except Err PointGT := do
  let root := Fq6.fromTuple Fq2.zero Fq2.one Fq2.zero
  let i1 ← (Fq12.fromTuple root Fq6.zero).inv
  let wideX := (Fq12.fromTuple (Fq6.fromTuple p.x Fq2.zero Fq2.zero) Fq6.zero).mul i1
  let i2 ← (Fq12.fromTuple Fq6.zero root).inv
  let wideY := (Fq12.fromTuple (Fq6.fromTuple p.y Fq2.zero Fq2.zero) Fq6.zero).mul i2
  return ⟨wideX, wideY⟩

end PointG2

/-! ## The pairing (pairing.ts) -/

/-- The naive square-and-multiply `finalExp(a0, exp)` of pairing.ts
(`while (exp > 1n) { ... }; return a0.mul(result)`), with fuel `exp`. -/
def finalExpAux (fuel : ℕ) : Fq12 → Fq12 → ℕ → Fq12 :=
  Nat.rec (motive := fun _ => Fq12 → Fq12 → ℕ → Fq12)
    (fun a0 result _ => a0.mul result)
    (fun _ ih a0 result e =>
      if e ≤ 1 then a0.mul result
      else if e % 2 = 0 then ih (a0.mul a0) result (e / 2)
      else ih (a0.mul a0) (result.mul a0) ((e - 1) / 2))
    fuel

theorem finalExpAux_succ (n : ℕ) (a0 result : Fq12) (e : ℕ) :
    finalExpAux (n + 1) a0 result e =
      (if e ≤ 1 then a0.mul result
       else if e % 2 = 0 then finalExpAux n (a0.mul a0) result (e / 2)
       else finalExpAux n (a0.mul a0) (result.mul a0) ((e - 1) / 2)) := rfl

/-- `finalExp(a0, exp)` of pairing.ts. -/
def finalExp (a0 : Fq12) (e : ℕ) : Fq12 := finalExpAux e a0 Fq12.one e

/-- The bit pattern the Miller loop iterates over: push the bits of `X`
least-significant first, pop the leading `1`, reverse. -/
def millerBits (cx : ℕ) : List Bool :=
  ((List.range (Nat.log2 cx + 1)).map fun i => decide ((cx >>> i) &&& 1 = 1)).dropLast.reverse

/-- `lineDouble(r, p)` of pairing.ts. -/
def lineDouble (r : PointG2) (p : PointG1) : Except Err Fq12 := do
  let wideR ← r.untwist
  let i ← (wideR.y.mul (Fq12.fromNumber 2)).inv
  let slope := ((wideR.x.mul wideR.x).mul (Fq12.fromNumber 3)).mul i
  let v := wideR.y.sub (slope.mul wideR.x)
  return ((Fq12.fromNumber p.y.val).sub ((Fq12.fromNumber p.x.val).mul slope)).sub v

/-- `lineAdd(r, q, p)` of pairing.ts. -/
def lineAdd (r q : PointG2) (p : PointG1) : Except Err Fq12 := do
  let wideR ← r.untwist
  let wideQ ← q.untwist
  if wideR.x = wideQ.x ∧ wideR.y = wideQ.y.neg then
    return (Fq12.fromNumber p.x.val).sub wideR.x
  else
    let i1 ← (wideQ.x.sub wideR.x).inv
    let slope := (wideQ.y.sub wideR.y).mul i1
    let i2 ← (wideR.x.sub wideQ.x).inv
    let v := ((wideQ.y.mul wideR.x).sub (wideR.y.mul wideQ.x)).mul i2
    return ((Fq12.fromNumber p.y.val).sub ((Fq12.fromNumber p.x.val).mul slope)).sub v

/-- The body of the Miller loop, folded over the bit list. -/
def millerLoop : List Bool → Fq12 → PointG2 → PointG1 → PointG2 → Except Err Fq12
  | [], acc, _, _, _ => .ok acc
  | i :: rest, acc, r, p, q => do
    let doubleR ← r.double
    let ld ← lineDouble r p
    let acc := (acc.mul acc).mul ld
    if i then do
      let r' ← doubleR.add q
      let la ← lineAdd doubleR q p
      millerLoop rest (acc.mul la) r' p q
    else
      millerLoop rest acc doubleR p q

/-- `miller(p, q)` of pairing.ts (the `src/` copy iterates over `X`
directly, the unnamed copy over `abs(X)`; both bit patterns are those of
`Xabs`). -/
def miller (p : PointG1) (q : PointG2) : Except Err Fq12 :=
  millerLoop (millerBits Xabs) Fq12.one q p q

/-- `pair(p, q)` of pairing.ts: identity short-circuit, then validation,
then the Miller loop and the naive final exponentiation by
`(P¹² - 1) / R`. -/
def pair (p : PointG1) (q : PointG2) : Except Err Fq12 :=
  if p = PointG1.infinity ∨ q = PointG2.infinity then .ok Fq12.one
  else do
    let sp ← p.isInSubgroup
    if ¬(sp ∧ p.isOnCurve) then .error .invalidPoint
    else do
      let sq ← q.isInSubgroup
      if ¬(sq ∧ q.isOnCurve) then .error .invalidPoint
      else do
        let r ← miller p q
        return finalExp r hExp

/-- The accumulation loop of `validatePairing` (pairing.ts): for each pair
of points, validate, run Miller, multiply into the accumulator. -/
def validateLoop : List (PointG1 × PointG2) → Fq12 → Except Err Fq12
  | [], acc => .ok acc
  | (p, q) :: rest, acc =>
    if ¬p.isOnCurve then .error .invalidPoint
    else do
      let sp ← p.isInSubgroup
      if ¬sp then .error .invalidPoint
      else if ¬q.isOnCurve then .error .invalidPoint
      else do
        let sq ← q.isInSubgroup
        if ¬sq then .error .invalidPoint
        else do
          let r ← miller p q
          validateLoop rest (acc.mul r)

/-- `validatePairing(ps, qs)` of pairing.ts: throws `Invalid inputs` on a
length mismatch, validates every point (throwing `Invalid point`), forms
the Miller product, applies the final exponentiation once and compares
with one. -/
def validatePairing (ps : List PointG1) (qs : List PointG2) : Except Err Bool :=
  if ps.length ≠ qs.length then .error .inputMismatch
  else do
    let result ← validateLoop (ps.zip qs) Fq12.one
    return finalExp result hExp = Fq12.one

/-! ## expand_message_xmd (bls.ts and its second copy) -/

/-- `toBigEndianBuffer(big, byteLength)` (utils): the source fills the
buffer from the end while `big > 0`, ignoring writes below index 0 (typed
arrays drop out-of-range writes); the result is the low `byteLength` bytes
of `big`, big-endian. -/
def toBigEndianBuffer (big : ℕ) (len : ℕ) : List ℕ :=
  (List.range len).map fun i => big / 256 ^ (len - 1 - i) % 256

/-- `target.set(src, offset)` on typed arrays: throws a `RangeError` when
the offset is negative or the source overruns the target. -/
def tySet (target src : List ℕ) (offset : ℤ) : Except Err (List ℕ) :=
  if offset < 0 ∨ offset.toNat + src.length > target.length then .error .rangeError
  else .ok (target.take offset.toNat ++ src ++ target.drop (offset.toNat + src.length))

/-- The shared body of the `expandMsgXmd` loop, iterated over the index
list; the state is `(b_i, bi, out)`.  A `Uint8Array` literal entry is
reduced mod 256. -/
def xmdLoop (sha : List ℕ → List ℕ) (dst : List ℕ) (domainLen : ℕ) (b0 : List ℕ) :
    List ℕ → List ℕ × List ℕ × List ℕ → Except Err (List ℕ × List ℕ × List ℕ)
  | [], st => .ok st
  | i :: rest, (_, bi, out) => do
    let xored := toBigEndianBuffer (toBigInt b0 ^^^ toBigInt bi) 32
    let bNext := xored ++ [(1 + i) % 256] ++ dst ++ [domainLen]
    let out' ← tySet out bi (((i : ℤ) - 1) * 32)
    xmdLoop sha dst domainLen b0 rest (bNext, sha bNext, out')

/-- `expandMsgXmd(dst, message, byteLength)` — the copy in `src/bls.ts`,
whose loop bound is `i <= ell` (no write outside the loop).  The SHA-256
primitive is a parameter (it is an external import in the source). -/
def expandMsgXmd (sha : List ℕ → List ℕ) (dst message : List ℕ) (byteLength : ℕ) :
    Except Err (List ℕ) :=
  let ell := (byteLength + 31) / 32
  let domainLen := dst.length
  if byteLength > 65536 ∨ ell > 255 ∨ domainLen > 255 then .error .invalidExpandLength
  else
    let zpad := List.replicate 64 0
    let lenInBytes := [(byteLength >>> 8) &&& 255, byteLength &&& 255]
    let b_0 := zpad ++ message ++ lenInBytes ++ [0] ++ dst ++ [domainLen]
    let b0 := sha b_0
    let b_i := b0 ++ [1] ++ dst ++ [domainLen]
    let bi := sha b_i
    let out := List.replicate byteLength 0
    (xmdLoop sha dst domainLen b0 ((List.range ell).map (· + 1)) (b_i, bi, out)).map
      fun st => st.2.2

/-- `expandMsgXmd(dst, message, byteLength)` — the copy in the unnamed
bls file, whose loop bound is `i < ell` with a final
`out.set(bi, (ell - 1) * 32)` after the loop. -/
def expandMsgXmdFinal (sha : List ℕ → List ℕ) (dst message : List ℕ) (byteLength : ℕ) :
    Except Err (List ℕ) :=
  let ell := (byteLength + 31) / 32
  let domainLen := dst.length
  if byteLength > 65536 ∨ ell > 255 ∨ domainLen > 255 then .error .invalidExpandLength
  else
    let zpad := List.replicate 64 0
    let lenInBytes := [(byteLength >>> 8) &&& 255, byteLength &&& 255]
    let b_0 := zpad ++ message ++ lenInBytes ++ [0] ++ dst ++ [domainLen]
    let b0 := sha b_0
    let b_i := b0 ++ [1] ++ dst ++ [domainLen]
    let bi := sha b_i
    let out := List.replicate byteLength 0
    (xmdLoop sha dst domainLen b0 ((List.range (ell - 1)).map (· + 1)) (b_i, bi, out)).bind
      fun st => tySet st.2.2 st.2.1 (((ell : ℤ) - 1) * 32)

/-! ## The witness residue (bls.ts, Novakovic–Eagen) -/

/-- `egcd(a, b)` of ff.ts (recursive extended Euclid); fuel dominates the
first argument, which strictly decreases.  JavaScript `/` on bigints is
truncated division (`Int.tdiv`). -/
def egcdAux (fuel : ℕ) : ℤ → ℤ → Except Err (ℤ × ℤ × ℤ) :=
  Nat.rec (motive := fun _ => ℤ → ℤ → Except Err (ℤ × ℤ × ℤ))
    (fun _ _ => .error .assertFailed)
    (fun _ ih a b =>
      if a = 0 then .ok (b, 0, 1)
      else (ih (jsMod b a) a).map fun gyx =>
        (gyx.1, gyx.2.2 - (b.tdiv a) * gyx.2.1, gyx.2.1))
    fuel

theorem egcdAux_succ (n : ℕ) (a b : ℤ) :
    egcdAux (n + 1) a b =
      (if a = 0 then .ok (b, 0, 1)
       else (egcdAux n (jsMod b a) a).map fun gyx =>
        (gyx.1, gyx.2.2 - (b.tdiv a) * gyx.2.1, gyx.2.1)) := rfl

def egcd (a b : ℤ) : Except Err (ℤ × ℤ × ℤ) := egcdAux (a.toNat + 1) a b

/-- `modinv(a, m)` of bls.ts. -/
def modinv (a m : ℤ) : Except Err ℤ := do
  let gxy ← egcd a m
  if gxy.1 ≠ 1 then throw .notInvertible
  return jsMod gxy.2.1 m

/-- `lambda` of bls.ts (`λ = 4X⁴ + ...`, given bit-for-bit). -/
def lam : ℕ := 4002409555221667393417789825735904156556882819939007885332058136124031650490837864442687629129030796414117214202539

/-- `p` of bls.ts (the 63-bit prime factor of the cofactor `h`). -/
def pWit : ℕ := 5044125407647214251

/-- `h3` of bls.ts (`h = 27 · p · h3`). -/
def h3 : ℕ := 2366356426548243601069753987687709088104621721678962410379583120840019275952471579477684846670499039076873213559162845121989217658133790336552276567078487633052653005423051750848782286407340332979263075575489766963251914185767058009683318020965829271737924625612375201545022326908440428522712877494557944965298566001441468676802477524234094954960009227631543471415676620753242466901942121887152806837594306028649150255258504417829961387165043999299071444887652375514277477719817175923289019181393803729926249507024121957184340179467502106891835144220611408665090353102353194448552304429530104218473070114105759487413726485729058069746063140422361472585604626055492939586602274983146215294625774144156395553405525711143696689756441298365274341189385646499074862712688473936093315628166094221735056483459332831845007196600723053356837526749543765815988577005929923802636375670820616189737737304893769679803809426304143627363860243558537831172903494450556755190448279875942974830469855835666815454271389438587399739607656399812689280234103023464545891697941661992848552456326290792224091557256350095392859243101357349751064730561345062266850238821755009430903520645523345000326783803935359711318798844368754833295302563158150573540616830138810935344206231367357992991289265295323280

/-- `isPthResidue(x)` of bls.ts. -/
def isPthResidue (x : Fq12) : Bool := x.exp (h3 * 27) = Fq12.one

/-- `getPthRootInverse(x)` of bls.ts. -/
def getPthRootInverse (x : Fq12) : Except Err Fq12 :=
  if isPthResidue x then .ok Fq12.one
  else do
    let v : ℕ := 27 * h3
    let wj := x.exp v
    let vInv ← modinv (v : ℤ) (pWit : ℤ)
    let s := jsMod (-vInv) (pWit : ℤ)
    return wj.exp s.toNat

/-- `getOrderOf3rdPrimitiveRoot(x)` of bls.ts (power is `3 ^ result`). -/
def getOrderOf3rdPrimitiveRoot (x : Fq12) : Except Err ℕ :=
  let y := x.exp (pWit * h3)
  if y = Fq12.one then .ok 0
  else if y.exp 3 = Fq12.one then .ok 1
  else if y.exp 9 = Fq12.one then .ok 2
  else if y.exp 27 = Fq12.one then .ok 3
  else .error .assertFailed

/-- `getAny27thRootInverse(x)` of bls.ts. -/
def getAny27thRootInverse (x : Fq12) : Except Err Fq12 := do
  let pw ← getOrderOf3rdPrimitiveRoot x
  if pw = 0 then .ok Fq12.one
  else do
    let ord : ℕ := 3 ^ pw
    let v : ℕ := pWit * h3
    let wj := x.exp v
    let vInv ← modinv (v : ℤ) (ord : ℤ)
    let s := jsMod (-vInv) (ord : ℤ)
    return wj.exp s.toNat

/-- `h3OrdElementLambdaRoot(x)` of bls.ts. -/
def h3OrdElementLambdaRoot (x : Fq12) : Except Err Fq12 := do
  let e ← modinv (lam : ℤ) (h3 : ℤ)
  return x.exp e.toNat

/-- `computeWitness(f)` of bls.ts: shifts away the `p`-th and 27-th root
components, takes the λ-th root modulo `h3`, and asserts both the
computation and the residue identity before returning `(c, wi)`. -/
def computeWitness (f : Fq12) : Except Err (Fq12 × Fq12) := do
  let wpShift ← getPthRootInverse f
  let w27Shift ← getAny27thRootInverse f
  let wi := wpShift.mul w27Shift
  let fShifted := f.mul wi
  let c ← h3OrdElementLambdaRoot fShifted
  if ¬(fShifted = c.exp lam) then .error .witnessComputationFailed
  else do
    let cInv ← c.inv
    if ¬(((cInv.exp lam).mul f).mul wi = Fq12.one) then .error .witnessResidueCheckFailed
    else return (c, wi)

/-- `verifyEquivalentPairings([p, q], c, wi)` of bls.ts. -/
def verifyEquivalentPairings (fs : Fq12 × Fq12) (c wi : Fq12) : Except Err Bool := do
  let f := fs.1.mul fs.2
  let cInv ← c.inv
  return ((cInv.exp lam).mul f).mul wi = Fq12.one

/-! ## Deserialisation (point.ts `fromBytes`) -/

namespace PointG1

/-- `PointG1.fromBytes(bytes)`.  The source reads the three flag bits of
byte 0, then *mutates its argument* with `bytes[0] &= 0b00011111` before
parsing.  We model the mutation by returning the final contents of the
buffer alongside the parse result (on an empty array, reading `bytes[0]`
yields `undefined`, all flags come out false, and the out-of-range store
is dropped — `List.set` on `[]` matches this). -/
def fromBytes (bytes : List ℕ) : Except Err PointG1 × List ℕ :=
  let firstByte := bytes.headD 0
  let isCompressed := (firstByte >>> 7) &&& 1 = 1
  let isInfinity := (firstByte >>> 6) &&& 1 = 1
  let yIsLexLargest := (firstByte >>> 5) &&& 1 = 1
  let bytes := bytes.set 0 (firstByte &&& 0b00011111)
  let result : Except Err PointG1 :=
    if isCompressed ∧ bytes.length = 48 then
      let x : Fq := (toBigInt bytes : Fq)
      if isInfinity then
        if ¬(x = Fq.zero) then .error .invalidPoint
        else .ok infinity
      else
        (((x.mul x).mul x).add (Fq.fromInt 4)).sqrt.map fun y =>
          if (yIsLexLargest = y.signBigEndian) then ⟨x, y.neg⟩ else ⟨x, y⟩
    else if ¬isCompressed ∧ bytes.length = 96 then
      .ok ⟨((toBigInt (bytes.take 48) : Fq)), ((toBigInt (bytes.drop 48) : Fq))⟩
    else .error .invalidLength
  (result, bytes)

end PointG1

namespace PointG2

/-- `PointG2.fromBytes(bytes)`; same flag handling and mutation as for G1.
In the compressed-infinity branch the source interprets *all 96 bytes* as
one integer and reduces it into `Fq` before the zero test; in the
non-infinity branch the `Fq2` x-coordinate is read as `(c1, c0)`,
big-endian halves. -/
def fromBytes (bytes : List ℕ) : Except Err PointG2 × List ℕ :=
  let firstByte := bytes.headD 0
  let isCompressed := (firstByte >>> 7) &&& 1 = 1
  let isInfinity := (firstByte >>> 6) &&& 1 = 1
  let yIsLexLargest := (firstByte >>> 5) &&& 1 = 1
  let bytes := bytes.set 0 (firstByte &&& 0b00011111)
  let result : Except Err PointG2 :=
    if isCompressed ∧ bytes.length = 96 then
      let x0 : Fq := (toBigInt bytes : Fq)
      if isInfinity then
        if ¬(x0 = Fq.zero) then .error .invalidPoint
        else .ok infinity
      else
        let c1 := bytes.take 48
        let c0 := (bytes.drop 48).take 48
        let x := Fq2.fromTuple (toBigInt c0) (toBigInt c1)
        (((x.mul x).mul x).add (Fq2.fromTuple 4 4)).sqrt.map fun y =>
          if (yIsLexLargest = y.signBigEndian) then ⟨x, y.neg⟩ else ⟨x, y⟩
    else if ¬isCompressed ∧ bytes.length = 192 then
      .ok ⟨Fq2.fromTuple (toBigInt (bytes.take 48)) (toBigInt ((bytes.drop 48).take 48)),
           Fq2.fromTuple (toBigInt ((bytes.drop 96).take 48)) (toBigInt (bytes.drop 144))⟩
    else .error .invalidLength
  (result, bytes)

end PointG2

/-!
## Claim C4 — `validatePairing` on mismatched input lengths

The first statement of `validatePairing` throws `Invalid inputs` whenever
the two sequences have different lengths, so the function is not
error-free.
-/

/-- C4 (counterexample): `validatePairing` raises an error — here
`InputMismatch` on an empty G1 list against a one-point G2 list — so it
does not answer a boolean on every pair of input sequences. -/
theorem C4_counterexample :
    validatePairing [] [PointG2.generator] = .error .inputMismatch := rfl

/-- C4 (amended): whenever the two input sequences have different lengths,
`validatePairing` returns the `InputMismatch` error (and hence no boolean
answer). -/
theorem C4_validatePairing_mismatch_raises (ps : List PointG1) (qs : List PointG2)
    (h : ps.length ≠ qs.length) :
    validatePairing ps qs = .error .inputMismatch := by
  unfold validatePairing
  rw [if_pos h]

theorem C4_validatePairing_mismatch_raises_witness :
    ([] : List PointG1).length ≠ [PointG2.generator, PointG2.generator].length ∧
      validatePairing [] [PointG2.generator, PointG2.generator] = .error .inputMismatch :=
  ⟨by decide, C4_validatePairing_mismatch_raises [] [PointG2.generator, PointG2.generator]
    (by decide)⟩

/-!
## Claim C5 — the identity short-circuit of `pair`

`pair` tests `p.equals(infinity) || q.equals(infinity)` before any
validation, so an identity argument always yields `Fq12.one`, whatever the
other argument is.
-/

/-- C5: for every `p` and `q`, if either is the identity point then
`pair p q` returns `Fq12.one` without error — the short-circuit precedes
the on-curve and subgroup validation, so the other argument may be any
point whatsoever. -/
theorem C5_pair_identity_shortcircuit (p : PointG1) (q : PointG2)
    (h : p = PointG1.infinity ∨ q = PointG2.infinity) :
    pair p q = .ok Fq12.one := by
  unfold pair
  rw [if_pos h]

theorem C5_pair_identity_shortcircuit_witness :
    pair PointG1.infinity ⟨Fq2.fromTuple 1 0, Fq2.fromTuple 0 0⟩ = .ok Fq12.one :=
  C5_pair_identity_shortcircuit _ _ (Or.inl rfl)

/-!
## Claim C10 — `fromBytes` and its argument

Both `fromBytes` methods execute `bytes[0] &= 0b00011111` on their
argument before branching, so the caller's buffer is changed whenever any
of the three flag bits of byte 0 was set.  The embedding returns the final
buffer contents as the second component.
-/

/-- C10 (counterexample): decoding a valid compressed point-at-infinity
encoding (flag byte `0xc0`) leaves the caller's buffer changed — its first
byte has been masked to zero — for G1 and G2 alike. -/
theorem C10_counterexample :
    (PointG1.fromBytes (0xc0 :: List.replicate 47 0)).2 ≠ 0xc0 :: List.replicate 47 0 ∧
    (PointG2.fromBytes (0xc0 :: List.replicate 95 0)).2 ≠ 0xc0 :: List.replicate 95 0 := by
  decide

/-- C10 (amended): `fromBytes` mutates its argument in exactly one place:
after the call the buffer equals the input with byte 0 replaced by its low
five bits (`bytes[0] &= 0b00011111`); every other byte is unchanged, and
an empty buffer stays empty. -/
theorem C10_fromBytes_masks_flag_bits (bytes : List ℕ) :
    (PointG1.fromBytes bytes).2 = bytes.set 0 (bytes.headD 0 &&& 31) ∧
    (PointG2.fromBytes bytes).2 = bytes.set 0 (bytes.headD 0 &&& 31) :=
  ⟨rfl, rfl⟩

/-!
## Claim C9 — compressed infinity decoding and nonzero payloads

In the compressed-infinity branch the source reduces the whole masked
buffer into `Fq` (`new Fq(toBigInt(bytes))`) before comparing with zero,
so any payload congruent to `0 mod P` — not only the all-zero payload —
decodes to the identity point.
-/

/-- C9 (counterexample): the 48-byte big-endian encoding of the prime `P`
itself, with the compression and infinity flags added to byte 0, has
nonzero payload bits yet decodes to the identity point instead of raising
an error (the payload is reduced mod `P` before the zero test). -/
theorem C9_counterexample :
    (PointG1.fromBytes ((toBigEndianBuffer P 48).set 0 0xda)).1 = .ok PointG1.infinity ∧
    toBigInt ((((toBigEndianBuffer P 48).set 0 0xda)).set 0 (0xda &&& 31)) ≠ 0 := by
  decide

/-- C9 (amended): for a compressed encoding with the infinity flag set (48
bytes for G1, 96 bytes for G2), decoding returns the identity point
exactly when the masked payload, read as one big-endian integer, is
congruent to `0` modulo `P`; otherwise it raises `InvalidPoint`.  (The
all-zero payload is one such residue, but e.g. the encoding of `P` itself
is another.) -/
theorem C9_infinity_iff_payload_zero_mod_P (bytes : List ℕ) :
    (((bytes.headD 0 >>> 7) &&& 1 = 1 ∧ (bytes.headD 0 >>> 6) &&& 1 = 1 ∧
        bytes.length = 48) →
      (PointG1.fromBytes bytes).1 =
        if (toBigInt (bytes.set 0 (bytes.headD 0 &&& 31)) : Fq) = 0
        then .ok PointG1.infinity else .error .invalidPoint) ∧
    (((bytes.headD 0 >>> 7) &&& 1 = 1 ∧ (bytes.headD 0 >>> 6) &&& 1 = 1 ∧
        bytes.length = 96) →
      (PointG2.fromBytes bytes).1 =
        if (toBigInt (bytes.set 0 (bytes.headD 0 &&& 31)) : Fq) = 0
        then .ok PointG2.infinity else .error .invalidPoint) := by
  constructor
  · rintro ⟨h7, h6, hlen⟩
    simp only [PointG1.fromBytes]
    rw [if_pos ⟨h7, by rw [List.length_set, hlen]⟩, if_pos h6]
    by_cases hx : (toBigInt (bytes.set 0 (bytes.headD 0 &&& 31)) : Fq) = 0
    · rw [if_pos hx, if_neg (by simpa [Fq.zero] using hx)]
    · rw [if_neg hx, if_pos (by simpa [Fq.zero] using hx)]
  · rintro ⟨h7, h6, hlen⟩
    simp only [PointG2.fromBytes]
    rw [if_pos ⟨h7, by rw [List.length_set, hlen]⟩, if_pos h6]
    by_cases hx : (toBigInt (bytes.set 0 (bytes.headD 0 &&& 31)) : Fq) = 0
    · rw [if_pos hx, if_neg (by simpa [Fq.zero] using hx)]
    · rw [if_neg hx, if_pos (by simpa [Fq.zero] using hx)]

theorem C9_infinity_iff_payload_zero_mod_P_witness :
    (PointG2.fromBytes (0xc0 :: (List.replicate 94 0 ++ [1]))).1 = .error .invalidPoint := by
  rw [(C9_infinity_iff_payload_zero_mod_P (0xc0 :: (List.replicate 94 0 ++ [1]))).2
    ⟨by decide, by decide, by decide⟩]
  decide

/-!
## Claim C8 — the two copies of `expandMsgXmd`

Helper lemmas: the loop splits over list append, the copy with the final
write equals the `i <= ell` copy whenever `ell ≥ 1`, and at
`byteLength = 0` the two copies diverge (empty output versus a
`RangeError` from `out.set(bi, -32)`).
-/

theorem xmdLoop_append (sha : List ℕ → List ℕ) (dst : List ℕ) (domainLen : ℕ)
    (b0 : List ℕ) (l1 l2 : List ℕ) (st : List ℕ × List ℕ × List ℕ) :
    xmdLoop sha dst domainLen b0 (l1 ++ l2) st =
      (xmdLoop sha dst domainLen b0 l1 st).bind (xmdLoop sha dst domainLen b0 l2) := by
  induction l1 generalizing st with
  | nil => rfl
  | cons i rest ih =>
    obtain ⟨a, bi, out⟩ := st
    simp only [List.cons_append, xmdLoop]
    cases h : tySet out bi (((i : ℤ) - 1) * 32) with
    | error e => rfl
    | ok out' => exact ih _

/-- With at least one output block, the `i < ell` copy's final write is
exactly the last iteration of the `i <= ell` copy's loop, so the two
copies agree (same value or same error). -/
theorem expandMsgXmdFinal_eq_of_pos (sha : List ℕ → List ℕ) (dst message : List ℕ)
    (byteLength : ℕ) (h : 1 ≤ (byteLength + 31) / 32) :
    expandMsgXmdFinal sha dst message byteLength = expandMsgXmd sha dst message byteLength := by
  obtain ⟨n, hn⟩ : ∃ n, (byteLength + 31) / 32 = n + 1 := ⟨(byteLength + 31) / 32 - 1, by omega⟩
  simp only [expandMsgXmd, expandMsgXmdFinal, hn]
  by_cases hc : byteLength > 65536 ∨ n + 1 > 255 ∨ dst.length > 255
  · rw [if_pos hc, if_pos hc]
  · rw [if_neg hc, if_neg hc]
    have hr : (List.range (n + 1)).map (· + 1)
        = (List.range (n + 1 - 1)).map (· + 1) ++ [(n : ℕ) + 1] := by
      simp [List.range_succ]
    rw [hr, xmdLoop_append]
    cases hres : xmdLoop sha dst dst.length
        (sha (List.replicate 64 0 ++ message ++
          [(byteLength >>> 8) &&& 255, byteLength &&& 255] ++ [0] ++ dst ++ [dst.length]))
        ((List.range (n + 1 - 1)).map (· + 1))
        (sha (List.replicate 64 0 ++ message ++
            [(byteLength >>> 8) &&& 255, byteLength &&& 255] ++ [0] ++ dst ++ [dst.length]) ++
            [1] ++ dst ++ [dst.length],
          sha (sha (List.replicate 64 0 ++ message ++
            [(byteLength >>> 8) &&& 255, byteLength &&& 255] ++ [0] ++ dst ++ [dst.length]) ++
            [1] ++ dst ++ [dst.length]),
          List.replicate byteLength 0) with
    | error e => rfl
    | ok st =>
      obtain ⟨a, bi, out⟩ := st
      simp only [Except.bind, Except.map, xmdLoop]
      cases h2 : tySet out bi ((((n + 1 : ℕ) : ℤ) - 1) * 32) with
      | error e => rfl
      | ok out' => rfl

/-- With `byteLength = 0` the `i <= ell` copy runs an empty loop and
returns the empty output buffer. -/
theorem expandMsgXmd_zero (sha : List ℕ → List ℕ) (dst message : List ℕ)
    (h : dst.length ≤ 255) :
    expandMsgXmd sha dst message 0 = .ok [] := by
  simp only [expandMsgXmd]
  rw [if_neg (by omega)]
  rfl

/-- With `byteLength = 0` the `i < ell` copy reaches its final write
`out.set(bi, (ell - 1) * 32)` with offset `-32` and raises a
`RangeError`. -/
theorem expandMsgXmdFinal_zero (sha : List ℕ → List ℕ) (dst message : List ℕ)
    (h : dst.length ≤ 255) :
    expandMsgXmdFinal sha dst message 0 = .error .rangeError := by
  simp only [expandMsgXmdFinal]
  rw [if_neg (by omega)]
  rfl

/-- C8 (counterexample): a concrete run at `byteLength = 0` (an input the
length guard accepts): the `i <= ell` copy returns the empty byte array
while the `i < ell` copy raises a `RangeError` — the copies differ, but
not by returning different byte arrays. -/
theorem C8_counterexample :
    expandMsgXmd (fun _ => List.replicate 32 0) [] [] 0 = .ok [] ∧
    expandMsgXmdFinal (fun _ => List.replicate 32 0) [] [] 0 = .error .rangeError := by
  exact ⟨rfl, rfl⟩

/-- C8 (amended): the two copies of `expandMsgXmd` are not extensionally
equal, but they never return different byte arrays.  For any hash
primitive: at `byteLength = 0` (accepted by the guard when the domain tag
fits) the `i <= ell` copy returns the empty array while the `i < ell` copy
raises a `RangeError`; and whenever `ell ≥ 1` the two copies agree
result-for-result (same output, or the same error). -/
theorem C8_expandMsgXmd_copies (sha : List ℕ → List ℕ) (dst message : List ℕ)
    (byteLength : ℕ) :
    (dst.length ≤ 255 →
      expandMsgXmd sha dst message 0 = .ok [] ∧
      expandMsgXmdFinal sha dst message 0 = .error .rangeError) ∧
    (1 ≤ (byteLength + 31) / 32 →
      expandMsgXmdFinal sha dst message byteLength = expandMsgXmd sha dst message byteLength) :=
  ⟨fun h => ⟨expandMsgXmd_zero sha dst message h, expandMsgXmdFinal_zero sha dst message h⟩,
   fun h => expandMsgXmdFinal_eq_of_pos sha dst message byteLength h⟩

theorem C8_expandMsgXmd_copies_witness :
    expandMsgXmd (fun _ => List.replicate 32 7) [0] [1] 0 = .ok [] ∧
    expandMsgXmdFinal (fun _ => List.replicate 32 7) [0] [1] 0 = .error .rangeError ∧
    expandMsgXmdFinal (fun _ => List.replicate 32 7) [0] [1] 32 =
      expandMsgXmd (fun _ => List.replicate 32 7) [0] [1] 32 :=
  ⟨((C8_expandMsgXmd_copies (fun _ => List.replicate 32 7) [0] [1] 32).1 (by decide)).1,
   ((C8_expandMsgXmd_copies (fun _ => List.replicate 32 7) [0] [1] 32).1 (by decide)).2,
   (C8_expandMsgXmd_copies (fun _ => List.replicate 32 7) [0] [1] 32).2 (by decide)⟩

/-!
## Claim C2 — the witness residue identity of `computeWitness`

`computeWitness` itself asserts `fShifted == c.exp(LAMBDA)` and the
residue identity before returning, so a successful return carries both
facts; `verifyEquivalentPairings` recomputes exactly the asserted residue
identity from the product of its two accumulators.
-/

theorem ok_bind {ε α β : Type} (a : α) (f : α → Except ε β) :
    (Except.ok a : Except ε α) >>= f = f a := rfl

theorem error_bind {ε α β : Type} (e : ε) (f : α → Except ε β) :
    (Except.error e : Except ε α) >>= f = Except.error e := rfl

theorem pure_eq_ok {ε α : Type} (a : α) : (pure a : Except ε α) = Except.ok a := rfl

/-- C2: whenever `computeWitness f` returns `(c, wi)` without an error,
`c ^ λ = f · wi` holds, and for every factorisation `p · q = f` of the
accumulator, `verifyEquivalentPairings([p, q], c, wi)` returns `true`. -/
theorem C2_computeWitness_residue (f c wi : Fq12) (h : computeWitness f = .ok (c, wi)) :
    c.exp lam = f.mul wi ∧
    ∀ p q : Fq12, p.mul q = f → verifyEquivalentPairings (p, q) c wi = .ok true := by
  unfold computeWitness at h
  cases e1 : getPthRootInverse f with
  | error err => rw [e1, error_bind] at h; cases h
  | ok wp =>
  rw [e1, ok_bind] at h
  cases e2 : getAny27thRootInverse f with
  | error err => rw [e2, error_bind] at h; cases h
  | ok w27 =>
  rw [e2, ok_bind] at h
  simp only [] at h
  cases e3 : h3OrdElementLambdaRoot (f.mul (wp.mul w27)) with
  | error err => rw [e3, error_bind] at h; cases h
  | ok c0 =>
  rw [e3, ok_bind] at h
  by_cases h4 : f.mul (wp.mul w27) = c0.exp lam
  · rw [if_neg (not_not_intro h4)] at h
    cases e5 : c0.inv with
    | error err => rw [e5, error_bind] at h; cases h
    | ok cInv =>
    rw [e5, ok_bind] at h
    by_cases h6 : ((cInv.exp lam).mul f).mul (wp.mul w27) = Fq12.one
    · rw [if_neg (not_not_intro h6), pure_eq_ok] at h
      obtain ⟨rfl, rfl⟩ : c0 = c ∧ wp.mul w27 = wi := by
        have := Except.ok.inj h
        exact ⟨congrArg Prod.fst this, congrArg Prod.snd this⟩
      refine ⟨h4.symm, fun p q hpq => ?_⟩
      unfold verifyEquivalentPairings
      rw [show (p, q).1.mul (p, q).2 = f from hpq, e5, ok_bind, pure_eq_ok]
      rw [decide_eq_true h6]
    · rw [if_pos h6] at h; cases h
  · rw [if_pos h4] at h; cases h

/-- The multiplicative unit is absorbing for the square-and-multiply
loop of `Fq12.exp`: every intermediate stays `one`. -/
theorem Fq12.one_mul_one : Fq12.one.mul Fq12.one = Fq12.one := by decide

theorem Fq12.expAux_one (f : ℕ) :
    ∀ y : ℕ, Fq12.expAux f Fq12.one Fq12.one y = Fq12.one := by
  induction f with
  | zero => intro y; rfl
  | succ n ih =>
    intro y
    rw [Fq12.expAux_succ_q12]
    by_cases hy : y = 0
    · rw [if_pos hy]
    · rw [if_neg hy]
      simp only [Fq12.one_mul_one, ite_self]
      exact ih (y / 2)

theorem Fq12.exp_one (y : ℕ) : Fq12.one.exp y = Fq12.one := Fq12.expAux_one y y

theorem Fq12.inv_one : Fq12.one.inv = .ok Fq12.one := by decide!

/-- Bezout coefficients of `egcd(LAMBDA, h3)` (`g = 1`: λ is invertible
mod `h3`). -/
def egcdLamH3x : ℤ := -534715090927620535039260267872958582374268252446355001395446484252416477123930483162067059332838458180276886560628200664984787912210882103408384894313499218102523266693193659690576730841437712432045627944465250396043494868855616557177151896383653510319996984316435983790182289078829172813625719215314987024673422705032648927659181667402668326590991542030544928463762278349845447764975484999070404917013799574524737954225621705364979827862388718735893579253035988372979855124572391301694484967341261304676052327874314950848801913892629603422737957444089764662978919702702284806666985563069167972236826584602968825881778371292673950398131877598687479673557847450725442501194719508832807581890466810838512622766013586144593153184097862238402343611368860010381139373278786482979180843938286319860523150913220007427433869344033217419997819975150381703635867547490239869309362050858517212040052443959851340517256211914315060662183396115850236787568746170256287281125552012560166034641061819628109736176066229173579775891858929917101547482358116704121717930762115680390818320216936815339819394388932444228481756909939033992099491391622921571531698174874810703245780041760462353153424906307773204739449162544062024856089508852863915944106858580005031381228367707115482614109963398055021

def egcdLamH3y : ℤ := 904406777119253764928259225352251407846146297605131715351456734253612639123850742730322589861152968185621889126469

theorem egcd_lam_h3 : egcd (lam : ℤ) (h3 : ℤ) = .ok (1, egcdLamH3x, egcdLamH3y) := by
  decide!

theorem modinv_lam_h3 :
    modinv (lam : ℤ) (h3 : ℤ) = .ok (jsMod egcdLamH3x (h3 : ℤ)) := by
  unfold modinv
  rw [egcd_lam_h3, ok_bind, if_neg (not_not_intro rfl)]
  rfl

theorem getPthRootInverse_one : getPthRootInverse Fq12.one = .ok Fq12.one := by
  have hres : isPthResidue Fq12.one = true := by
    unfold isPthResidue
    rw [Fq12.exp_one]
    simp
  unfold getPthRootInverse
  rw [hres]
  rfl

theorem getAny27thRootInverse_one : getAny27thRootInverse Fq12.one = .ok Fq12.one := by
  have hord : getOrderOf3rdPrimitiveRoot Fq12.one = .ok 0 := by
    unfold getOrderOf3rdPrimitiveRoot
    simp [Fq12.exp_one]
  unfold getAny27thRootInverse
  rw [hord, ok_bind, if_pos rfl]

theorem h3OrdElementLambdaRoot_one : h3OrdElementLambdaRoot Fq12.one = .ok Fq12.one := by
  unfold h3OrdElementLambdaRoot
  rw [modinv_lam_h3, ok_bind, pure_eq_ok, Fq12.exp_one]

theorem computeWitness_one : computeWitness Fq12.one = .ok (Fq12.one, Fq12.one) := by
  unfold computeWitness
  rw [getPthRootInverse_one, ok_bind, getAny27thRootInverse_one, ok_bind]
  simp only [Fq12.one_mul_one]
  rw [h3OrdElementLambdaRoot_one, ok_bind, Fq12.exp_one,
    if_neg (not_not_intro rfl), Fq12.inv_one, ok_bind, Fq12.exp_one]
  rw [Fq12.one_mul_one, Fq12.one_mul_one, if_neg (not_not_intro rfl), pure_eq_ok]

theorem C2_computeWitness_residue_witness :
    computeWitness Fq12.one = .ok (Fq12.one, Fq12.one) ∧
    Fq12.one.exp lam = Fq12.one.mul Fq12.one ∧
    verifyEquivalentPairings (Fq12.one, Fq12.one) Fq12.one Fq12.one = .ok true := by
  obtain ⟨h1, h2⟩ :=
    C2_computeWitness_residue Fq12.one Fq12.one Fq12.one computeWitness_one
  exact ⟨computeWitness_one, h1, h2 Fq12.one Fq12.one Fq12.one_mul_one⟩

/-!
## Primality of `P` and `R`

The spec treats `P` and `R` as primes; the field structure (claim C6), the
Frobenius (claim C7) and the pairing algebra (claim C1) all rest on it.
Certified by Pratt/Lucas certificates, with a kernel-computable binary
exponentiation bridged to `Monoid.npow`.
-/

/-- Square-and-multiply exponentiation (least significant bit first) over
any commutative monoid; the fuel dominates the bit length. -/
def bpowAux {M : Type} [CommMonoid M] (fuel : ℕ) : M → M → ℕ → M :=
  Nat.rec (motive := fun _ => M → M → ℕ → M)
    (fun _ r _ => r)
    (fun _ ih x r y =>
      if y = 0 then r
      else ih (x * x) (if y % 2 = 1 then r * x else r) (y / 2))
    fuel

def bpow {M : Type} [CommMonoid M] (x : M) (y : ℕ) : M := bpowAux y x 1 y

theorem bpowAux_succ {M : Type} [CommMonoid M] (n : ℕ) (x r : M) (y : ℕ) :
    bpowAux (n + 1) x r y =
      (if y = 0 then r
       else bpowAux n (x * x) (if y % 2 = 1 then r * x else r) (y / 2)) := rfl

theorem bpowAux_eq {M : Type} [CommMonoid M] (fuel : ℕ) :
    ∀ x r : M, ∀ y : ℕ, y ≤ fuel → bpowAux fuel x r y = r * x ^ y := by
  induction fuel with
  | zero =>
    intro x r y hy
    obtain rfl : y = 0 := Nat.le_zero.mp hy
    simp [bpowAux]
  | succ n ih =>
    intro x r y hy
    rw [bpowAux_succ]
    by_cases h0 : y = 0
    · subst h0; simp
    · rw [if_neg h0, ih (x * x) _ (y / 2) (by omega)]
      have hxx : (x * x) ^ (y / 2) = x ^ (2 * (y / 2)) := by
        rw [mul_pow, two_mul, pow_add]
      rw [hxx]
      by_cases h1 : y % 2 = 1
      · rw [if_pos h1, mul_assoc, ← pow_succ' x (2 * (y / 2)),
          show 2 * (y / 2) + 1 = y by omega]
      · rw [if_neg h1, show 2 * (y / 2) = y by omega]

theorem bpow_eq {M : Type} [CommMonoid M] (x : M) (y : ℕ) : bpow x y = x ^ y := by
  rw [bpow, bpowAux_eq y x 1 y le_rfl, one_mul]

theorem prime_1686913 : Nat.Prime 1686913 := by
  have ha : (10 : ZMod 1686913) ^ (1686913 - 1) = 1 := by
    rw [← bpow_eq]
    decide!
  refine lucas_primality 1686913 10 ha ?_
  intro q hq hdvd
  have hfac : 1686913 - 1 = 2 ^ 7 * (3 ^ 1 * (23 ^ 1 * (191 ^ 1))) := by decide!
  rw [hfac] at hdvd
  have hmem : q = 2 ∨ q = 3 ∨ q = 23 ∨ q = 191 := by
    rcases (Nat.Prime.dvd_mul hq).mp hdvd with h | h
    · exact Or.inl ((Nat.prime_dvd_prime_iff_eq hq (by norm_num)).mp (hq.dvd_of_dvd_pow h))
    rcases (Nat.Prime.dvd_mul hq).mp h with h | h
    · exact Or.inr (Or.inl ((Nat.prime_dvd_prime_iff_eq hq (by norm_num)).mp (hq.dvd_of_dvd_pow h)))
    rcases (Nat.Prime.dvd_mul hq).mp h with h | h
    · exact Or.inr (Or.inr (Or.inl ((Nat.prime_dvd_prime_iff_eq hq (by norm_num)).mp (hq.dvd_of_dvd_pow h))))
    · exact Or.inr (Or.inr (Or.inr ((Nat.prime_dvd_prime_iff_eq hq (by norm_num)).mp (hq.dvd_of_dvd_pow h))))
  rcases hmem with rfl | rfl | rfl | rfl <;>
    · rw [← bpow_eq]
      decide!

theorem prime_2508409 : Nat.Prime 2508409 := by
  have ha : (11 : ZMod 2508409) ^ (2508409 - 1) = 1 := by
    rw [← bpow_eq]
    decide!
  refine lucas_primality 2508409 11 ha ?_
  intro q hq hdvd
  have hfac : 2508409 - 1 = 2 ^ 3 * (3 ^ 4 * (7 ^ 2 * (79 ^ 1))) := by decide!
  rw [hfac] at hdvd
  have hmem : q = 2 ∨ q = 3 ∨ q = 7 ∨ q = 79 := by
    rcases (Nat.Prime.dvd_mul hq).mp hdvd with h | h
    · exact Or.inl ((Nat.prime_dvd_prime_iff_eq hq (by norm_num)).mp (hq.dvd_of_dvd_pow h))
    rcases (Nat.Prime.dvd_mul hq).mp h with h | h
    · exact Or.inr (Or.inl ((Nat.prime_dvd_prime_iff_eq hq (by norm_num)).mp (hq.dvd_of_dvd_pow h)))
    rcases (Nat.Prime.dvd_mul hq).mp h with h | h
    · exact Or.inr (Or.inr (Or.inl ((Nat.prime_dvd_prime_iff_eq hq (by norm_num)).mp (hq.dvd_of_dvd_pow h))))
    · exact Or.inr (Or.inr (Or.inr ((Nat.prime_dvd_prime_iff_eq hq (by norm_num)).mp (hq.dvd_of_dvd_pow h))))
  rcases hmem with rfl | rfl | rfl | rfl <;>
    · rw [← bpow_eq]
      decide!

theorem prime_2529403 : Nat.Prime 2529403 := by
  have ha : (2 : ZMod 2529403) ^ (2529403 - 1) = 1 := by
    rw [← bpow_eq]
    decide!
  refine lucas_primality 2529403 2 ha ?_
  intro q hq hdvd
  have hfac : 2529403 - 1 = 2 ^ 1 * (3 ^ 1 * (23 ^ 1 * (18329 ^ 1))) := by decide!
  rw [hfac] at hdvd
  have hmem : q = 2 ∨ q = 3 ∨ q = 23 ∨ q = 18329 := by
    rcases (Nat.Prime.dvd_mul hq).mp hdvd with h | h
    · exact Or.inl ((Nat.prime_dvd_prime_iff_eq hq (by norm_num)).mp (hq.dvd_of_dvd_pow h))
    rcases (Nat.Prime.dvd_mul hq).mp h with h | h
    · exact Or.inr (Or.inl ((Nat.prime_dvd_prime_iff_eq hq (by norm_num)).mp (hq.dvd_of_dvd_pow h)))
    rcases (Nat.Prime.dvd_mul hq).mp h with h | h
    · exact Or.inr (Or.inr (Or.inl ((Nat.prime_dvd_prime_iff_eq hq (by norm_num)).mp (hq.dvd_of_dvd_pow h))))
    · exact Or.inr (Or.inr (Or.inr ((Nat.prime_dvd_prime_iff_eq hq (by norm_num)).mp (hq.dvd_of_dvd_pow h))))
  rcases hmem with rfl | rfl | rfl | rfl <;>
    · rw [← bpow_eq]
      decide!

theorem prime_2653753 : Nat.Prime 2653753 := by
  have ha : (5 : ZMod 2653753) ^ (2653753 - 1) = 1 := by
    rw [← bpow_eq]
    decide!
  refine lucas_primality 2653753 5 ha ?_
  intro q hq hdvd
  have hfac : 2653753 - 1 = 2 ^ 3 * (3 ^ 1 * (110573 ^ 1)) := by decide!
  rw [hfac] at hdvd
  have hmem : q = 2 ∨ q = 3 ∨ q = 110573 := by
    rcases (Nat.Prime.dvd_mul hq).mp hdvd with h | h
    · exact Or.inl ((Nat.prime_dvd_prime_iff_eq hq (by norm_num)).mp (hq.dvd_of_dvd_pow h))
    rcases (Nat.Prime.dvd_mul hq).mp h with h | h
    · exact Or.inr (Or.inl ((Nat.prime_dvd_prime_iff_eq hq (by norm_num)).mp (hq.dvd_of_dvd_pow h)))
    · exact Or.inr (Or.inr ((Nat.prime_dvd_prime_iff_eq hq (by norm_num)).mp (hq.dvd_of_dvd_pow h)))
  rcases hmem with rfl | rfl | rfl <;>
    · rw [← bpow_eq]
      decide!

theorem prime_51376543 : Nat.Prime 51376543 := by
  have ha : (3 : ZMod 51376543) ^ (51376543 - 1) = 1 := by
    rw [← bpow_eq]
    decide!
  refine lucas_primality 51376543 3 ha ?_
  intro q hq hdvd
  have hfac : 51376543 - 1 = 2 ^ 1 * (3 ^ 1 * (7 ^ 1 * (151 ^ 1 * (8101 ^ 1)))) := by decide!
  rw [hfac] at hdvd
  have hmem : q = 2 ∨ q = 3 ∨ q = 7 ∨ q = 151 ∨ q = 8101 := by
    rcases (Nat.Prime.dvd_mul hq).mp hdvd with h | h
    · exact Or.inl ((Nat.prime_dvd_prime_iff_eq hq (by norm_num)).mp (hq.dvd_of_dvd_pow h))
    rcases (Nat.Prime.dvd_mul hq).mp h with h | h
    · exact Or.inr (Or.inl ((Nat.prime_dvd_prime_iff_eq hq (by norm_num)).mp (hq.dvd_of_dvd_pow h)))
    rcases (Nat.Prime.dvd_mul hq).mp h with h | h
    · exact Or.inr (Or.inr (Or.inl ((Nat.prime_dvd_prime_iff_eq hq (by norm_num)).mp (hq.dvd_of_dvd_pow h))))
    rcases (Nat.Prime.dvd_mul hq).mp h with h | h
    · exact Or.inr (Or.inr (Or.inr (Or.inl ((Nat.prime_dvd_prime_iff_eq hq (by norm_num)).mp (hq.dvd_of_dvd_pow h)))))
    · exact Or.inr (Or.inr (Or.inr (Or.inr ((Nat.prime_dvd_prime_iff_eq hq (by norm_num)).mp (hq.dvd_of_dvd_pow h)))))
  rcases hmem with rfl | rfl | rfl | rfl | rfl <;>
    · rw [← bpow_eq]
      decide!

theorem prime_52437899 : Nat.Prime 52437899 := by
  have ha : (2 : ZMod 52437899) ^ (52437899 - 1) = 1 := by
    rw [← bpow_eq]
    decide!
  refine lucas_primality 52437899 2 ha ?_
  intro q hq hdvd
  have hfac : 52437899 - 1 = 2 ^ 1 * (43 ^ 1 * (609743 ^ 1)) := by decide!
  rw [hfac] at hdvd
  have hmem : q = 2 ∨ q = 43 ∨ q = 609743 := by
    rcases (Nat.Prime.dvd_mul hq).mp hdvd with h | h
    · exact Or.inl ((Nat.prime_dvd_prime_iff_eq hq (by norm_num)).mp (hq.dvd_of_dvd_pow h))
    rcases (Nat.Prime.dvd_mul hq).mp h with h | h
    · exact Or.inr (Or.inl ((Nat.prime_dvd_prime_iff_eq hq (by norm_num)).mp (hq.dvd_of_dvd_pow h)))
    · exact Or.inr (Or.inr ((Nat.prime_dvd_prime_iff_eq hq (by norm_num)).mp (hq.dvd_of_dvd_pow h)))
  rcases hmem with rfl | rfl | rfl <;>
    · rw [← bpow_eq]
      decide!

theorem prime_63690073 : Nat.Prime 63690073 := by
  have ha : (7 : ZMod 63690073) ^ (63690073 - 1) = 1 := by
    rw [← bpow_eq]
    decide!
  refine lucas_primality 63690073 7 ha ?_
  intro q hq hdvd
  have hfac : 63690073 - 1 = 2 ^ 3 * (3 ^ 1 * (2653753 ^ 1)) := by decide!
  rw [hfac] at hdvd
  have hmem : q = 2 ∨ q = 3 ∨ q = 2653753 := by
    rcases (Nat.Prime.dvd_mul hq).mp hdvd with h | h
    · exact Or.inl ((Nat.prime_dvd_prime_iff_eq hq (by norm_num)).mp (hq.dvd_of_dvd_pow h))
    rcases (Nat.Prime.dvd_mul hq).mp h with h | h
    · exact Or.inr (Or.inl ((Nat.prime_dvd_prime_iff_eq hq (by norm_num)).mp (hq.dvd_of_dvd_pow h)))
    · exact Or.inr (Or.inr ((Nat.prime_dvd_prime_iff_eq hq (prime_2653753)).mp (hq.dvd_of_dvd_pow h)))
  rcases hmem with rfl | rfl | rfl <;>
    · rw [← bpow_eq]
      decide!

theorem prime_254760293 : Nat.Prime 254760293 := by
  have ha : (2 : ZMod 254760293) ^ (254760293 - 1) = 1 := by
    rw [← bpow_eq]
    decide!
  refine lucas_primality 254760293 2 ha ?_
  intro q hq hdvd
  have hfac : 254760293 - 1 = 2 ^ 2 * (63690073 ^ 1) := by decide!
  rw [hfac] at hdvd
  have hmem : q = 2 ∨ q = 63690073 := by
    rcases (Nat.Prime.dvd_mul hq).mp hdvd with h | h
    · exact Or.inl ((Nat.prime_dvd_prime_iff_eq hq (by norm_num)).mp (hq.dvd_of_dvd_pow h))
    · exact Or.inr ((Nat.prime_dvd_prime_iff_eq hq (prime_63690073)).mp (hq.dvd_of_dvd_pow h))
  rcases hmem with rfl | rfl <;>
    · rw [← bpow_eq]
      decide!

theorem prime_475709467 : Nat.Prime 475709467 := by
  have ha : (2 : ZMod 475709467) ^ (475709467 - 1) = 1 := by
    rw [← bpow_eq]
    decide!
  refine lucas_primality 475709467 2 ha ?_
  intro q hq hdvd
  have hfac : 475709467 - 1 = 2 ^ 1 * (3 ^ 1 * (47 ^ 1 * (1686913 ^ 1))) := by decide!
  rw [hfac] at hdvd
  have hmem : q = 2 ∨ q = 3 ∨ q = 47 ∨ q = 1686913 := by
    rcases (Nat.Prime.dvd_mul hq).mp hdvd with h | h
    · exact Or.inl ((Nat.prime_dvd_prime_iff_eq hq (by norm_num)).mp (hq.dvd_of_dvd_pow h))
    rcases (Nat.Prime.dvd_mul hq).mp h with h | h
    · exact Or.inr (Or.inl ((Nat.prime_dvd_prime_iff_eq hq (by norm_num)).mp (hq.dvd_of_dvd_pow h)))
    rcases (Nat.Prime.dvd_mul hq).mp h with h | h
    · exact Or.inr (Or.inr (Or.inl ((Nat.prime_dvd_prime_iff_eq hq (by norm_num)).mp (hq.dvd_of_dvd_pow h))))
    · exact Or.inr (Or.inr (Or.inr ((Nat.prime_dvd_prime_iff_eq hq (prime_1686913)).mp (hq.dvd_of_dvd_pow h))))
  rcases hmem with rfl | rfl | rfl | rfl <;>
    · rw [← bpow_eq]
      decide!

theorem prime_927093389 : Nat.Prime 927093389 := by
  have ha : (3 : ZMod 927093389) ^ (927093389 - 1) = 1 := by
    rw [← bpow_eq]
    decide!
  refine lucas_primality 927093389 3 ha ?_
  intro q hq hdvd
  have hfac : 927093389 - 1 = 2 ^ 2 * (13 ^ 1 * (409 ^ 1 * (43591 ^ 1))) := by decide!
  rw [hfac] at hdvd
  have hmem : q = 2 ∨ q = 13 ∨ q = 409 ∨ q = 43591 := by
    rcases (Nat.Prime.dvd_mul hq).mp hdvd with h | h
    · exact Or.inl ((Nat.prime_dvd_prime_iff_eq hq (by norm_num)).mp (hq.dvd_of_dvd_pow h))
    rcases (Nat.Prime.dvd_mul hq).mp h with h | h
    · exact Or.inr (Or.inl ((Nat.prime_dvd_prime_iff_eq hq (by norm_num)).mp (hq.dvd_of_dvd_pow h)))
    rcases (Nat.Prime.dvd_mul hq).mp h with h | h
    · exact Or.inr (Or.inr (Or.inl ((Nat.prime_dvd_prime_iff_eq hq (by norm_num)).mp (hq.dvd_of_dvd_pow h))))
    · exact Or.inr (Or.inr (Or.inr ((Nat.prime_dvd_prime_iff_eq hq (by norm_num)).mp (hq.dvd_of_dvd_pow h))))
  rcases hmem with rfl | rfl | rfl | rfl <;>
    · rw [← bpow_eq]
      decide!

theorem prime_13090036741 : Nat.Prime 13090036741 := by
  have ha : (10 : ZMod 13090036741) ^ (13090036741 - 1) = 1 := by
    rw [← bpow_eq]
    decide!
  refine lucas_primality 13090036741 10 ha ?_
  intro q hq hdvd
  have hfac : 13090036741 - 1 = 2 ^ 2 * (3 ^ 1 * (5 ^ 1 * (11 ^ 1 * (47 ^ 1 * (421987 ^ 1))))) := by decide!
  rw [hfac] at hdvd
  have hmem : q = 2 ∨ q = 3 ∨ q = 5 ∨ q = 11 ∨ q = 47 ∨ q = 421987 := by
    rcases (Nat.Prime.dvd_mul hq).mp hdvd with h | h
    · exact Or.inl ((Nat.prime_dvd_prime_iff_eq hq (by norm_num)).mp (hq.dvd_of_dvd_pow h))
    rcases (Nat.Prime.dvd_mul hq).mp h with h | h
    · exact Or.inr (Or.inl ((Nat.prime_dvd_prime_iff_eq hq (by norm_num)).mp (hq.dvd_of_dvd_pow h)))
    rcases (Nat.Prime.dvd_mul hq).mp h with h | h
    · exact Or.inr (Or.inr (Or.inl ((Nat.prime_dvd_prime_iff_eq hq (by norm_num)).mp (hq.dvd_of_dvd_pow h))))
    rcases (Nat.Prime.dvd_mul hq).mp h with h | h
    · exact Or.inr (Or.inr (Or.inr (Or.inl ((Nat.prime_dvd_prime_iff_eq hq (by norm_num)).mp (hq.dvd_of_dvd_pow h)))))
    rcases (Nat.Prime.dvd_mul hq).mp h with h | h
    · exact Or.inr (Or.inr (Or.inr (Or.inr (Or.inl ((Nat.prime_dvd_prime_iff_eq hq (by norm_num)).mp (hq.dvd_of_dvd_pow h))))))
    · exact Or.inr (Or.inr (Or.inr (Or.inr (Or.inr ((Nat.prime_dvd_prime_iff_eq hq (by norm_num)).mp (hq.dvd_of_dvd_pow h))))))
  rcases hmem with rfl | rfl | rfl | rfl | rfl | rfl <;>
    · rw [← bpow_eq]
      decide!

theorem prime_43670061551 : Nat.Prime 43670061551 := by
  have ha : (7 : ZMod 43670061551) ^ (43670061551 - 1) = 1 := by
    rw [← bpow_eq]
    decide!
  refine lucas_primality 43670061551 7 ha ?_
  intro q hq hdvd
  have hfac : 43670061551 - 1 = 2 ^ 1 * (5 ^ 2 * (17 ^ 1 * (51376543 ^ 1))) := by decide!
  rw [hfac] at hdvd
  have hmem : q = 2 ∨ q = 5 ∨ q = 17 ∨ q = 51376543 := by
    rcases (Nat.Prime.dvd_mul hq).mp hdvd with h | h
    · exact Or.inl ((Nat.prime_dvd_prime_iff_eq hq (by norm_num)).mp (hq.dvd_of_dvd_pow h))
    rcases (Nat.Prime.dvd_mul hq).mp h with h | h
    · exact Or.inr (Or.inl ((Nat.prime_dvd_prime_iff_eq hq (by norm_num)).mp (hq.dvd_of_dvd_pow h)))
    rcases (Nat.Prime.dvd_mul hq).mp h with h | h
    · exact Or.inr (Or.inr (Or.inl ((Nat.prime_dvd_prime_iff_eq hq (by norm_num)).mp (hq.dvd_of_dvd_pow h))))
    · exact Or.inr (Or.inr (Or.inr ((Nat.prime_dvd_prime_iff_eq hq (prime_51376543)).mp (hq.dvd_of_dvd_pow h))))
  rcases hmem with rfl | rfl | rfl | rfl <;>
    · rw [← bpow_eq]
      decide!

theorem prime_9272813673901 : Nat.Prime 9272813673901 := by
  have ha : (2 : ZMod 9272813673901) ^ (9272813673901 - 1) = 1 := by
    rw [← bpow_eq]
    decide!
  refine lucas_primality 9272813673901 2 ha ?_
  intro q hq hdvd
  have hfac : 9272813673901 - 1 = 2 ^ 2 * (3 ^ 1 * (5 ^ 2 * (7 ^ 1 * (7577 ^ 1 * (582767 ^ 1))))) := by decide!
  rw [hfac] at hdvd
  have hmem : q = 2 ∨ q = 3 ∨ q = 5 ∨ q = 7 ∨ q = 7577 ∨ q = 582767 := by
    rcases (Nat.Prime.dvd_mul hq).mp hdvd with h | h
    · exact Or.inl ((Nat.prime_dvd_prime_iff_eq hq (by norm_num)).mp (hq.dvd_of_dvd_pow h))
    rcases (Nat.Prime.dvd_mul hq).mp h with h | h
    · exact Or.inr (Or.inl ((Nat.prime_dvd_prime_iff_eq hq (by norm_num)).mp (hq.dvd_of_dvd_pow h)))
    rcases (Nat.Prime.dvd_mul hq).mp h with h | h
    · exact Or.inr (Or.inr (Or.inl ((Nat.prime_dvd_prime_iff_eq hq (by norm_num)).mp (hq.dvd_of_dvd_pow h))))
    rcases (Nat.Prime.dvd_mul hq).mp h with h | h
    · exact Or.inr (Or.inr (Or.inr (Or.inl ((Nat.prime_dvd_prime_iff_eq hq (by norm_num)).mp (hq.dvd_of_dvd_pow h)))))
    rcases (Nat.Prime.dvd_mul hq).mp h with h | h
    · exact Or.inr (Or.inr (Or.inr (Or.inr (Or.inl ((Nat.prime_dvd_prime_iff_eq hq (by norm_num)).mp (hq.dvd_of_dvd_pow h))))))
    · exact Or.inr (Or.inr (Or.inr (Or.inr (Or.inr ((Nat.prime_dvd_prime_iff_eq hq (by norm_num)).mp (hq.dvd_of_dvd_pow h))))))
  rcases hmem with rfl | rfl | rfl | rfl | rfl | rfl <;>
    · rw [← bpow_eq]
      decide!

theorem prime_64881703735777 : Nat.Prime 64881703735777 := by
  have ha : (5 : ZMod 64881703735777) ^ (64881703735777 - 1) = 1 := by
    rw [← bpow_eq]
    decide!
  refine lucas_primality 64881703735777 5 ha ?_
  intro q hq hdvd
  have hfac : 64881703735777 - 1 = 2 ^ 5 * (3 ^ 7 * (927093389 ^ 1)) := by decide!
  rw [hfac] at hdvd
  have hmem : q = 2 ∨ q = 3 ∨ q = 927093389 := by
    rcases (Nat.Prime.dvd_mul hq).mp hdvd with h | h
    · exact Or.inl ((Nat.prime_dvd_prime_iff_eq hq (by norm_num)).mp (hq.dvd_of_dvd_pow h))
    rcases (Nat.Prime.dvd_mul hq).mp h with h | h
    · exact Or.inr (Or.inl ((Nat.prime_dvd_prime_iff_eq hq (by norm_num)).mp (hq.dvd_of_dvd_pow h)))
    · exact Or.inr (Or.inr ((Nat.prime_dvd_prime_iff_eq hq (prime_927093389)).mp (hq.dvd_of_dvd_pow h)))
  rcases hmem with rfl | rfl | rfl <;>
    · rw [← bpow_eq]
      decide!

theorem prime_1928745244171409 : Nat.Prime 1928745244171409 := by
  have ha : (3 : ZMod 1928745244171409) ^ (1928745244171409 - 1) = 1 := by
    rw [← bpow_eq]
    decide!
  refine lucas_primality 1928745244171409 3 ha ?_
  intro q hq hdvd
  have hfac : 1928745244171409 - 1 = 2 ^ 4 * (13 ^ 1 * (9272813673901 ^ 1)) := by decide!
  rw [hfac] at hdvd
  have hmem : q = 2 ∨ q = 13 ∨ q = 9272813673901 := by
    rcases (Nat.Prime.dvd_mul hq).mp hdvd with h | h
    · exact Or.inl ((Nat.prime_dvd_prime_iff_eq hq (by norm_num)).mp (hq.dvd_of_dvd_pow h))
    rcases (Nat.Prime.dvd_mul hq).mp h with h | h
    · exact Or.inr (Or.inl ((Nat.prime_dvd_prime_iff_eq hq (by norm_num)).mp (hq.dvd_of_dvd_pow h)))
    · exact Or.inr (Or.inr ((Nat.prime_dvd_prime_iff_eq hq (prime_9272813673901)).mp (hq.dvd_of_dvd_pow h)))
  rcases hmem with rfl | rfl | rfl <;>
    · rw [← bpow_eq]
      decide!

theorem prime_7259797099061183477 : Nat.Prime 7259797099061183477 := by
  have ha : (2 : ZMod 7259797099061183477) ^ (7259797099061183477 - 1) = 1 := by
    rw [← bpow_eq]
    decide!
  refine lucas_primality 7259797099061183477 2 ha ?_
  intro q hq hdvd
  have hfac : 7259797099061183477 - 1 = 2 ^ 2 * (941 ^ 1 * (1928745244171409 ^ 1)) := by decide!
  rw [hfac] at hdvd
  have hmem : q = 2 ∨ q = 941 ∨ q = 1928745244171409 := by
    rcases (Nat.Prime.dvd_mul hq).mp hdvd with h | h
    · exact Or.inl ((Nat.prime_dvd_prime_iff_eq hq (by norm_num)).mp (hq.dvd_of_dvd_pow h))
    rcases (Nat.Prime.dvd_mul hq).mp h with h | h
    · exact Or.inr (Or.inl ((Nat.prime_dvd_prime_iff_eq hq (by norm_num)).mp (hq.dvd_of_dvd_pow h)))
    · exact Or.inr (Or.inr ((Nat.prime_dvd_prime_iff_eq hq (prime_1928745244171409)).mp (hq.dvd_of_dvd_pow h)))
  rcases hmem with rfl | rfl | rfl <;>
    · rw [← bpow_eq]
      decide!

theorem prime_2584487767265781317813 : Nat.Prime 2584487767265781317813 := by
  have ha : (2 : ZMod 2584487767265781317813) ^ (2584487767265781317813 - 1) = 1 := by
    rw [← bpow_eq]
    decide!
  refine lucas_primality 2584487767265781317813 2 ha ?_
  intro q hq hdvd
  have hfac : 2584487767265781317813 - 1 = 2 ^ 2 * (89 ^ 1 * (7259797099061183477 ^ 1)) := by decide!
  rw [hfac] at hdvd
  have hmem : q = 2 ∨ q = 89 ∨ q = 7259797099061183477 := by
    rcases (Nat.Prime.dvd_mul hq).mp hdvd with h | h
    · exact Or.inl ((Nat.prime_dvd_prime_iff_eq hq (by norm_num)).mp (hq.dvd_of_dvd_pow h))
    rcases (Nat.Prime.dvd_mul hq).mp h with h | h
    · exact Or.inr (Or.inl ((Nat.prime_dvd_prime_iff_eq hq (by norm_num)).mp (hq.dvd_of_dvd_pow h)))
    · exact Or.inr (Or.inr ((Nat.prime_dvd_prime_iff_eq hq (prime_7259797099061183477)).mp (hq.dvd_of_dvd_pow h)))
  rcases hmem with rfl | rfl | rfl <;>
    · rw [← bpow_eq]
      decide!

theorem prime_3819663927398918131021 : Nat.Prime 3819663927398918131021 := by
  have ha : (6 : ZMod 3819663927398918131021) ^ (3819663927398918131021 - 1) = 1 := by
    rw [← bpow_eq]
    decide!
  refine lucas_primality 3819663927398918131021 6 ha ?_
  intro q hq hdvd
  have hfac : 3819663927398918131021 - 1 = 2 ^ 2 * (3 ^ 2 * (5 ^ 1 * (19 ^ 1 * (113 ^ 1 * (755057 ^ 1 * (13090036741 ^ 1)))))) := by decide!
  rw [hfac] at hdvd
  have hmem : q = 2 ∨ q = 3 ∨ q = 5 ∨ q = 19 ∨ q = 113 ∨ q = 755057 ∨ q = 13090036741 := by
    rcases (Nat.Prime.dvd_mul hq).mp hdvd with h | h
    · exact Or.inl ((Nat.prime_dvd_prime_iff_eq hq (by norm_num)).mp (hq.dvd_of_dvd_pow h))
    rcases (Nat.Prime.dvd_mul hq).mp h with h | h
    · exact Or.inr (Or.inl ((Nat.prime_dvd_prime_iff_eq hq (by norm_num)).mp (hq.dvd_of_dvd_pow h)))
    rcases (Nat.Prime.dvd_mul hq).mp h with h | h
    · exact Or.inr (Or.inr (Or.inl ((Nat.prime_dvd_prime_iff_eq hq (by norm_num)).mp (hq.dvd_of_dvd_pow h))))
    rcases (Nat.Prime.dvd_mul hq).mp h with h | h
    · exact Or.inr (Or.inr (Or.inr (Or.inl ((Nat.prime_dvd_prime_iff_eq hq (by norm_num)).mp (hq.dvd_of_dvd_pow h)))))
    rcases (Nat.Prime.dvd_mul hq).mp h with h | h
    · exact Or.inr (Or.inr (Or.inr (Or.inr (Or.inl ((Nat.prime_dvd_prime_iff_eq hq (by norm_num)).mp (hq.dvd_of_dvd_pow h))))))
    rcases (Nat.Prime.dvd_mul hq).mp h with h | h
    · exact Or.inr (Or.inr (Or.inr (Or.inr (Or.inr (Or.inl ((Nat.prime_dvd_prime_iff_eq hq (by norm_num)).mp (hq.dvd_of_dvd_pow h)))))))
    · exact Or.inr (Or.inr (Or.inr (Or.inr (Or.inr (Or.inr ((Nat.prime_dvd_prime_iff_eq hq (prime_13090036741)).mp (hq.dvd_of_dvd_pow h)))))))
  rcases hmem with rfl | rfl | rfl | rfl | rfl | rfl | rfl <;>
    · rw [← bpow_eq]
      decide!

theorem prime_92691255082156974996979 : Nat.Prime 92691255082156974996979 := by
  have ha : (3 : ZMod 92691255082156974996979) ^ (92691255082156974996979 - 1) = 1 := by
    rw [← bpow_eq]
    decide!
  refine lucas_primality 92691255082156974996979 3 ha ?_
  intro q hq hdvd
  have hfac : 92691255082156974996979 - 1 = 2 ^ 1 * (3 ^ 1 * (31 ^ 1 * (467 ^ 1 * (16447 ^ 1 * (64881703735777 ^ 1))))) := by decide!
  rw [hfac] at hdvd
  have hmem : q = 2 ∨ q = 3 ∨ q = 31 ∨ q = 467 ∨ q = 16447 ∨ q = 64881703735777 := by
    rcases (Nat.Prime.dvd_mul hq).mp hdvd with h | h
    · exact Or.inl ((Nat.prime_dvd_prime_iff_eq hq (by norm_num)).mp (hq.dvd_of_dvd_pow h))
    rcases (Nat.Prime.dvd_mul hq).mp h with h | h
    · exact Or.inr (Or.inl ((Nat.prime_dvd_prime_iff_eq hq (by norm_num)).mp (hq.dvd_of_dvd_pow h)))
    rcases (Nat.Prime.dvd_mul hq).mp h with h | h
    · exact Or.inr (Or.inr (Or.inl ((Nat.prime_dvd_prime_iff_eq hq (by norm_num)).mp (hq.dvd_of_dvd_pow h))))
    rcases (Nat.Prime.dvd_mul hq).mp h with h | h
    · exact Or.inr (Or.inr (Or.inr (Or.inl ((Nat.prime_dvd_prime_iff_eq hq (by norm_num)).mp (hq.dvd_of_dvd_pow h)))))
    rcases (Nat.Prime.dvd_mul hq).mp h with h | h
    · exact Or.inr (Or.inr (Or.inr (Or.inr (Or.inl ((Nat.prime_dvd_prime_iff_eq hq (by norm_num)).mp (hq.dvd_of_dvd_pow h))))))
    · exact Or.inr (Or.inr (Or.inr (Or.inr (Or.inr ((Nat.prime_dvd_prime_iff_eq hq (prime_64881703735777)).mp (hq.dvd_of_dvd_pow h))))))
  rcases hmem with rfl | rfl | rfl | rfl | rfl | rfl <;>
    · rw [← bpow_eq]
      decide!

theorem prime_1125266252156850182658904441386709967 : Nat.Prime 1125266252156850182658904441386709967 := by
  have ha : (5 : ZMod 1125266252156850182658904441386709967) ^ (1125266252156850182658904441386709967 - 1) = 1 := by
    rw [← bpow_eq]
    decide!
  refine lucas_primality 1125266252156850182658904441386709967 5 ha ?_
  intro q hq hdvd
  have hfac : 1125266252156850182658904441386709967 - 1 = 2 ^ 1 * (3373 ^ 1 * (43670061551 ^ 1 * (3819663927398918131021 ^ 1))) := by decide!
  rw [hfac] at hdvd
  have hmem : q = 2 ∨ q = 3373 ∨ q = 43670061551 ∨ q = 3819663927398918131021 := by
    rcases (Nat.Prime.dvd_mul hq).mp hdvd with h | h
    · exact Or.inl ((Nat.prime_dvd_prime_iff_eq hq (by norm_num)).mp (hq.dvd_of_dvd_pow h))
    rcases (Nat.Prime.dvd_mul hq).mp h with h | h
    · exact Or.inr (Or.inl ((Nat.prime_dvd_prime_iff_eq hq (by norm_num)).mp (hq.dvd_of_dvd_pow h)))
    rcases (Nat.Prime.dvd_mul hq).mp h with h | h
    · exact Or.inr (Or.inr (Or.inl ((Nat.prime_dvd_prime_iff_eq hq (prime_43670061551)).mp (hq.dvd_of_dvd_pow h))))
    · exact Or.inr (Or.inr (Or.inr ((Nat.prime_dvd_prime_iff_eq hq (prime_3819663927398918131021)).mp (hq.dvd_of_dvd_pow h))))
  rcases hmem with rfl | rfl | rfl | rfl <;>
    · rw [← bpow_eq]
      decide!

theorem prime_15778400344354997994418419698270088123916926905054652752758194827714659 : Nat.Prime 15778400344354997994418419698270088123916926905054652752758194827714659 := by
  have ha : (2 : ZMod 15778400344354997994418419698270088123916926905054652752758194827714659) ^ (15778400344354997994418419698270088123916926905054652752758194827714659 - 1) = 1 := by
    rw [← bpow_eq]
    decide!
  refine lucas_primality 15778400344354997994418419698270088123916926905054652752758194827714659 2 ha ?_
  intro q hq hdvd
  have hfac : 15778400344354997994418419698270088123916926905054652752758194827714659 - 1 = 2 ^ 1 * (3 ^ 1 * (53 ^ 1 * (475709467 ^ 1 * (92691255082156974996979 ^ 1 * (1125266252156850182658904441386709967 ^ 1))))) := by decide!
  rw [hfac] at hdvd
  have hmem : q = 2 ∨ q = 3 ∨ q = 53 ∨ q = 475709467 ∨ q = 92691255082156974996979 ∨ q = 1125266252156850182658904441386709967 := by
    rcases (Nat.Prime.dvd_mul hq).mp hdvd with h | h
    · exact Or.inl ((Nat.prime_dvd_prime_iff_eq hq (by norm_num)).mp (hq.dvd_of_dvd_pow h))
    rcases (Nat.Prime.dvd_mul hq).mp h with h | h
    · exact Or.inr (Or.inl ((Nat.prime_dvd_prime_iff_eq hq (by norm_num)).mp (hq.dvd_of_dvd_pow h)))
    rcases (Nat.Prime.dvd_mul hq).mp h with h | h
    · exact Or.inr (Or.inr (Or.inl ((Nat.prime_dvd_prime_iff_eq hq (by norm_num)).mp (hq.dvd_of_dvd_pow h))))
    rcases (Nat.Prime.dvd_mul hq).mp h with h | h
    · exact Or.inr (Or.inr (Or.inr (Or.inl ((Nat.prime_dvd_prime_iff_eq hq (prime_475709467)).mp (hq.dvd_of_dvd_pow h)))))
    rcases (Nat.Prime.dvd_mul hq).mp h with h | h
    · exact Or.inr (Or.inr (Or.inr (Or.inr (Or.inl ((Nat.prime_dvd_prime_iff_eq hq (prime_92691255082156974996979)).mp (hq.dvd_of_dvd_pow h))))))
    · exact Or.inr (Or.inr (Or.inr (Or.inr (Or.inr ((Nat.prime_dvd_prime_iff_eq hq (prime_1125266252156850182658904441386709967)).mp (hq.dvd_of_dvd_pow h))))))
  rcases hmem with rfl | rfl | rfl | rfl | rfl | rfl <;>
    · rw [← bpow_eq]
      decide!

theorem prime_52435875175126190479447740508185965837690552500527637822603658699938581184513 : Nat.Prime 52435875175126190479447740508185965837690552500527637822603658699938581184513 := by
  have ha : (7 : ZMod 52435875175126190479447740508185965837690552500527637822603658699938581184513) ^ (52435875175126190479447740508185965837690552500527637822603658699938581184513 - 1) = 1 := by
    rw [← bpow_eq]
    decide!
  refine lucas_primality 52435875175126190479447740508185965837690552500527637822603658699938581184513 7 ha ?_
  intro q hq hdvd
  have hfac : 52435875175126190479447740508185965837690552500527637822603658699938581184513 - 1 = 2 ^ 32 * (3 ^ 1 * (11 ^ 1 * (19 ^ 1 * (10177 ^ 1 * (125527 ^ 1 * (859267 ^ 1 * (906349 ^ 2 * (2508409 ^ 1 * (2529403 ^ 1 * (52437899 ^ 1 * (254760293 ^ 2))))))))))) := by decide!
  rw [hfac] at hdvd
  have hmem : q = 2 ∨ q = 3 ∨ q = 11 ∨ q = 19 ∨ q = 10177 ∨ q = 125527 ∨ q = 859267 ∨ q = 906349 ∨ q = 2508409 ∨ q = 2529403 ∨ q = 52437899 ∨ q = 254760293 := by
    rcases (Nat.Prime.dvd_mul hq).mp hdvd with h | h
    · exact Or.inl ((Nat.prime_dvd_prime_iff_eq hq (by norm_num)).mp (hq.dvd_of_dvd_pow h))
    rcases (Nat.Prime.dvd_mul hq).mp h with h | h
    · exact Or.inr (Or.inl ((Nat.prime_dvd_prime_iff_eq hq (by norm_num)).mp (hq.dvd_of_dvd_pow h)))
    rcases (Nat.Prime.dvd_mul hq).mp h with h | h
    · exact Or.inr (Or.inr (Or.inl ((Nat.prime_dvd_prime_iff_eq hq (by norm_num)).mp (hq.dvd_of_dvd_pow h))))
    rcases (Nat.Prime.dvd_mul hq).mp h with h | h
    · exact Or.inr (Or.inr (Or.inr (Or.inl ((Nat.prime_dvd_prime_iff_eq hq (by norm_num)).mp (hq.dvd_of_dvd_pow h)))))
    rcases (Nat.Prime.dvd_mul hq).mp h with h | h
    · exact Or.inr (Or.inr (Or.inr (Or.inr (Or.inl ((Nat.prime_dvd_prime_iff_eq hq (by norm_num)).mp (hq.dvd_of_dvd_pow h))))))
    rcases (Nat.Prime.dvd_mul hq).mp h with h | h
    · exact Or.inr (Or.inr (Or.inr (Or.inr (Or.inr (Or.inl ((Nat.prime_dvd_prime_iff_eq hq (by norm_num)).mp (hq.dvd_of_dvd_pow h)))))))
    rcases (Nat.Prime.dvd_mul hq).mp h with h | h
    · exact Or.inr (Or.inr (Or.inr (Or.inr (Or.inr (Or.inr (Or.inl ((Nat.prime_dvd_prime_iff_eq hq (by norm_num)).mp (hq.dvd_of_dvd_pow h))))))))
    rcases (Nat.Prime.dvd_mul hq).mp h with h | h
    · exact Or.inr (Or.inr (Or.inr (Or.inr (Or.inr (Or.inr (Or.inr (Or.inl ((Nat.prime_dvd_prime_iff_eq hq (by norm_num)).mp (hq.dvd_of_dvd_pow h)))))))))
    rcases (Nat.Prime.dvd_mul hq).mp h with h | h
    · exact Or.inr (Or.inr (Or.inr (Or.inr (Or.inr (Or.inr (Or.inr (Or.inr (Or.inl ((Nat.prime_dvd_prime_iff_eq hq (prime_2508409)).mp (hq.dvd_of_dvd_pow h))))))))))
    rcases (Nat.Prime.dvd_mul hq).mp h with h | h
    · exact Or.inr (Or.inr (Or.inr (Or.inr (Or.inr (Or.inr (Or.inr (Or.inr (Or.inr (Or.inl ((Nat.prime_dvd_prime_iff_eq hq (prime_2529403)).mp (hq.dvd_of_dvd_pow h)))))))))))
    rcases (Nat.Prime.dvd_mul hq).mp h with h | h
    · exact Or.inr (Or.inr (Or.inr (Or.inr (Or.inr (Or.inr (Or.inr (Or.inr (Or.inr (Or.inr (Or.inl ((Nat.prime_dvd_prime_iff_eq hq (prime_52437899)).mp (hq.dvd_of_dvd_pow h))))))))))))
    · exact Or.inr (Or.inr (Or.inr (Or.inr (Or.inr (Or.inr (Or.inr (Or.inr (Or.inr (Or.inr (Or.inr ((Nat.prime_dvd_prime_iff_eq hq (prime_254760293)).mp (hq.dvd_of_dvd_pow h))))))))))))
  rcases hmem with rfl | rfl | rfl | rfl | rfl | rfl | rfl | rfl | rfl | rfl | rfl | rfl <;>
    · rw [← bpow_eq]
      decide!

theorem prime_4002409555221667393417789825735904156556882819939007885332058136124031650490837864442687629129015664037894272559787 : Nat.Prime 4002409555221667393417789825735904156556882819939007885332058136124031650490837864442687629129015664037894272559787 := by
  have ha : (2 : ZMod 4002409555221667393417789825735904156556882819939007885332058136124031650490837864442687629129015664037894272559787) ^ (4002409555221667393417789825735904156556882819939007885332058136124031650490837864442687629129015664037894272559787 - 1) = 1 := by
    rw [← bpow_eq]
    decide!
  refine lucas_primality 4002409555221667393417789825735904156556882819939007885332058136124031650490837864442687629129015664037894272559787 2 ha ?_
  intro q hq hdvd
  have hfac : 4002409555221667393417789825735904156556882819939007885332058136124031650490837864442687629129015664037894272559787 - 1 = 2 ^ 1 * (3 ^ 2 * (11 ^ 1 * (23 ^ 1 * (47 ^ 1 * (10177 ^ 1 * (859267 ^ 1 * (52437899 ^ 1 * (2584487767265781317813 ^ 1 * (15778400344354997994418419698270088123916926905054652752758194827714659 ^ 1))))))))) := by decide!
  rw [hfac] at hdvd
  have hmem : q = 2 ∨ q = 3 ∨ q = 11 ∨ q = 23 ∨ q = 47 ∨ q = 10177 ∨ q = 859267 ∨ q = 52437899 ∨ q = 2584487767265781317813 ∨ q = 15778400344354997994418419698270088123916926905054652752758194827714659 := by
    rcases (Nat.Prime.dvd_mul hq).mp hdvd with h | h
    · exact Or.inl ((Nat.prime_dvd_prime_iff_eq hq (by norm_num)).mp (hq.dvd_of_dvd_pow h))
    rcases (Nat.Prime.dvd_mul hq).mp h with h | h
    · exact Or.inr (Or.inl ((Nat.prime_dvd_prime_iff_eq hq (by norm_num)).mp (hq.dvd_of_dvd_pow h)))
    rcases (Nat.Prime.dvd_mul hq).mp h with h | h
    · exact Or.inr (Or.inr (Or.inl ((Nat.prime_dvd_prime_iff_eq hq (by norm_num)).mp (hq.dvd_of_dvd_pow h))))
    rcases (Nat.Prime.dvd_mul hq).mp h with h | h
    · exact Or.inr (Or.inr (Or.inr (Or.inl ((Nat.prime_dvd_prime_iff_eq hq (by norm_num)).mp (hq.dvd_of_dvd_pow h)))))
    rcases (Nat.Prime.dvd_mul hq).mp h with h | h
    · exact Or.inr (Or.inr (Or.inr (Or.inr (Or.inl ((Nat.prime_dvd_prime_iff_eq hq (by norm_num)).mp (hq.dvd_of_dvd_pow h))))))
    rcases (Nat.Prime.dvd_mul hq).mp h with h | h
    · exact Or.inr (Or.inr (Or.inr (Or.inr (Or.inr (Or.inl ((Nat.prime_dvd_prime_iff_eq hq (by norm_num)).mp (hq.dvd_of_dvd_pow h)))))))
    rcases (Nat.Prime.dvd_mul hq).mp h with h | h
    · exact Or.inr (Or.inr (Or.inr (Or.inr (Or.inr (Or.inr (Or.inl ((Nat.prime_dvd_prime_iff_eq hq (by norm_num)).mp (hq.dvd_of_dvd_pow h))))))))
    rcases (Nat.Prime.dvd_mul hq).mp h with h | h
    · exact Or.inr (Or.inr (Or.inr (Or.inr (Or.inr (Or.inr (Or.inr (Or.inl ((Nat.prime_dvd_prime_iff_eq hq (prime_52437899)).mp (hq.dvd_of_dvd_pow h)))))))))
    rcases (Nat.Prime.dvd_mul hq).mp h with h | h
    · exact Or.inr (Or.inr (Or.inr (Or.inr (Or.inr (Or.inr (Or.inr (Or.inr (Or.inl ((Nat.prime_dvd_prime_iff_eq hq (prime_2584487767265781317813)).mp (hq.dvd_of_dvd_pow h))))))))))
    · exact Or.inr (Or.inr (Or.inr (Or.inr (Or.inr (Or.inr (Or.inr (Or.inr (Or.inr ((Nat.prime_dvd_prime_iff_eq hq (prime_15778400344354997994418419698270088123916926905054652752758194827714659)).mp (hq.dvd_of_dvd_pow h))))))))))
  rcases hmem with rfl | rfl | rfl | rfl | rfl | rfl | rfl | rfl | rfl | rfl <;>
    · rw [← bpow_eq]
      decide!

/-- `P` is prime (Pratt certificate, verified by Lucas's theorem at each
node). -/
theorem P_prime : Nat.Prime P := prime_4002409555221667393417789825735904156556882819939007885332058136124031650490837864442687629129015664037894272559787

/-- `R` is prime. -/
theorem R_prime : Nat.Prime R := prime_52435875175126190479447740508185965837690552500527637822603658699938581184513

instance : Fact (Nat.Prime P) := ⟨P_prime⟩

instance : Fact (Nat.Prime R) := ⟨R_prime⟩

/-!
## Claim C6 — inversion in the four fields

First the base field: correctness of the extended binary GCD behind
`Fq.inv`.  The loop invariant is `x1·a ≡ u` and `x2·a ≡ v (mod P)`; fuel
dominates `u + v`, which strictly decreases.
-/

theorem P_int_pos : (0 : ℤ) < (P : ℤ) := by exact_mod_cast P_pos

theorem P_int_odd : ((P : ℕ) : ℤ) % 2 = 1 := by decide

theorem Fq_two_ne_zero : (2 : Fq) ≠ 0 := by decide

theorem gcdW_correct (fuel : ℕ) :
    ∀ u v x1 x2 : ℤ, ∀ a : Fq,
      0 < u → 0 < v → IsCoprime u v → u.toNat + v.toNat ≤ fuel →
      ((x1 : Fq) * a = (u : Fq)) → ((x2 : Fq) * a = (v : Fq)) →
      ∃ r : ℤ, gcdW fuel u v x1 x2 (P : ℤ) = .ok r ∧ (r : Fq) * a = 1 := by
  induction fuel with
  | zero =>
    intro u v x1 x2 a hu hv _ hfuel _ _
    exact absurd hfuel (by omega)
  | succ n ih =>
    intro u v x1 x2 a hu hv hco hfuel hx1 hx2
    rw [gcdW_succ, if_neg (not_not_intro ⟨hu, hv⟩)]
    by_cases hu1 : u = 1
    · subst hu1
      refine ⟨jsMod x1 (P : ℤ), by rw [if_pos rfl], ?_⟩
      rw [jsMod_eq_emod _ P_int_pos, ZMod.intCast_mod, hx1]
      norm_num
    · rw [if_neg hu1]
      by_cases hv1 : v = 1
      · subst hv1
        refine ⟨jsMod x2 (P : ℤ), by rw [if_pos rfl], ?_⟩
        rw [jsMod_eq_emod _ P_int_pos, ZMod.intCast_mod, hx2]
        norm_num
      · rw [if_neg hv1]
        by_cases hue : u.tmod 2 = 0
        · rw [if_pos hue]
          obtain ⟨m, rfl⟩ : ∃ m, u = 2 * m :=
            Int.dvd_iff_tmod_eq_zero.mpr hue
          by_cases hx1e : x1.tmod 2 = 0
          · rw [if_pos hx1e]
            obtain ⟨k, rfl⟩ : ∃ k, x1 = 2 * k :=
              Int.dvd_iff_tmod_eq_zero.mpr hx1e
            rw [Int.mul_fdiv_cancel_left m two_ne_zero,
              Int.mul_fdiv_cancel_left k two_ne_zero]
            refine ih m v k x2 a (by omega) hv hco.of_mul_left_right (by omega) ?_ hx2
            have hc : (2 : Fq) * ((k : Fq) * a) = (2 : Fq) * (m : Fq) := by
              push_cast at hx1
              linear_combination hx1
            exact mul_left_cancel₀ Fq_two_ne_zero hc
          · rw [if_neg hx1e]
            have hodd : ¬ (2 : ℤ) ∣ x1 := fun hd =>
              hx1e (Int.dvd_iff_tmod_eq_zero.mp hd)
            have hx1odd : x1 % 2 = 1 := by
              rcases Int.emod_two_eq x1 with h | h
              · exact absurd (Int.dvd_iff_emod_eq_zero.mpr h) hodd
              · exact h
            obtain ⟨k, hk⟩ : ∃ k, x1 + (P : ℤ) = 2 * k :=
              ⟨(x1 + (P : ℤ)) / 2, by have := P_int_odd; omega⟩
            rw [hk, Int.mul_fdiv_cancel_left m two_ne_zero,
              Int.mul_fdiv_cancel_left k two_ne_zero]
            refine ih m v k x2 a (by omega) hv hco.of_mul_left_right (by omega) ?_ hx2
            have hx1' : x1 = 2 * k - (P : ℤ) := by omega
            subst hx1'
            have hc : (2 : Fq) * ((k : Fq) * a) = (2 : Fq) * (m : Fq) := by
              push_cast at hx1
              rw [ZMod.natCast_self] at hx1
              linear_combination hx1
            exact mul_left_cancel₀ Fq_two_ne_zero hc
        · rw [if_neg hue]
          by_cases hve : v.tmod 2 = 0
          · rw [if_pos hve]
            obtain ⟨m, rfl⟩ : ∃ m, v = 2 * m :=
              Int.dvd_iff_tmod_eq_zero.mpr hve
            by_cases hx2e : x2.tmod 2 = 0
            · rw [if_pos hx2e]
              obtain ⟨k, rfl⟩ : ∃ k, x2 = 2 * k :=
                Int.dvd_iff_tmod_eq_zero.mpr hx2e
              rw [Int.mul_fdiv_cancel_left m two_ne_zero,
                Int.mul_fdiv_cancel_left k two_ne_zero]
              refine ih u m x1 k a hu (by omega) hco.of_mul_right_right (by omega) hx1 ?_
              have hc : (2 : Fq) * ((k : Fq) * a) = (2 : Fq) * (m : Fq) := by
                push_cast at hx2
                linear_combination hx2
              exact mul_left_cancel₀ Fq_two_ne_zero hc
            · rw [if_neg hx2e]
              have hodd : ¬ (2 : ℤ) ∣ x2 := fun hd =>
                hx2e (Int.dvd_iff_tmod_eq_zero.mp hd)
              have hx2odd : x2 % 2 = 1 := by
                rcases Int.emod_two_eq x2 with h | h
                · exact absurd (Int.dvd_iff_emod_eq_zero.mpr h) hodd
                · exact h
              obtain ⟨k, hk⟩ : ∃ k, x2 + (P : ℤ) = 2 * k :=
                ⟨(x2 + (P : ℤ)) / 2, by have := P_int_odd; omega⟩
              rw [hk, Int.mul_fdiv_cancel_left m two_ne_zero,
                Int.mul_fdiv_cancel_left k two_ne_zero]
              refine ih u m x1 k a hu (by omega) hco.of_mul_right_right (by omega) hx1 ?_
              have hx2' : x2 = 2 * k - (P : ℤ) := by omega
              subst hx2'
              have hc : (2 : Fq) * ((k : Fq) * a) = (2 : Fq) * (m : Fq) := by
                push_cast at hx2
                rw [ZMod.natCast_self] at hx2
                linear_combination hx2
              exact mul_left_cancel₀ Fq_two_ne_zero hc
          · rw [if_neg hve]
            have hne : u ≠ v := by
              intro he
              subst he
              rcases Int.isUnit_iff.mp (hco.isUnit_of_dvd' dvd_rfl dvd_rfl) with h | h
              · exact hu1 h
              · omega
            by_cases hvu : v ≤ u
            · rw [if_pos hvu]
              have hco' : IsCoprime (u - v) v := by
                have := hco.add_mul_left_left (-1)
                simpa [mul_comm, sub_eq_add_neg] using this
              refine ih (u - v) v (x1 - x2) x2 a (by omega) hv hco' (by omega) ?_ hx2
              push_cast
              linear_combination hx1 - hx2
            · rw [if_neg hvu, if_pos (by omega)]
              have hco' : IsCoprime u (v - u) := by
                have := hco.add_mul_right_right (-1)
                simpa [mul_comm, sub_eq_add_neg] using this
              refine ih u (v - u) x1 (x2 - x1) a hu (by omega) hco' (by omega) hx1 ?_
              push_cast
              linear_combination hx2 - hx1

theorem Fq_inv_zero : Fq.inv 0 = .error .inversionOfZero := rfl

theorem Fq_inv_ok (a : Fq) (ha : a ≠ 0) :
    ∃ b : Fq, Fq.inv a = .ok b ∧ a.mul b = Fq.one := by
  have hval : a.val ≠ 0 := fun h => ha ((ZMod.val_eq_zero a).mp h)
  have hvlt : a.val < P := ZMod.val_lt a
  have hco : IsCoprime ((a.val : ℕ) : ℤ) ((P : ℕ) : ℤ) := by
    rw [Int.isCoprime_iff_gcd_eq_one, Int.gcd_natCast_natCast]
    have : Nat.Coprime P a.val :=
      (Nat.Prime.coprime_iff_not_dvd P_prime).mpr fun hdvd =>
        absurd (Nat.le_of_dvd (Nat.pos_of_ne_zero hval) hdvd) (not_le.mpr hvlt)
    exact Nat.coprime_comm.mp this
  obtain ⟨r, hr, hra⟩ :=
    gcdW_correct (a.val + P + 1) (a.val : ℤ) (P : ℤ) 1 0 a
      (by exact_mod_cast Nat.pos_of_ne_zero hval) P_int_pos hco
      (by omega) (by rw [Int.cast_one, one_mul, Int.cast_natCast, ZMod.natCast_rightInverse a])
      (by push_cast [ZMod.natCast_self]; ring)
  refine ⟨Fq.fromInt r, ?_, ?_⟩
  · unfold Fq.inv
    rw [if_neg ha, hr]
    rfl
  · unfold Fq.mul Fq.fromInt Fq.one
    rw [mul_comm]
    exact hra

/-!
### `Fq2` is a field

The source operations satisfy the commutative-ring axioms (coordinatewise
polynomial identities over `Fq`), and inversion succeeds on every nonzero
element because `-1` is not a square mod `P` (`P % 4 = 3`), so the factor
`x² + y²` only vanishes at zero.
-/

theorem Fq2.ext_xy {a b : Fq2} (hx : a.x = b.x) (hy : a.y = b.y) : a = b := by
  cases a; cases b; cases hx; cases hy; rfl

instance : Zero Fq2 := ⟨Fq2.zero⟩
instance : One Fq2 := ⟨Fq2.one⟩
instance : Add Fq2 := ⟨Fq2.add⟩
instance : Mul Fq2 := ⟨Fq2.mul⟩
instance : Neg Fq2 := ⟨Fq2.neg⟩
instance : Sub Fq2 := ⟨Fq2.sub⟩

theorem Fq2.zero_x : (0 : Fq2).x = 0 := rfl
theorem Fq2.zero_y : (0 : Fq2).y = 0 := rfl
theorem Fq2.one_x : (1 : Fq2).x = 1 := rfl
theorem Fq2.one_y : (1 : Fq2).y = 0 := rfl
theorem Fq2.add_x (a b : Fq2) : (a + b).x = a.x + b.x := rfl
theorem Fq2.add_y (a b : Fq2) : (a + b).y = a.y + b.y := rfl
theorem Fq2.mul_x (a b : Fq2) : (a * b).x = a.x * b.x - a.y * b.y := rfl
theorem Fq2.mul_y (a b : Fq2) : (a * b).y = a.y * b.x + a.x * b.y := rfl
theorem Fq2.neg_x (a : Fq2) : (-a).x = -a.x := rfl
theorem Fq2.neg_y (a : Fq2) : (-a).y = -a.y := rfl
theorem Fq2.sub_x (a b : Fq2) : (a - b).x = a.x - b.x := rfl
theorem Fq2.sub_y (a b : Fq2) : (a - b).y = a.y - b.y := rfl

instance : CommRing Fq2 where
  zero := 0
  one := 1
  add := (· + ·)
  mul := (· * ·)
  neg := (- ·)
  sub := (· - ·)
  nsmul := nsmulRec
  zsmul := zsmulRec
  add_assoc a b c := by
    apply Fq2.ext_xy <;> simp only [Fq2.add_x, Fq2.add_y] <;> ring
  zero_add a := by
    apply Fq2.ext_xy <;> simp only [Fq2.add_x, Fq2.add_y, Fq2.zero_x, Fq2.zero_y] <;> ring
  add_zero a := by
    apply Fq2.ext_xy <;> simp only [Fq2.add_x, Fq2.add_y, Fq2.zero_x, Fq2.zero_y] <;> ring
  add_comm a b := by
    apply Fq2.ext_xy <;> simp only [Fq2.add_x, Fq2.add_y] <;> ring
  neg_add_cancel a := by
    apply Fq2.ext_xy <;>
      simp only [Fq2.add_x, Fq2.add_y, Fq2.neg_x, Fq2.neg_y, Fq2.zero_x, Fq2.zero_y] <;> ring
  sub_eq_add_neg a b := by
    apply Fq2.ext_xy <;>
      simp only [Fq2.sub_x, Fq2.sub_y, Fq2.add_x, Fq2.add_y, Fq2.neg_x, Fq2.neg_y] <;> ring
  mul_assoc a b c := by
    apply Fq2.ext_xy <;> simp only [Fq2.mul_x, Fq2.mul_y] <;> ring
  one_mul a := by
    apply Fq2.ext_xy <;> simp only [Fq2.mul_x, Fq2.mul_y, Fq2.one_x, Fq2.one_y] <;> ring
  mul_one a := by
    apply Fq2.ext_xy <;> simp only [Fq2.mul_x, Fq2.mul_y, Fq2.one_x, Fq2.one_y] <;> ring
  mul_comm a b := by
    apply Fq2.ext_xy <;> simp only [Fq2.mul_x, Fq2.mul_y] <;> ring
  left_distrib a b c := by
    apply Fq2.ext_xy <;> simp only [Fq2.mul_x, Fq2.mul_y, Fq2.add_x, Fq2.add_y] <;> ring
  right_distrib a b c := by
    apply Fq2.ext_xy <;> simp only [Fq2.mul_x, Fq2.mul_y, Fq2.add_x, Fq2.add_y] <;> ring
  zero_mul a := by
    apply Fq2.ext_xy <;> simp only [Fq2.mul_x, Fq2.mul_y, Fq2.zero_x, Fq2.zero_y] <;> ring
  mul_zero a := by
    apply Fq2.ext_xy <;> simp only [Fq2.mul_x, Fq2.mul_y, Fq2.zero_x, Fq2.zero_y] <;> ring

theorem Fq2.zero_def : (0 : Fq2) = Fq2.zero := rfl
theorem Fq2.one_def2 : (1 : Fq2) = Fq2.one := rfl
theorem Fq2.add_def2 (a b : Fq2) : a.add b = a + b := rfl
theorem Fq2.mul_def2 (a b : Fq2) : a.mul b = a * b := rfl
theorem Fq2.sub_def2 (a b : Fq2) : a.sub b = a - b := rfl
theorem Fq2.neg_def2 (a : Fq2) : a.neg = -a := rfl

theorem Fq.add_def (a b : Fq) : Fq.add a b = a + b := rfl
theorem Fq.mul_def (a b : Fq) : Fq.mul a b = a * b := rfl
theorem Fq.sub_def (a b : Fq) : Fq.sub a b = a - b := rfl
theorem Fq.neg_def (a : Fq) : Fq.neg a = -a := rfl
theorem Fq.one_def : Fq.one = 1 := rfl

theorem Fq2_inv_zero : Fq2.inv Fq2.zero = .error .inversionOfZero := rfl

theorem P_mod_four : P % 4 = 3 := by decide

/-- The inversion factor `x² + y²` of `Fq2.inv` vanishes only at zero,
because `-1` is not a square mod `P` (`P ≡ 3 mod 4`). -/
theorem Fq2_factor_ne_zero (a : Fq2) (ha : a ≠ 0) :
    a.x * a.x + a.y * a.y ≠ 0 := by
  intro h
  by_cases hy : a.y = 0
  · have hx : a.x = 0 := by
      have : a.x * a.x = 0 := by rw [hy] at h; linear_combination h
      exact (mul_self_eq_zero).mp this
    exact ha (Fq2.ext_xy (by rw [hx]; rfl) (by rw [hy]; rfl))
  · have hsq : (a.x * a.y⁻¹) ^ 2 = (-1 : Fq) := by
      field_simp
      linear_combination h
    have hsquare : IsSquare (-1 : Fq) := ⟨a.x * a.y⁻¹, by rw [← hsq]; ring⟩
    have h43 := ZMod.exists_sq_eq_neg_one_iff.mp hsquare
    rw [P_mod_four] at h43
    exact h43 rfl

theorem Fq2_inv_ok (a : Fq2) (ha : a ≠ 0) :
    ∃ b : Fq2, Fq2.inv a = .ok b ∧ a * b = 1 := by
  have hfac : (a.x.mul a.x).add (a.y.mul a.y) ≠ 0 := by
    simp only [Fq.mul_def, Fq.add_def]
    exact Fq2_factor_ne_zero a ha
  obtain ⟨f, hf, hff⟩ := Fq_inv_ok _ hfac
  simp only [Fq.mul_def, Fq.add_def, Fq.one_def] at hff
  refine ⟨⟨a.x.mul f, a.y.neg.mul f⟩, ?_, ?_⟩
  · unfold Fq2.inv
    rw [hf]
    rfl
  · apply Fq2.ext_xy
    · show a.x * (a.x * f) - a.y * (-a.y * f) = 1
      linear_combination hff
    · show a.y * (a.x * f) + a.x * (-a.y * f) = 0
      ring

/-- Total inversion on `Fq2` (zero maps to zero), packaging `Fq2.inv` for
the `Field` structure. -/
def Fq2.inv0 (a : Fq2) : Fq2 :=
  match Fq2.inv a with
  | .ok b => b
  | .error _ => 0

instance : Field Fq2 where
  inv := Fq2.inv0
  exists_pair_ne := ⟨0, 1, by decide⟩
  mul_inv_cancel a ha := by
    obtain ⟨b, hb, hab⟩ := Fq2_inv_ok a ha
    show a * Fq2.inv0 a = 1
    simp only [Fq2.inv0, hb]
    exact hab
  inv_zero := rfl
  nnqsmul := _
  qsmul := _

/-- `Fq2` is finite with `P ^ 2` elements. -/
def Fq2.equivProd : Fq2 ≃ Fq × Fq :=
  ⟨fun a => (a.x, a.y), fun p => ⟨p.1, p.2⟩, fun _ => rfl, fun _ => rfl⟩

instance : Fintype Fq2 := Fintype.ofEquiv (Fq × Fq) Fq2.equivProd.symm

theorem Fq2_card : Fintype.card Fq2 = P ^ 2 := by
  rw [Fintype.card_congr Fq2.equivProd, Fintype.card_prod, ZMod.card]
  ring

/-!
### A kernel-friendly exponentiator

`fpow` reads the exponent's bits by index (most significant last) and
forces its state at every step through a trivially-true decidable guard,
so a kernel evaluation runs in constant stack depth and linear time.  It
computes `Monoid.npow`, which bridges it to every other exponentiation in
this development.
-/

def fpowAux {M : Type} [CommMonoid M] [DecidableEq M] (y bits : ℕ) : ℕ → M → M → M :=
  Nat.rec (motive := fun _ => M → M → M)
    (fun _ acc => acc)
    (fun f ih sq acc =>
      if sq = sq ∧ acc = acc then
        ih (sq * sq) (if y.testBit (bits - (f + 1)) then acc * sq else acc)
      else acc)

def fpow {M : Type} [CommMonoid M] [DecidableEq M] (x : M) (y bits : ℕ) : M :=
  fpowAux y bits bits x 1

theorem fpowAux_succ {M : Type} [CommMonoid M] [DecidableEq M] (y bits f : ℕ)
    (sq acc : M) :
    fpowAux y bits (f + 1) sq acc =
      fpowAux y bits f (sq * sq) (if y.testBit (bits - (f + 1)) then acc * sq else acc) := by
  show (if sq = sq ∧ acc = acc then _ else _) = _
  rw [if_pos ⟨rfl, rfl⟩]
  rfl

theorem fpowAux_eq {M : Type} [CommMonoid M] [DecidableEq M] (y bits : ℕ)
    (hy : y < 2 ^ bits) :
    ∀ f : ℕ, f ≤ bits → ∀ sq acc : M,
      fpowAux y bits f sq acc = acc * sq ^ (y >>> (bits - f)) := by
  intro f
  induction f with
  | zero =>
    intro _ sq acc
    have h0 : y >>> bits = 0 := by
      rw [Nat.shiftRight_eq_div_pow]
      exact Nat.div_eq_of_lt hy
    show acc = acc * sq ^ (y >>> (bits - 0))
    rw [Nat.sub_zero, h0, pow_zero, mul_one]
  | succ n ih =>
    intro hf sq acc
    rw [fpowAux_succ, ih (by omega)]
    have hbi : bits - n = (bits - (n + 1)) + 1 := by omega
    rw [hbi]
    have hsr : y >>> (bits - (n + 1)) =
        2 * (y >>> (bits - (n + 1) + 1)) +
          (if y.testBit (bits - (n + 1)) then 1 else 0) := by
      rw [Nat.shiftRight_eq_div_pow, Nat.shiftRight_eq_div_pow, Nat.testBit_to_div_mod,
        pow_succ]
      rw [← Nat.div_div_eq_div_mul]
      rcases Nat.mod_two_eq_zero_or_one (y / 2 ^ (bits - (n + 1))) with h | h
      · rw [h]
        norm_num
        omega
      · rw [h]
        norm_num
        omega
    by_cases hb : y.testBit (bits - (n + 1))
    · rw [if_pos hb, hsr, if_pos hb]
      have hp : sq ^ (2 * (y >>> (bits - (n + 1) + 1)) + 1) =
          (sq * sq) ^ (y >>> (bits - (n + 1) + 1)) * sq := by
        rw [pow_succ, two_mul, pow_add, mul_pow]
      rw [hp, mul_right_comm, mul_assoc]
    · rw [if_neg hb, hsr, if_neg hb]
      rw [Nat.add_zero, two_mul, pow_add, mul_pow]
      rw [pow_add, pow_zero, mul_one]

theorem fpow_eq {M : Type} [CommMonoid M] [DecidableEq M] (x : M) (y bits : ℕ)
    (h : y < 2 ^ bits) : fpow x y bits = x ^ y := by
  rw [fpow, fpowAux_eq y bits h bits le_rfl, Nat.sub_self, Nat.shiftRight_zero, one_mul]

/-!
### Residue criteria

`2` is neither a square (as `P % 8 = 3`) nor a cube (Euler criterion,
one short kernel exponentiation) in `Fq`; carried through the
multiplicative norm of `Fq2`, this makes `ξ = 1 + u` a cubic and
quadratic non-residue of `Fq2`, which is what the tower needs.
-/

theorem P_mod_eight : P % 8 = 3 := by decide

theorem P_ne_two : P ≠ 2 := by decide

theorem two_not_square : ¬ IsSquare (2 : Fq) := by
  intro h
  have h8 := (ZMod.exists_sq_eq_two_iff P_ne_two).mp h
  rw [P_mod_eight] at h8
  rcases h8 with h1 | h1 <;> exact absurd h1 (by norm_num)

theorem two_cube_exp : 3 * ((P - 1) / 3) = P - 1 := by decide

theorem two_pow_third_ne_one : (2 : Fq) ^ ((P - 1) / 3) ≠ 1 := by
  rw [← fpow_eq _ _ 384 (by decide)]
  decide!

theorem two_not_cube : ∀ c : Fq, c ^ 3 ≠ 2 := by
  intro c hc
  have hc0 : c ≠ 0 := by
    intro h
    rw [h] at hc
    norm_num at hc
    exact absurd hc (by decide)
  have hf := ZMod.pow_card_sub_one_eq_one hc0
  have h1 : (2 : Fq) ^ ((P - 1) / 3) = 1 := by
    rw [← hc, ← pow_mul, two_cube_exp, hf]
  exact two_pow_third_ne_one h1

/-- The norm of `Fq2` down to `Fq` (`x² + y²`), multiplicative and
vanishing only at zero. -/
def Fq2.norm (a : Fq2) : Fq := a.x * a.x + a.y * a.y

theorem Fq2.norm_mul (a b : Fq2) : (a * b).norm = a.norm * b.norm := by
  simp only [Fq2.norm, Fq2.mul_x, Fq2.mul_y]
  ring

theorem Fq2.norm_eq_zero {a : Fq2} (h : a.norm = 0) : a = 0 := by
  by_contra hne
  exact Fq2_factor_ne_zero a hne h

theorem Fq2.norm_nonresidue : Fq2.NON_RESIDUE.norm = 2 := by decide

theorem nonresidue_not_cube : ∀ b : Fq2, b ^ 3 ≠ Fq2.NON_RESIDUE := by
  intro b hb
  apply two_not_cube b.norm
  rw [← Fq2.norm_nonresidue, ← hb]
  have h3 : b ^ 3 = b * b * b := by ring
  rw [h3, Fq2.norm_mul, Fq2.norm_mul]
  ring

theorem nonresidue_not_square : ∀ b : Fq2, b ^ 2 ≠ Fq2.NON_RESIDUE := by
  intro b hb
  apply two_not_square
  refine ⟨b.norm, ?_⟩
  rw [← Fq2.norm_nonresidue, ← hb]
  have h2 : b ^ 2 = b * b := by ring
  rw [h2, Fq2.norm_mul]

theorem fq6poly_irreducible :
    Irreducible ((Polynomial.X : Polynomial Fq2) ^ 3 - Polynomial.C Fq2.NON_RESIDUE) :=
  X_pow_sub_C_irreducible_of_prime (by norm_num) nonresidue_not_cube

/-!
### `Fq6` is a field

Ring axioms coordinatewise over `Fq2` (with `ξ` the cubic non-residue),
then the function-field structure through the Kummer extension
`Fq2[X]/(X³ - ξ)`.
-/

theorem Fq2.nonresidue_x : Fq2.NON_RESIDUE.x = 1 := by decide
theorem Fq2.nonresidue_y : Fq2.NON_RESIDUE.y = 1 := by decide

theorem Fq2.mulByNonResidue_eq (c : Fq2) :
    c.mulByNonResidue = Fq2.NON_RESIDUE * c := by
  apply Fq2.ext_xy <;>
    simp only [Fq2.mulByNonResidue, Fq2.mul_x, Fq2.mul_y, Fq.sub_def, Fq.add_def,
      Fq2.nonresidue_x, Fq2.nonresidue_y] <;>
    ring

theorem Fq6.ext_xyz {a b : Fq6} (hx : a.x = b.x) (hy : a.y = b.y) (hz : a.z = b.z) :
    a = b := by
  cases a; cases b; cases hx; cases hy; cases hz; rfl

instance : Zero Fq6 := ⟨Fq6.zero⟩
instance : One Fq6 := ⟨Fq6.one⟩
instance : Add Fq6 := ⟨Fq6.add⟩
instance : Mul Fq6 := ⟨Fq6.mul⟩
instance : Neg Fq6 := ⟨Fq6.neg⟩
instance : Sub Fq6 := ⟨Fq6.sub⟩

theorem Fq6.zero_x6 : (0 : Fq6).x = 0 := rfl
theorem Fq6.zero_y6 : (0 : Fq6).y = 0 := rfl
theorem Fq6.zero_z6 : (0 : Fq6).z = 0 := rfl
theorem Fq6.one_x6 : (1 : Fq6).x = 1 := by decide
theorem Fq6.one_y6 : (1 : Fq6).y = 0 := rfl
theorem Fq6.one_z6 : (1 : Fq6).z = 0 := rfl
theorem Fq6.add_x6 (a b : Fq6) : (a + b).x = a.x + b.x := rfl
theorem Fq6.add_y6 (a b : Fq6) : (a + b).y = a.y + b.y := rfl
theorem Fq6.add_z6 (a b : Fq6) : (a + b).z = a.z + b.z := rfl
theorem Fq6.neg_x6 (a : Fq6) : (-a).x = 0 - a.x := rfl
theorem Fq6.neg_y6 (a : Fq6) : (-a).y = 0 - a.y := rfl
theorem Fq6.neg_z6 (a : Fq6) : (-a).z = 0 - a.z := rfl
theorem Fq6.sub_x6 (a b : Fq6) : (a - b).x = a.x - b.x := rfl
theorem Fq6.sub_y6 (a b : Fq6) : (a - b).y = a.y - b.y := rfl
theorem Fq6.sub_z6 (a b : Fq6) : (a - b).z = a.z - b.z := rfl

theorem Fq6.mul_x6 (a b : Fq6) :
    (a * b).x = a.x * b.x +
      Fq2.NON_RESIDUE * ((a.y + a.z) * (b.y + b.z) - (a.y * b.y + a.z * b.z)) := by
  show (Fq6.mul a b).x = _
  simp only [Fq6.mul, Fq2.mulByNonResidue_eq, Fq2.add_def2, Fq2.mul_def2, Fq2.sub_def2]
  try ring

theorem Fq6.mul_y6 (a b : Fq6) :
    (a * b).y = (a.x + a.y) * (b.x + b.y) - (a.x * b.x + a.y * b.y) +
      Fq2.NON_RESIDUE * (a.z * b.z) := by
  show (Fq6.mul a b).y = _
  simp only [Fq6.mul, Fq2.mulByNonResidue_eq, Fq2.add_def2, Fq2.mul_def2, Fq2.sub_def2]
  try ring

theorem Fq6.mul_z6 (a b : Fq6) :
    (a * b).z = a.y * b.y + (a.x + a.z) * (b.x + b.z) - (a.x * b.x + a.z * b.z) := by
  show (Fq6.mul a b).z = _
  simp only [Fq6.mul, Fq2.mulByNonResidue_eq, Fq2.add_def2, Fq2.mul_def2, Fq2.sub_def2]
  try ring

theorem Fq6.add_assoc' (a b c : Fq6) : a + b + c = a + (b + c) := by
  apply Fq6.ext_xyz <;> simp only [Fq6.add_x6, Fq6.add_y6, Fq6.add_z6] <;> ring

theorem Fq6.zero_add' (a : Fq6) : 0 + a = a := by
  apply Fq6.ext_xyz <;>
    simp only [Fq6.add_x6, Fq6.add_y6, Fq6.add_z6, Fq6.zero_x6, Fq6.zero_y6, Fq6.zero_z6] <;> ring

theorem Fq6.add_z6ero' (a : Fq6) : a + 0 = a := by
  apply Fq6.ext_xyz <;>
    simp only [Fq6.add_x6, Fq6.add_y6, Fq6.add_z6, Fq6.zero_x6, Fq6.zero_y6, Fq6.zero_z6] <;> ring

theorem Fq6.add_comm' (a b : Fq6) : a + b = b + a := by
  apply Fq6.ext_xyz <;> simp only [Fq6.add_x6, Fq6.add_y6, Fq6.add_z6] <;> ring

theorem Fq6.neg_add_cancel' (a : Fq6) : -a + a = 0 := by
  apply Fq6.ext_xyz <;>
    simp only [Fq6.add_x6, Fq6.add_y6, Fq6.add_z6, Fq6.neg_x6, Fq6.neg_y6, Fq6.neg_z6,
      Fq6.zero_x6, Fq6.zero_y6, Fq6.zero_z6] <;> ring

theorem Fq6.sub_eq_add_neg' (a b : Fq6) : a - b = a + -b := by
  apply Fq6.ext_xyz <;>
    simp only [Fq6.sub_x6, Fq6.sub_y6, Fq6.sub_z6, Fq6.add_x6, Fq6.add_y6, Fq6.add_z6,
      Fq6.neg_x6, Fq6.neg_y6, Fq6.neg_z6] <;> ring

theorem Fq6.mul_assoc' (a b c : Fq6) : a * b * c = a * (b * c) := by
  apply Fq6.ext_xyz <;> simp only [Fq6.mul_x6, Fq6.mul_y6, Fq6.mul_z6] <;> ring

theorem Fq6.one_mul' (a : Fq6) : 1 * a = a := by
  apply Fq6.ext_xyz <;>
    simp only [Fq6.mul_x6, Fq6.mul_y6, Fq6.mul_z6, Fq6.one_x6, Fq6.one_y6, Fq6.one_z6] <;> ring

theorem Fq6.mul_one' (a : Fq6) : a * 1 = a := by
  apply Fq6.ext_xyz <;>
    simp only [Fq6.mul_x6, Fq6.mul_y6, Fq6.mul_z6, Fq6.one_x6, Fq6.one_y6, Fq6.one_z6] <;> ring

theorem Fq6.mul_comm' (a b : Fq6) : a * b = b * a := by
  apply Fq6.ext_xyz <;> simp only [Fq6.mul_x6, Fq6.mul_y6, Fq6.mul_z6] <;> ring

theorem Fq6.left_distrib' (a b c : Fq6) : a * (b + c) = a * b + a * c := by
  apply Fq6.ext_xyz <;>
    simp only [Fq6.mul_x6, Fq6.mul_y6, Fq6.mul_z6, Fq6.add_x6, Fq6.add_y6, Fq6.add_z6] <;> ring

theorem Fq6.right_distrib' (a b c : Fq6) : (a + b) * c = a * c + b * c := by
  apply Fq6.ext_xyz <;>
    simp only [Fq6.mul_x6, Fq6.mul_y6, Fq6.mul_z6, Fq6.add_x6, Fq6.add_y6, Fq6.add_z6] <;> ring

theorem Fq6.zero_mul' (a : Fq6) : 0 * a = 0 := by
  apply Fq6.ext_xyz <;>
    simp only [Fq6.mul_x6, Fq6.mul_y6, Fq6.mul_z6, Fq6.zero_x6, Fq6.zero_y6, Fq6.zero_z6] <;> ring

theorem Fq6.mul_z6ero' (a : Fq6) : a * 0 = 0 := by
  apply Fq6.ext_xyz <;>
    simp only [Fq6.mul_x6, Fq6.mul_y6, Fq6.mul_z6, Fq6.zero_x6, Fq6.zero_y6, Fq6.zero_z6] <;> ring

instance : CommRing Fq6 where
  zero := 0
  one := 1
  add := (· + ·)
  mul := (· * ·)
  neg := (- ·)
  sub := (· - ·)
  nsmul := nsmulRec
  zsmul := zsmulRec
  add_assoc := Fq6.add_assoc'
  zero_add := Fq6.zero_add'
  add_zero := Fq6.add_z6ero'
  add_comm := Fq6.add_comm'
  neg_add_cancel := Fq6.neg_add_cancel'
  sub_eq_add_neg := Fq6.sub_eq_add_neg'
  mul_assoc := Fq6.mul_assoc'
  one_mul := Fq6.one_mul'
  mul_one := Fq6.mul_one'
  mul_comm := Fq6.mul_comm'
  left_distrib := Fq6.left_distrib'
  right_distrib := Fq6.right_distrib'
  zero_mul := Fq6.zero_mul'
  mul_zero := Fq6.mul_z6ero'

/-- The constant embedding `Fq2 → Fq6` (scalars in the `x` slot). -/
def i2 : Fq2 →+* Fq6 where
  toFun c := ⟨c, 0, 0⟩
  map_one' := rfl
  map_mul' a b := by
    apply Fq6.ext_xyz <;> simp only [Fq6.mul_x6, Fq6.mul_y6, Fq6.mul_z6] <;> ring
  map_zero' := rfl
  map_add' a b := by
    apply Fq6.ext_xyz <;> simp only [Fq6.add_x6, Fq6.add_y6, Fq6.add_z6] <;> ring

theorem i2_x (c : Fq2) : (i2 c).x = c := rfl
theorem i2_y (c : Fq2) : (i2 c).y = 0 := rfl
theorem i2_z (c : Fq2) : (i2 c).z = 0 := rfl

/-- The generator `v` of `Fq6` over `Fq2` (`v³ = ξ`). -/
def Fq6.v : Fq6 := ⟨0, 1, 0⟩

theorem Fq6.v_cube : Fq6.v ^ 3 = i2 Fq2.NON_RESIDUE := by decide

theorem Fq6.decompose (c : Fq6) :
    c = i2 c.x + i2 c.y * Fq6.v + i2 c.z * (Fq6.v * Fq6.v) := by
  apply Fq6.ext_xyz <;>
    simp only [Fq6.add_x6, Fq6.add_y6, Fq6.add_z6, Fq6.mul_x6, Fq6.mul_y6, Fq6.mul_z6,
      i2_x, i2_y, i2_z] <;>
    simp only [show Fq6.v.x = 0 from rfl, show Fq6.v.y = 1 from rfl,
      show Fq6.v.z = 0 from rfl] <;>
    ring

theorem Fq6.v_isRoot :
    Polynomial.eval₂ i2 Fq6.v
      ((Polynomial.X : Polynomial Fq2) ^ 3 - Polynomial.C Fq2.NON_RESIDUE) = 0 := by
  simp only [Polynomial.eval₂_sub, Polynomial.eval₂_pow, Polynomial.eval₂_X,
    Polynomial.eval₂_C]
  rw [Fq6.v_cube, sub_self]

/-- Every nonzero element of `Fq6` has a right inverse: `Fq6` is carried
by a ring isomorphism with the field `Fq2[X]/(X³ - ξ)`. -/
theorem Fq6.exists_right_inv : ∀ a : Fq6, a ≠ 0 → ∃ b : Fq6, a * b = 1 := by
  haveI : Fact (Irreducible ((Polynomial.X : Polynomial Fq2) ^ 3 -
      Polynomial.C Fq2.NON_RESIDUE)) := ⟨fq6poly_irreducible⟩
  intro a ha
  have hsur : ∀ c : Fq6, ∃ α, AdjoinRoot.lift i2 Fq6.v Fq6.v_isRoot α = c := by
    intro c
    refine ⟨AdjoinRoot.of _ c.x + AdjoinRoot.of _ c.y * AdjoinRoot.root _ +
      AdjoinRoot.of _ c.z * (AdjoinRoot.root _ * AdjoinRoot.root _), ?_⟩
    rw [RingHom.map_add, RingHom.map_add, RingHom.map_mul, RingHom.map_mul,
      RingHom.map_mul, AdjoinRoot.lift_of, AdjoinRoot.lift_of, AdjoinRoot.lift_of,
      AdjoinRoot.lift_root]
    exact (Fq6.decompose c).symm
  obtain ⟨α, hα⟩ := hsur a
  have hαne : α ≠ 0 := fun h => ha (by rw [← hα, h, map_zero])
  refine ⟨AdjoinRoot.lift i2 Fq6.v Fq6.v_isRoot α⁻¹, ?_⟩
  rw [← hα, ← map_mul, mul_inv_cancel₀ hαne, map_one]

/-- The norm of `Fq6` down to `Fq2`: `x³ + ξy³ + ξ²z³ - 3ξxyz`. -/
def Fq6.norm (a : Fq6) : Fq2 :=
  a.x ^ 3 + Fq2.NON_RESIDUE * a.y ^ 3 + Fq2.NON_RESIDUE ^ 2 * a.z ^ 3 -
    3 * Fq2.NON_RESIDUE * (a.x * a.y * a.z)

theorem Fq6.norm_mul6 (a b : Fq6) : (a * b).norm = a.norm * b.norm := by
  simp only [Fq6.norm, Fq6.mul_x6, Fq6.mul_y6, Fq6.mul_z6]
  ring

theorem Fq6.norm_one : (1 : Fq6).norm = 1 := by decide

theorem Fq6.norm_ne_zero (a : Fq6) (ha : a ≠ 0) : a.norm ≠ 0 := by
  obtain ⟨b, hab⟩ := Fq6.exists_right_inv a ha
  intro h
  have hν := congrArg Fq6.norm hab
  rw [Fq6.norm_mul6, h, zero_mul, Fq6.norm_one] at hν
  exact absurd hν (by decide)

theorem Fq6_inv_zero : Fq6.inv Fq6.zero = .error .inversionOfZero := rfl

theorem Fq6_inv_ok (a : Fq6) (ha : a ≠ 0) :
    ∃ b : Fq6, Fq6.inv a = .ok b ∧ a * b = 1 := by
  have hfne : a.norm ≠ 0 := Fq6.norm_ne_zero a ha
  have hfac_eq :
      ((a.x.mul ((a.x.mul a.x).sub ((a.y.mul a.z).mulByNonResidue))).add
        ((a.z.mul (((a.z.mul a.z).mulByNonResidue).sub (a.x.mul a.y))).mulByNonResidue)).add
        ((a.y.mul ((a.y.mul a.y).sub (a.x.mul a.z))).mulByNonResidue) = a.norm := by
    simp only [Fq2.mul_def2, Fq2.add_def2, Fq2.sub_def2, Fq2.mulByNonResidue_eq, Fq6.norm]
    ring
  obtain ⟨f, hf, hff⟩ := Fq2_inv_ok a.norm hfne
  refine ⟨⟨((a.x.mul a.x).sub ((a.y.mul a.z).mulByNonResidue)).mul f,
    ((((a.z.mul a.z).mulByNonResidue).sub (a.x.mul a.y))).mul f,
    ((a.y.mul a.y).sub (a.x.mul a.z)).mul f⟩, ?_, ?_⟩
  · simp only [Fq6.inv]
    rw [hfac_eq, hf]
    rfl
  · apply Fq6.ext_xyz <;>
      simp only [Fq6.mul_x6, Fq6.mul_y6, Fq6.mul_z6, Fq2.mul_def2, Fq2.add_def2, Fq2.sub_def2,
        Fq2.mulByNonResidue_eq, Fq6.one_x6, Fq6.one_y6, Fq6.one_z6]
    · simp only [Fq6.norm] at hff
      linear_combination hff
    · ring
    · ring

/-- Total inversion on `Fq6` for the `Field` structure. -/
def Fq6.inv0 (a : Fq6) : Fq6 :=
  match Fq6.inv a with
  | .ok b => b
  | .error _ => 0

instance : Field Fq6 where
  inv := Fq6.inv0
  exists_pair_ne := ⟨0, 1, by decide⟩
  mul_inv_cancel a ha := by
    obtain ⟨b, hb, hab⟩ := Fq6_inv_ok a ha
    show a * Fq6.inv0 a = 1
    simp only [Fq6.inv0, hb]
    exact hab
  inv_zero := rfl
  nnqsmul := _
  qsmul := _

def Fq6.equivProd : Fq6 ≃ Fq2 × Fq2 × Fq2 :=
  ⟨fun a => (a.x, a.y, a.z), fun p => ⟨p.1, p.2.1, p.2.2⟩, fun _ => rfl, fun _ => rfl⟩

instance : Fintype Fq6 := Fintype.ofEquiv (Fq2 × Fq2 × Fq2) Fq6.equivProd.symm

theorem Fq6_card : Fintype.card Fq6 = P ^ 6 := by
  rw [Fintype.card_congr Fq6.equivProd, Fintype.card_prod, Fintype.card_prod, Fq2_card]
  ring

/-!
### `Fq12` is a field

Quadratic stage `Fq12 = Fq6[w]/(w² - v)`: `v` is a non-square in `Fq6`
(its norm down the tower is `ξ`, then `2`, a non-square of `Fq`).
-/

theorem Fq6.mulByNonResidue_eq6 (a : Fq6) : a.mulByNonResidue = Fq6.v * a := by
  apply Fq6.ext_xyz <;>
    simp only [Fq6.mulByNonResidue, Fq6.mul_x6, Fq6.mul_y6, Fq6.mul_z6,
      Fq2.mulByNonResidue_eq] <;>
    simp only [show Fq6.v.x = 0 from rfl, show Fq6.v.y = 1 from rfl,
      show Fq6.v.z = 0 from rfl] <;>
    ring

theorem Fq6.norm_v : Fq6.v.norm = Fq2.NON_RESIDUE := by decide

theorem v_not_square : ∀ b : Fq6, b ^ 2 ≠ Fq6.v := by
  intro b hb
  apply nonresidue_not_square b.norm
  rw [← Fq6.norm_v, ← hb]
  have h2 : b ^ 2 = b * b := by ring
  rw [h2, Fq6.norm_mul6]
  ring

theorem fq12poly_irreducible :
    Irreducible ((Polynomial.X : Polynomial Fq6) ^ 2 - Polynomial.C Fq6.v) :=
  X_pow_sub_C_irreducible_of_prime (by norm_num) v_not_square

theorem Fq12.ext_xy12 {a b : Fq12} (hx : a.x = b.x) (hy : a.y = b.y) : a = b := by
  cases a; cases b; cases hx; cases hy; rfl

instance : Zero Fq12 := ⟨Fq12.zero⟩
instance : One Fq12 := ⟨Fq12.one⟩
instance : Add Fq12 := ⟨Fq12.add⟩
instance : Mul Fq12 := ⟨Fq12.mul⟩
instance : Neg Fq12 := ⟨Fq12.neg⟩
instance : Sub Fq12 := ⟨Fq12.sub⟩

theorem Fq12.zero_x12 : (0 : Fq12).x = 0 := rfl
theorem Fq12.zero_y12 : (0 : Fq12).y = 0 := rfl
theorem Fq12.one_x12 : (1 : Fq12).x = 1 := by decide
theorem Fq12.one_y12 : (1 : Fq12).y = 0 := rfl
theorem Fq12.add_x12 (a b : Fq12) : (a + b).x = a.x + b.x := rfl
theorem Fq12.add_y12 (a b : Fq12) : (a + b).y = a.y + b.y := rfl
theorem Fq12.neg_x12 (a : Fq12) : (-a).x = 0 - a.x := rfl
theorem Fq12.neg_y12 (a : Fq12) : (-a).y = 0 - a.y := rfl
theorem Fq12.sub_x12 (a b : Fq12) : (a - b).x = a.x - b.x := rfl
theorem Fq12.sub_y12 (a b : Fq12) : (a - b).y = a.y - b.y := rfl

theorem Fq12.mul_x12 (a b : Fq12) :
    (a * b).x = a.x * b.x + Fq6.v * (a.y * b.y) := by
  show (Fq12.mul a b).x = _
  simp only [Fq12.mul, Fq6.mulByNonResidue_eq6]
  rfl

theorem Fq12.mul_y12 (a b : Fq12) :
    (a * b).y = (a.x + a.y) * (b.x + b.y) - (a.x * b.x + a.y * b.y) := by
  show (Fq12.mul a b).y = _
  simp only [Fq12.mul]
  rfl

theorem Fq12.add_assoc12 (a b c : Fq12) : a + b + c = a + (b + c) := by
  apply Fq12.ext_xy12 <;> simp only [Fq12.add_x12, Fq12.add_y12] <;> ring

theorem Fq12.zero_add12 (a : Fq12) : 0 + a = a := by
  apply Fq12.ext_xy12 <;>
    simp only [Fq12.add_x12, Fq12.add_y12, Fq12.zero_x12, Fq12.zero_y12] <;> ring

theorem Fq12.add_zero12 (a : Fq12) : a + 0 = a := by
  apply Fq12.ext_xy12 <;>
    simp only [Fq12.add_x12, Fq12.add_y12, Fq12.zero_x12, Fq12.zero_y12] <;> ring

theorem Fq12.add_comm12 (a b : Fq12) : a + b = b + a := by
  apply Fq12.ext_xy12 <;> simp only [Fq12.add_x12, Fq12.add_y12] <;> ring

theorem Fq12.neg_add_cancel12 (a : Fq12) : -a + a = 0 := by
  apply Fq12.ext_xy12 <;>
    simp only [Fq12.add_x12, Fq12.add_y12, Fq12.neg_x12, Fq12.neg_y12,
      Fq12.zero_x12, Fq12.zero_y12] <;> ring

theorem Fq12.sub_eq_add_neg12 (a b : Fq12) : a - b = a + -b := by
  apply Fq12.ext_xy12 <;>
    simp only [Fq12.sub_x12, Fq12.sub_y12, Fq12.add_x12, Fq12.add_y12,
      Fq12.neg_x12, Fq12.neg_y12] <;> ring

theorem Fq12.mul_assoc12 (a b c : Fq12) : a * b * c = a * (b * c) := by
  apply Fq12.ext_xy12 <;> simp only [Fq12.mul_x12, Fq12.mul_y12] <;> ring

theorem Fq12.one_mul12 (a : Fq12) : 1 * a = a := by
  apply Fq12.ext_xy12 <;>
    simp only [Fq12.mul_x12, Fq12.mul_y12, Fq12.one_x12, Fq12.one_y12] <;> ring

theorem Fq12.mul_one12 (a : Fq12) : a * 1 = a := by
  apply Fq12.ext_xy12 <;>
    simp only [Fq12.mul_x12, Fq12.mul_y12, Fq12.one_x12, Fq12.one_y12] <;> ring

theorem Fq12.mul_comm12 (a b : Fq12) : a * b = b * a := by
  apply Fq12.ext_xy12 <;> simp only [Fq12.mul_x12, Fq12.mul_y12] <;> ring

theorem Fq12.left_distrib12 (a b c : Fq12) : a * (b + c) = a * b + a * c := by
  apply Fq12.ext_xy12 <;>
    simp only [Fq12.mul_x12, Fq12.mul_y12, Fq12.add_x12, Fq12.add_y12] <;> ring

theorem Fq12.right_distrib12 (a b c : Fq12) : (a + b) * c = a * c + b * c := by
  apply Fq12.ext_xy12 <;>
    simp only [Fq12.mul_x12, Fq12.mul_y12, Fq12.add_x12, Fq12.add_y12] <;> ring

theorem Fq12.zero_mul12 (a : Fq12) : 0 * a = 0 := by
  apply Fq12.ext_xy12 <;>
    simp only [Fq12.mul_x12, Fq12.mul_y12, Fq12.zero_x12, Fq12.zero_y12] <;> ring

theorem Fq12.mul_zero12 (a : Fq12) : a * 0 = 0 := by
  apply Fq12.ext_xy12 <;>
    simp only [Fq12.mul_x12, Fq12.mul_y12, Fq12.zero_x12, Fq12.zero_y12] <;> ring

instance : CommRing Fq12 where
  zero := 0
  one := 1
  add := (· + ·)
  mul := (· * ·)
  neg := (- ·)
  sub := (· - ·)
  nsmul := nsmulRec
  zsmul := zsmulRec
  add_assoc := Fq12.add_assoc12
  zero_add := Fq12.zero_add12
  add_zero := Fq12.add_zero12
  add_comm := Fq12.add_comm12
  neg_add_cancel := Fq12.neg_add_cancel12
  sub_eq_add_neg := Fq12.sub_eq_add_neg12
  mul_assoc := Fq12.mul_assoc12
  one_mul := Fq12.one_mul12
  mul_one := Fq12.mul_one12
  mul_comm := Fq12.mul_comm12
  left_distrib := Fq12.left_distrib12
  right_distrib := Fq12.right_distrib12
  zero_mul := Fq12.zero_mul12
  mul_zero := Fq12.mul_zero12

/-- The constant embedding `Fq6 → Fq12`. -/
def i6 : Fq6 →+* Fq12 where
  toFun c := ⟨c, 0⟩
  map_one' := rfl
  map_mul' a b := by
    apply Fq12.ext_xy12 <;> simp only [Fq12.mul_x12, Fq12.mul_y12] <;> ring
  map_zero' := rfl
  map_add' a b := by
    apply Fq12.ext_xy12 <;> simp only [Fq12.add_x12, Fq12.add_y12] <;> ring

theorem i6_x (c : Fq6) : (i6 c).x = c := rfl
theorem i6_y (c : Fq6) : (i6 c).y = 0 := rfl

/-- The generator `w` of `Fq12` over `Fq6` (`w² = v`). -/
def Fq12.w : Fq12 := ⟨0, 1⟩

theorem Fq12.w_sq : Fq12.w ^ 2 = i6 Fq6.v := by decide

theorem Fq12.decompose12 (c : Fq12) : c = i6 c.x + i6 c.y * Fq12.w := by
  apply Fq12.ext_xy12 <;>
    simp only [Fq12.add_x12, Fq12.add_y12, Fq12.mul_x12, Fq12.mul_y12, i6_x, i6_y] <;>
    simp only [show Fq12.w.x = 0 from rfl, show Fq12.w.y = 1 from rfl] <;>
    ring

theorem Fq12.w_isRoot :
    Polynomial.eval₂ i6 Fq12.w
      ((Polynomial.X : Polynomial Fq6) ^ 2 - Polynomial.C Fq6.v) = 0 := by
  simp only [Polynomial.eval₂_sub, Polynomial.eval₂_pow, Polynomial.eval₂_X,
    Polynomial.eval₂_C]
  rw [Fq12.w_sq, sub_self]

theorem Fq12.exists_right_inv12 : ∀ a : Fq12, a ≠ 0 → ∃ b : Fq12, a * b = 1 := by
  haveI : Fact (Irreducible ((Polynomial.X : Polynomial Fq6) ^ 2 -
      Polynomial.C Fq6.v)) := ⟨fq12poly_irreducible⟩
  intro a ha
  have hsur : ∀ c : Fq12, ∃ α, AdjoinRoot.lift i6 Fq12.w Fq12.w_isRoot α = c := by
    intro c
    refine ⟨AdjoinRoot.of _ c.x + AdjoinRoot.of _ c.y * AdjoinRoot.root _, ?_⟩
    rw [RingHom.map_add, RingHom.map_mul, AdjoinRoot.lift_of, AdjoinRoot.lift_of,
      AdjoinRoot.lift_root]
    exact (Fq12.decompose12 c).symm
  obtain ⟨α, hα⟩ := hsur a
  have hαne : α ≠ 0 := fun h => ha (by rw [← hα, h, map_zero])
  refine ⟨AdjoinRoot.lift i6 Fq12.w Fq12.w_isRoot α⁻¹, ?_⟩
  rw [← hα, ← map_mul, mul_inv_cancel₀ hαne, map_one]

/-- The norm of `Fq12` down to `Fq6`: `x² - v·y²`. -/
def Fq12.norm12 (a : Fq12) : Fq6 := a.x ^ 2 - Fq6.v * a.y ^ 2

theorem Fq12.norm12_mul (a b : Fq12) : (a * b).norm12 = a.norm12 * b.norm12 := by
  simp only [Fq12.norm12, Fq12.mul_x12, Fq12.mul_y12]
  ring

theorem Fq12.norm12_one : (1 : Fq12).norm12 = 1 := by decide

theorem Fq12.norm12_ne_zero (a : Fq12) (ha : a ≠ 0) : a.norm12 ≠ 0 := by
  obtain ⟨b, hab⟩ := Fq12.exists_right_inv12 a ha
  intro h
  have hν := congrArg Fq12.norm12 hab
  rw [Fq12.norm12_mul, h, zero_mul, Fq12.norm12_one] at hν
  exact absurd hν (by decide)

theorem Fq12_inv_zero : Fq12.inv Fq12.zero = .error .inversionOfZero := rfl

theorem Fq12_inv_ok (a : Fq12) (ha : a ≠ 0) :
    ∃ b : Fq12, Fq12.inv a = .ok b ∧ a * b = 1 := by
  have hfne : a.norm12 ≠ 0 := Fq12.norm12_ne_zero a ha
  have hfac_eq : (a.x.mul a.x).sub ((a.y.mul a.y).mulByNonResidue) = a.norm12 := by
    rw [show (a.y.mul a.y).mulByNonResidue = Fq6.v * (a.y.mul a.y) from
      Fq6.mulByNonResidue_eq6 _]
    show a.x * a.x - Fq6.v * (a.y * a.y) = a.norm12
    simp only [Fq12.norm12]
    ring
  obtain ⟨f, hf, hff⟩ := Fq6_inv_ok a.norm12 hfne
  refine ⟨⟨a.x.mul f, a.y.neg.mul f⟩, ?_, ?_⟩
  · unfold Fq12.inv
    rw [hfac_eq, hf]
    rfl
  · have hb : (⟨a.x.mul f, a.y.neg.mul f⟩ : Fq12) = ⟨a.x * f, (0 - a.y) * f⟩ := rfl
    rw [hb]
    apply Fq12.ext_xy12
    · rw [Fq12.mul_x12, Fq12.one_x12]
      show a.x * (a.x * f) + Fq6.v * (a.y * ((0 - a.y) * f)) = 1
      simp only [Fq12.norm12] at hff
      linear_combination hff
    · rw [Fq12.mul_y12, Fq12.one_y12]
      show (a.x + a.y) * (a.x * f + (0 - a.y) * f) -
        (a.x * (a.x * f) + a.y * ((0 - a.y) * f)) = 0
      ring

/-- Total inversion on `Fq12` for the `Field` structure. -/
def Fq12.inv0 (a : Fq12) : Fq12 := ((Fq12.inv a).toOption).getD 0

theorem Fq12.inv0_eq_of_ok {a b : Fq12} (h : Fq12.inv a = .ok b) : Fq12.inv0 a = b := by
  show ((Fq12.inv a).toOption).getD 0 = b
  rw [h]
  rfl

theorem Fq12.mul_inv0_cancel (a : Fq12) (ha : a ≠ 0) : a * Fq12.inv0 a = 1 := by
  obtain ⟨b, hb, hab⟩ := Fq12_inv_ok a ha
  rw [Fq12.inv0_eq_of_ok hb]
  exact hab

theorem Fq12.inv0_zero : Fq12.inv0 0 = 0 := by
  show ((Fq12.inv 0).toOption).getD 0 = 0
  rw [show Fq12.inv 0 = .error .inversionOfZero from Fq12_inv_zero]
  rfl

set_option maxHeartbeats 2000000 in
instance : Field Fq12 where
  inv := Fq12.inv0
  exists_pair_ne := ⟨0, 1, by decide⟩
  mul_inv_cancel := Fq12.mul_inv0_cancel
  inv_zero := Fq12.inv0_zero
  nnqsmul := _
  qsmul := _

def Fq12.equivProd : Fq12 ≃ Fq6 × Fq6 :=
  ⟨fun a => (a.x, a.y), fun p => ⟨p.1, p.2⟩, fun _ => rfl, fun _ => rfl⟩

instance : Fintype Fq12 := Fintype.ofEquiv (Fq6 × Fq6) Fq12.equivProd.symm

theorem Fq12_card : Fintype.card Fq12 = P ^ 12 := by
  rw [Fintype.card_congr Fq12.equivProd, Fintype.card_prod, Fq6_card]
  ring

/-!
## Claim C6 — inversion in `Fq`, `Fq2`, `Fq6`, `Fq12`
-/

/-- C6: in each of the four fields, `inv` raises `InversionOfZero` exactly
on the zero element, and on every nonzero element it returns a value whose
product with the input is the multiplicative identity. -/
theorem C6_field_inversion (a : Fq) (b : Fq2) (c : Fq6) (d : Fq12) :
    (Fq.inv a = .error .inversionOfZero ↔ a = Fq.zero) ∧
    (a ≠ Fq.zero → ∃ r, Fq.inv a = .ok r ∧ a.mul r = Fq.one) ∧
    (Fq2.inv b = .error .inversionOfZero ↔ b = Fq2.zero) ∧
    (b ≠ Fq2.zero → ∃ r, Fq2.inv b = .ok r ∧ b.mul r = Fq2.one) ∧
    (Fq6.inv c = .error .inversionOfZero ↔ c = Fq6.zero) ∧
    (c ≠ Fq6.zero → ∃ r, Fq6.inv c = .ok r ∧ c.mul r = Fq6.one) ∧
    (Fq12.inv d = .error .inversionOfZero ↔ d = Fq12.zero) ∧
    (d ≠ Fq12.zero → ∃ r, Fq12.inv d = .ok r ∧ d.mul r = Fq12.one) := by
  refine ⟨⟨fun he => ?_, fun h => ?_⟩, fun h => Fq_inv_ok a h,
    ⟨fun he => ?_, fun h => ?_⟩, fun h => Fq2_inv_ok b h,
    ⟨fun he => ?_, fun h => ?_⟩, fun h => Fq6_inv_ok c h,
    ⟨fun he => ?_, fun h => ?_⟩, fun h => Fq12_inv_ok d h⟩
  · by_contra hne
    obtain ⟨r, hr, _⟩ := Fq_inv_ok a hne
    exact Except.noConfusion (hr.symm.trans he)
  · subst h; exact Fq_inv_zero
  · by_contra hne
    obtain ⟨r, hr, _⟩ := Fq2_inv_ok b hne
    exact Except.noConfusion (hr.symm.trans he)
  · subst h; exact Fq2_inv_zero
  · by_contra hne
    obtain ⟨r, hr, _⟩ := Fq6_inv_ok c hne
    exact Except.noConfusion (hr.symm.trans he)
  · subst h; exact Fq6_inv_zero
  · by_contra hne
    obtain ⟨r, hr, _⟩ := Fq12_inv_ok d hne
    exact Except.noConfusion (hr.symm.trans he)
  · subst h; exact Fq12_inv_zero

theorem C6_field_inversion_witness :
    (Fq.inv Fq.zero = .error .inversionOfZero) ∧
    (∃ r, Fq.inv (2 : Fq) = .ok r ∧ (2 : Fq).mul r = Fq.one) ∧
    (∃ r, Fq2.inv (Fq2.fromTuple 1 2) = .ok r ∧ (Fq2.fromTuple 1 2).mul r = Fq2.one) ∧
    (∃ r, Fq6.inv (Fq6.fromNumber 3) = .ok r ∧ (Fq6.fromNumber 3).mul r = Fq6.one) ∧
    (∃ r, Fq12.inv (Fq12.fromNumber 5) = .ok r ∧ (Fq12.fromNumber 5).mul r = Fq12.one) := by
  obtain ⟨h1, h2, h3, h4, h5, h6, h7, h8⟩ :=
    C6_field_inversion 2 (Fq2.fromTuple 1 2) (Fq6.fromNumber 3) (Fq12.fromNumber 5)
  exact ⟨(C6_field_inversion 0 0 0 0).1.mpr rfl, h2 (by decide), h4 (by decide),
    h6 (by decide), h8 (by decide)⟩

/-!
## Claim C7 — the Frobenius map is the `q`-power map

Bridges first: each source `exp` is the monoid power (`expAux` is
definitionally `bpowAux`), and Fermat reduces the tower exponents.
-/

theorem Fq2.exp_eq_pow_q2 (a : Fq2) (y : ℕ) : Fq2.exp a y = a ^ y := by
  have h : Fq2.expAux y a Fq2.one y = bpowAux y a 1 y := rfl
  show Fq2.expAux y a Fq2.one y = a ^ y
  rw [h, bpowAux_eq y a 1 y le_rfl, one_mul]

theorem Fq6.exp_eq_pow_q6 (a : Fq6) (y : ℕ) : Fq6.exp a y = a ^ y := by
  have h : Fq6.expAux y a Fq6.one y = bpowAux y a 1 y := rfl
  show Fq6.expAux y a Fq6.one y = a ^ y
  rw [h, bpowAux_eq y a 1 y le_rfl, one_mul]

theorem Fq12.exp_eq_pow_q12 (a : Fq12) (y : ℕ) : Fq12.exp a y = a ^ y := by
  have h : Fq12.expAux y a Fq12.one y = bpowAux y a 1 y := rfl
  show Fq12.expAux y a Fq12.one y = a ^ y
  rw [h, bpowAux_eq y a 1 y le_rfl, one_mul]

theorem Fq2_fermat (a : Fq2) (ha : a ≠ 0) : a ^ (P ^ 2 - 1) = 1 := by
  have h := FiniteField.pow_card_sub_one_eq_one a ha
  rwa [Fq2_card] at h

/-- Exponent reduction for the non-residue: `ξ^e` only depends on
`e mod (P² - 1)`. -/
theorem Fq2.nonresidue_pow_reduce (e : ℕ) :
    Fq2.NON_RESIDUE ^ e = Fq2.NON_RESIDUE ^ (e % (P ^ 2 - 1)) :=
  pow_eq_pow_mod e (Fq2_fermat Fq2.NON_RESIDUE (by decide))

/-- The embedding of `Fq` on the first coordinate of `Fq2` is a ring hom. -/
def iq : Fq →+* Fq2 where
  toFun c := ⟨c, 0⟩
  map_one' := rfl
  map_mul' a b := by
    apply Fq2.ext_xy <;> simp only [Fq2.mul_x, Fq2.mul_y] <;> ring
  map_zero' := rfl
  map_add' a b := by
    apply Fq2.ext_xy <;> simp only [Fq2.add_x, Fq2.add_y] <;> ring

theorem iq_x (c : Fq) : (iq c).x = c := rfl
theorem iq_y (c : Fq) : (iq c).y = 0 := rfl

theorem iq_injective : Function.Injective iq := by
  intro a b h
  exact congrArg Fq2.x h

instance : CharP Fq2 P := charP_of_injective_ringHom iq_injective P

/-- The generator `u` of `Fq2` over `Fq` (`u² = -1`). -/
def Fq2.u : Fq2 := ⟨0, 1⟩

theorem Fq2.u_sq : Fq2.u ^ 2 = -1 := by decide

theorem Fq2.decompose_u (c : Fq2) : c = iq c.x + iq c.y * Fq2.u := by
  apply Fq2.ext_xy <;>
    simp only [Fq2.add_x, Fq2.add_y, Fq2.mul_x, Fq2.mul_y, iq_x, iq_y] <;>
    simp only [show Fq2.u.x = 0 from rfl, show Fq2.u.y = 1 from rfl] <;>
    ring

theorem Fq2.conj_eq (c : Fq2) : c.conjugate = iq c.x - iq c.y * Fq2.u := by
  apply Fq2.ext_xy <;>
    simp only [Fq2.sub_x, Fq2.sub_y, Fq2.mul_x, Fq2.mul_y, iq_x, iq_y] <;>
    simp only [show Fq2.u.x = 0 from rfl, show Fq2.u.y = 1 from rfl,
      show (Fq2.conjugate c).x = c.x from rfl,
      show (Fq2.conjugate c).y = -c.y from rfl] <;>
    ring

theorem u_pow_card : Fq2.u ^ P = -Fq2.u := by
  have hP : P = 2 * ((P - 1) / 2) + 1 := by decide!
  have hodd : Odd ((P - 1) / 2) := Nat.odd_iff.mpr (by decide!)
  calc Fq2.u ^ P = Fq2.u ^ (2 * ((P - 1) / 2) + 1) := by rw [← hP]
  _ = (Fq2.u ^ 2) ^ ((P - 1) / 2) * Fq2.u := by rw [pow_succ, pow_mul]
  _ = (-1 : Fq2) ^ ((P - 1) / 2) * Fq2.u := by rw [Fq2.u_sq]
  _ = -Fq2.u := by rw [Odd.neg_one_pow hodd, neg_one_mul]

/-- The `P`-power map on `Fq2` is conjugation. -/
theorem Fq2.pow_card (c : Fq2) : c ^ P = c.conjugate := by
  have h1 : c ^ P = frobenius Fq2 P c := (frobenius_def P c).symm
  rw [h1]
  conv_lhs => rw [Fq2.decompose_u c]
  rw [map_add, map_mul, frobenius_def, frobenius_def, frobenius_def]
  rw [← map_pow iq, ZMod.pow_card, ← map_pow iq, ZMod.pow_card, u_pow_card]
  rw [Fq2.conj_eq]
  ring

theorem Fq2.conj_conj (c : Fq2) : c.conjugate.conjugate = c := by
  apply Fq2.ext_xy
  · rfl
  · exact neg_neg c.y

theorem Fq2.pow_card_sq (c : Fq2) : c ^ P ^ 2 = c := by
  have h : P ^ 2 = P * P := by ring
  rw [h, pow_mul, Fq2.pow_card, Fq2.pow_card, Fq2.conj_conj]

theorem Fq2.pow_card_cube (c : Fq2) : c ^ P ^ 3 = c.conjugate := by
  have h : P ^ 3 = P ^ 2 * P := by ring
  rw [h, pow_mul, Fq2.pow_card_sq, Fq2.pow_card]

theorem Fq2.pow_card_six (c : Fq2) : c ^ P ^ 6 = c := by
  have h : P ^ 6 = P ^ 2 * P ^ 2 * P ^ 2 := by ring
  rw [h, pow_mul, pow_mul, Fq2.pow_card_sq, Fq2.pow_card_sq, Fq2.pow_card_sq]

theorem Fq2.frob1_eq (c : Fq2) : c ^ P ^ 1 = c.frobeniusMap 1 := by
  rw [pow_one, Fq2.pow_card]; rfl

theorem Fq2.frob2_eq (c : Fq2) : c ^ P ^ 2 = c.frobeniusMap 2 := by
  rw [Fq2.pow_card_sq]; rfl

theorem Fq2.frob3_eq (c : Fq2) : c ^ P ^ 3 = c.frobeniusMap 3 := by
  rw [Fq2.pow_card_cube]; rfl

theorem Fq2.frob6_eq (c : Fq2) : c ^ P ^ 6 = c.frobeniusMap 6 := by
  rw [Fq2.pow_card_six]; rfl

/-- The composite embedding `Fq2 → Fq12`. -/
def iw : Fq2 →+* Fq12 := i6.comp i2

theorem iw_apply (c : Fq2) : i6 (i2 c) = iw c := rfl

theorem iw_injective : Function.Injective iw := iw.injective

instance : CharP Fq12 P := charP_of_injective_ringHom iw_injective P

/-- The image of the cubic generator `v` inside `Fq12`. -/
def V12 : Fq12 := i6 Fq6.v

theorem V12_eq : i6 Fq6.v = V12 := rfl

theorem V12_cube : V12 ^ 3 = iw Fq2.NON_RESIDUE := by
  show (i6 Fq6.v) ^ 3 = i6 (i2 Fq2.NON_RESIDUE)
  rw [← map_pow, Fq6.v_cube]

theorem w_six : Fq12.w ^ 6 = iw Fq2.NON_RESIDUE := by
  have h : Fq12.w ^ 6 = (Fq12.w ^ 2) ^ 3 := by ring
  rw [h, Fq12.w_sq]
  exact V12_cube

theorem V_pow_q (e k : ℕ) (h : e = 3 * k + 1) :
    V12 ^ e = iw (Fq2.NON_RESIDUE ^ k) * V12 := by
  subst h
  rw [pow_succ, pow_mul, V12_cube, ← map_pow]

theorem w_pow_q (e m : ℕ) (h : e = 6 * m + 1) :
    Fq12.w ^ e = iw (Fq2.NON_RESIDUE ^ m) * Fq12.w := by
  subst h
  rw [pow_succ, pow_mul, w_six, ← map_pow]

/-- Every element of `Fq12` decomposes over the basis `1, v, v², w, v·w, v²·w`
with `Fq2` coordinates. -/
theorem Fq12.decompose6 (b : Fq12) :
    b = iw b.x.x + iw b.x.y * V12 + iw b.x.z * V12 ^ 2
      + (iw b.y.x + iw b.y.y * V12 + iw b.y.z * V12 ^ 2) * Fq12.w := by
  conv_lhs => rw [Fq12.decompose12 b, Fq6.decompose b.x, Fq6.decompose b.y]
  simp only [map_add, map_mul]
  simp only [iw_apply, V12_eq]
  ring

/-- The coefficient tables index as the generating formula. -/
theorem frobeniusCoeffs_getD (nr : Fq2) (modulus degree num divisor i c : ℕ)
    (hi : i < num) (hc : c < degree) :
    ((frobeniusCoeffs nr modulus degree num divisor).getD i []).getD c Fq2.zero
      = nr.exp ((((i + 1) * modulus ^ c - (i + 1)).div divisor).mod (modulus ^ degree)) := by
  have h1 : (frobeniusCoeffs nr modulus degree num divisor).getD i [] =
      ((List.range degree).map fun j =>
        (i + 1) * modulus ^ j - (i + 1) |>.div divisor |>.mod (modulus ^ degree)).map
          fun p => nr.exp p := by
    unfold frobeniusCoeffs frobeniusCoeffsPowers
    rw [List.getD_eq_getElem _ _ (by simpa using hi)]
    rw [List.getElem_map, List.getElem_map, List.getElem_range]
  rw [h1, List.getD_eq_getElem _ _ (by simpa using hc)]
  rw [List.getElem_map, List.getElem_map, List.getElem_range]

theorem coeffs6_def : Fq6.FROBENIUS_COEFFICIENTS = frobeniusCoeffs Fq2.NON_RESIDUE P 6 2 3 := rfl

theorem coeffs12_def :
    Fq12.FROBENIUS_COEFFICIENTS = frobeniusCoeffs Fq2.NON_RESIDUE P 12 1 6 := rfl

theorem coeff6_r0_c1 :
    (Fq6.FROBENIUS_COEFFICIENTS.getD 0 []).getD (1 % 6) Fq2.zero
      = Fq2.NON_RESIDUE ^ ((P ^ 1 - 1) / 3) := by
  rw [coeffs6_def, frobeniusCoeffs_getD Fq2.NON_RESIDUE P 6 2 3 0 (1 % 6) (by decide) (by decide)]
  rw [Fq2.exp_eq_pow_q2]
  rw [Fq2.nonresidue_pow_reduce]
  conv_rhs => rw [Fq2.nonresidue_pow_reduce]
  congr 1 <;> decide!

theorem coeff6_r0_c2 :
    (Fq6.FROBENIUS_COEFFICIENTS.getD 0 []).getD (2 % 6) Fq2.zero
      = Fq2.NON_RESIDUE ^ ((P ^ 2 - 1) / 3) := by
  rw [coeffs6_def, frobeniusCoeffs_getD Fq2.NON_RESIDUE P 6 2 3 0 (2 % 6) (by decide) (by decide)]
  rw [Fq2.exp_eq_pow_q2]
  rw [Fq2.nonresidue_pow_reduce]
  conv_rhs => rw [Fq2.nonresidue_pow_reduce]
  congr 1 <;> decide!

theorem coeff6_r0_c3 :
    (Fq6.FROBENIUS_COEFFICIENTS.getD 0 []).getD (3 % 6) Fq2.zero
      = Fq2.NON_RESIDUE ^ ((P ^ 3 - 1) / 3) := by
  rw [coeffs6_def, frobeniusCoeffs_getD Fq2.NON_RESIDUE P 6 2 3 0 (3 % 6) (by decide) (by decide)]
  rw [Fq2.exp_eq_pow_q2]
  rw [Fq2.nonresidue_pow_reduce]
  conv_rhs => rw [Fq2.nonresidue_pow_reduce]
  congr 1 <;> decide!

theorem coeff6_r0_c6 :
    (Fq6.FROBENIUS_COEFFICIENTS.getD 0 []).getD (6 % 6) Fq2.zero
      = Fq2.NON_RESIDUE ^ ((P ^ 6 - 1) / 3) := by
  rw [coeffs6_def, frobeniusCoeffs_getD Fq2.NON_RESIDUE P 6 2 3 0 (6 % 6) (by decide) (by decide)]
  rw [Fq2.exp_eq_pow_q2]
  rw [Fq2.nonresidue_pow_reduce]
  conv_rhs => rw [Fq2.nonresidue_pow_reduce]
  congr 1 <;> decide!

theorem coeff6_r1_c1 :
    (Fq6.FROBENIUS_COEFFICIENTS.getD 1 []).getD (1 % 6) Fq2.zero
      = Fq2.NON_RESIDUE ^ ((P ^ 1 - 1) / 3) * Fq2.NON_RESIDUE ^ ((P ^ 1 - 1) / 3) := by
  rw [coeffs6_def, frobeniusCoeffs_getD Fq2.NON_RESIDUE P 6 2 3 1 (1 % 6) (by decide) (by decide)]
  rw [Fq2.exp_eq_pow_q2, ← pow_add]
  rw [Fq2.nonresidue_pow_reduce]
  conv_rhs => rw [Fq2.nonresidue_pow_reduce]
  congr 1 <;> decide!

theorem coeff6_r1_c2 :
    (Fq6.FROBENIUS_COEFFICIENTS.getD 1 []).getD (2 % 6) Fq2.zero
      = Fq2.NON_RESIDUE ^ ((P ^ 2 - 1) / 3) * Fq2.NON_RESIDUE ^ ((P ^ 2 - 1) / 3) := by
  rw [coeffs6_def, frobeniusCoeffs_getD Fq2.NON_RESIDUE P 6 2 3 1 (2 % 6) (by decide) (by decide)]
  rw [Fq2.exp_eq_pow_q2, ← pow_add]
  rw [Fq2.nonresidue_pow_reduce]
  conv_rhs => rw [Fq2.nonresidue_pow_reduce]
  congr 1 <;> decide!

theorem coeff6_r1_c3 :
    (Fq6.FROBENIUS_COEFFICIENTS.getD 1 []).getD (3 % 6) Fq2.zero
      = Fq2.NON_RESIDUE ^ ((P ^ 3 - 1) / 3) * Fq2.NON_RESIDUE ^ ((P ^ 3 - 1) / 3) := by
  rw [coeffs6_def, frobeniusCoeffs_getD Fq2.NON_RESIDUE P 6 2 3 1 (3 % 6) (by decide) (by decide)]
  rw [Fq2.exp_eq_pow_q2, ← pow_add]
  rw [Fq2.nonresidue_pow_reduce]
  conv_rhs => rw [Fq2.nonresidue_pow_reduce]
  congr 1 <;> decide!

theorem coeff6_r1_c6 :
    (Fq6.FROBENIUS_COEFFICIENTS.getD 1 []).getD (6 % 6) Fq2.zero
      = Fq2.NON_RESIDUE ^ ((P ^ 6 - 1) / 3) * Fq2.NON_RESIDUE ^ ((P ^ 6 - 1) / 3) := by
  rw [coeffs6_def, frobeniusCoeffs_getD Fq2.NON_RESIDUE P 6 2 3 1 (6 % 6) (by decide) (by decide)]
  rw [Fq2.exp_eq_pow_q2, ← pow_add]
  rw [Fq2.nonresidue_pow_reduce]
  conv_rhs => rw [Fq2.nonresidue_pow_reduce]
  congr 1 <;> decide!

theorem coeff12_c1 :
    (Fq12.FROBENIUS_COEFFICIENTS.getD 0 []).getD (1 % 12) Fq2.zero
      = Fq2.NON_RESIDUE ^ ((P ^ 1 - 1) / 6) := by
  rw [coeffs12_def,
    frobeniusCoeffs_getD Fq2.NON_RESIDUE P 12 1 6 0 (1 % 12) (by decide) (by decide)]
  rw [Fq2.exp_eq_pow_q2]
  rw [Fq2.nonresidue_pow_reduce]
  conv_rhs => rw [Fq2.nonresidue_pow_reduce]
  congr 1 <;> decide!

theorem coeff12_c2 :
    (Fq12.FROBENIUS_COEFFICIENTS.getD 0 []).getD (2 % 12) Fq2.zero
      = Fq2.NON_RESIDUE ^ ((P ^ 2 - 1) / 6) := by
  rw [coeffs12_def,
    frobeniusCoeffs_getD Fq2.NON_RESIDUE P 12 1 6 0 (2 % 12) (by decide) (by decide)]
  rw [Fq2.exp_eq_pow_q2]
  rw [Fq2.nonresidue_pow_reduce]
  conv_rhs => rw [Fq2.nonresidue_pow_reduce]
  congr 1 <;> decide!

theorem coeff12_c3 :
    (Fq12.FROBENIUS_COEFFICIENTS.getD 0 []).getD (3 % 12) Fq2.zero
      = Fq2.NON_RESIDUE ^ ((P ^ 3 - 1) / 6) := by
  rw [coeffs12_def,
    frobeniusCoeffs_getD Fq2.NON_RESIDUE P 12 1 6 0 (3 % 12) (by decide) (by decide)]
  rw [Fq2.exp_eq_pow_q2]
  rw [Fq2.nonresidue_pow_reduce]
  conv_rhs => rw [Fq2.nonresidue_pow_reduce]
  congr 1 <;> decide!

theorem coeff12_c6 :
    (Fq12.FROBENIUS_COEFFICIENTS.getD 0 []).getD (6 % 12) Fq2.zero
      = Fq2.NON_RESIDUE ^ ((P ^ 6 - 1) / 6) := by
  rw [coeffs12_def,
    frobeniusCoeffs_getD Fq2.NON_RESIDUE P 12 1 6 0 (6 % 12) (by decide) (by decide)]
  rw [Fq2.exp_eq_pow_q2]
  rw [Fq2.nonresidue_pow_reduce]
  conv_rhs => rw [Fq2.nonresidue_pow_reduce]
  congr 1 <;> decide!

theorem frob12_xx (a : Fq12) (n : ℕ) :
    (a.frobeniusMap n).x.x = a.x.x.frobeniusMap n := rfl

theorem frob12_xy (a : Fq12) (n : ℕ) :
    (a.frobeniusMap n).x.y = (a.x.y.frobeniusMap n).mul
      ((Fq6.FROBENIUS_COEFFICIENTS.getD 0 []).getD (n % 6) Fq2.zero) := rfl

theorem frob12_xz (a : Fq12) (n : ℕ) :
    (a.frobeniusMap n).x.z = (a.x.z.frobeniusMap n).mul
      ((Fq6.FROBENIUS_COEFFICIENTS.getD 1 []).getD (n % 6) Fq2.zero) := rfl

theorem frob12_yx (a : Fq12) (n : ℕ) :
    (a.frobeniusMap n).y.x = (a.y.x.frobeniusMap n).mul
      ((Fq12.FROBENIUS_COEFFICIENTS.getD 0 []).getD (n % 12) Fq2.zero) := rfl

theorem frob12_yy (a : Fq12) (n : ℕ) :
    (a.frobeniusMap n).y.y = ((a.y.y.frobeniusMap n).mul
      ((Fq6.FROBENIUS_COEFFICIENTS.getD 0 []).getD (n % 6) Fq2.zero)).mul
      ((Fq12.FROBENIUS_COEFFICIENTS.getD 0 []).getD (n % 12) Fq2.zero) := rfl

theorem frob12_yz (a : Fq12) (n : ℕ) :
    (a.frobeniusMap n).y.z = ((a.y.z.frobeniusMap n).mul
      ((Fq6.FROBENIUS_COEFFICIENTS.getD 1 []).getD (n % 6) Fq2.zero)).mul
      ((Fq12.FROBENIUS_COEFFICIENTS.getD 0 []).getD (n % 12) Fq2.zero) := rfl

/-- The generic step: when the table entries agree with the relevant powers of
the non-residue and the `Fq2`-level Frobenius is the `Pⁿ`-power map, the
`Fq12` Frobenius is the `Pⁿ`-power map. -/
theorem frob_core (n k m : ℕ)
    (hq2 : ∀ c : Fq2, c ^ P ^ n = c.frobeniusMap n)
    (h3 : P ^ n = 3 * k + 1)
    (h6 : P ^ n = 6 * m + 1)
    (hc0 : (Fq6.FROBENIUS_COEFFICIENTS.getD 0 []).getD (n % 6) Fq2.zero
        = Fq2.NON_RESIDUE ^ k)
    (hc1 : (Fq6.FROBENIUS_COEFFICIENTS.getD 1 []).getD (n % 6) Fq2.zero
        = Fq2.NON_RESIDUE ^ k * Fq2.NON_RESIDUE ^ k)
    (hco : (Fq12.FROBENIUS_COEFFICIENTS.getD 0 []).getD (n % 12) Fq2.zero
        = Fq2.NON_RESIDUE ^ m)
    (a : Fq12) : a.frobeniusMap n = a ^ P ^ n := by
  have hphi : ∀ b : Fq12, iterateFrobenius Fq12 P n b = b ^ P ^ n :=
    fun b => iterateFrobenius_def P n b
  have hphiw : ∀ c : Fq2, iterateFrobenius Fq12 P n (iw c) = iw (c.frobeniusMap n) := by
    intro c
    rw [hphi, ← map_pow, hq2]
  have hphiV : iterateFrobenius Fq12 P n V12 = iw (Fq2.NON_RESIDUE ^ k) * V12 := by
    rw [hphi]
    exact V_pow_q _ k h3
  have hphiW : iterateFrobenius Fq12 P n Fq12.w = iw (Fq2.NON_RESIDUE ^ m) * Fq12.w := by
    rw [hphi]
    exact w_pow_q _ m h6
  have hRdec : a ^ P ^ n
      = iw (a.x.x.frobeniusMap n)
        + iw (a.x.y.frobeniusMap n) * (iw (Fq2.NON_RESIDUE ^ k) * V12)
        + iw (a.x.z.frobeniusMap n) * (iw (Fq2.NON_RESIDUE ^ k) * V12) ^ 2
        + (iw (a.y.x.frobeniusMap n)
            + iw (a.y.y.frobeniusMap n) * (iw (Fq2.NON_RESIDUE ^ k) * V12)
            + iw (a.y.z.frobeniusMap n) * (iw (Fq2.NON_RESIDUE ^ k) * V12) ^ 2)
          * (iw (Fq2.NON_RESIDUE ^ m) * Fq12.w) := by
    rw [← hphi a]
    conv_lhs => rw [Fq12.decompose6 a]
    simp only [map_add, map_mul, map_pow, hphiw, hphiV, hphiW]
  conv_lhs => rw [Fq12.decompose6 (a.frobeniusMap n)]
  simp only [frob12_xx, frob12_xy, frob12_xz, frob12_yx, frob12_yy, frob12_yz]
  rw [hc0, hc1, hco]
  simp only [Fq2.mul_def2, map_mul]
  rw [hRdec]
  ring

theorem frob_pow_1 (a : Fq12) : a.frobeniusMap 1 = a ^ P ^ 1 :=
  frob_core 1 ((P ^ 1 - 1) / 3) ((P ^ 1 - 1) / 6) Fq2.frob1_eq (by decide!) (by decide!)
    coeff6_r0_c1 coeff6_r1_c1 coeff12_c1 a

theorem frob_pow_2 (a : Fq12) : a.frobeniusMap 2 = a ^ P ^ 2 :=
  frob_core 2 ((P ^ 2 - 1) / 3) ((P ^ 2 - 1) / 6) Fq2.frob2_eq (by decide!) (by decide!)
    coeff6_r0_c2 coeff6_r1_c2 coeff12_c2 a

theorem frob_pow_3 (a : Fq12) : a.frobeniusMap 3 = a ^ P ^ 3 :=
  frob_core 3 ((P ^ 3 - 1) / 3) ((P ^ 3 - 1) / 6) Fq2.frob3_eq (by decide!) (by decide!)
    coeff6_r0_c3 coeff6_r1_c3 coeff12_c3 a

theorem frob_pow_6 (a : Fq12) : a.frobeniusMap 6 = a ^ P ^ 6 :=
  frob_core 6 ((P ^ 6 - 1) / 3) ((P ^ 6 - 1) / 6) Fq2.frob6_eq (by decide!) (by decide!)
    coeff6_r0_c6 coeff6_r1_c6 coeff12_c6 a

/-- C7: the Frobenius map implemented with the precomputed coefficient tables
is the `q`-power map: for every element `a` of `Fq12` and every power
`n ∈ {1, 2, 3, 6}`, `a.frobeniusMap(n)` equals `a.exp(q^n)` where `q = P` is
the base-field prime. -/
theorem C7_frobeniusMap_is_q_power (a : Fq12) (n : ℕ)
    (h : n = 1 ∨ n = 2 ∨ n = 3 ∨ n = 6) :
    a.frobeniusMap n = a.exp (P ^ n) := by
  rw [Fq12.exp_eq_pow_q12]
  rcases h with rfl | rfl | rfl | rfl
  · exact frob_pow_1 a
  · exact frob_pow_2 a
  · exact frob_pow_3 a
  · exact frob_pow_6 a

theorem C7_frobeniusMap_is_q_power_witness :
    Fq12.one.frobeniusMap 1 = Fq12.one.exp (P ^ 1) :=
  C7_frobeniusMap_is_q_power Fq12.one 1 (Or.inl rfl)
